import Mathlib

/-!
# Tetris mechanics: board, pieces and the game loop

A shallow embedding of `Grid.js`, `Piece.js` and `sketch.js`.

* JavaScript arrays are lists; an index that is negative or past the end reads
  `undefined`, and using `undefined` as an object throws a `TypeError`.
  Every operation that can throw returns an `Option`; `none` is the throw.
* Loops with an unbounded trip count take a fuel argument; `none` then also
  stands for "did not finish within the fuel".
* The colour thunks of `COLOR` are compared by identity, so a colour is a tag.
* Pixel data (`cellSize`, `pixel`, `Cell.size`, `Cell.offset`) and the drawing
  routines do not influence any cell, piece or counter and are left out.
* The hooks `updateLines`, `updateScore` and `updateLevel` are defined outside
  these three files; they are parameters (`Hooks`) acting on `GAME`.
* Time is in whole milliseconds; `millis()` and the random draws are inputs of
  the frame function.
-/

namespace Tetris

/-! ## Loop combinators -/

/-- The loop `for (let i = 0; i < n; i++) s = body(i, s)` with a body that may throw. -/
def forUp {σ : Type} : Nat → (Nat → σ → Option σ) → σ → Option σ
  | 0, _, s => some s
  | n + 1, body, s => (forUp n body s).bind (body n)

/-- The loop `for (let i = n; i > 0; i--) s = body(i, s)` with a body that may throw. -/
def forDown {σ : Type} : Nat → (Nat → σ → Option σ) → σ → Option σ
  | 0, _, s => some s
  | n + 1, body, s => (body (n + 1) s).bind (forDown n body)

/-- The loop `for (let i = 0; i < n; i++) if (!p(i)) return false;` followed by
`return true`, where the test may throw. -/
def allUp : Nat → (Nat → Option Bool) → Option Bool
  | 0, _ => some true
  | n + 1, p =>
    match allUp n p with
    | some true => p n
    | r => r

/-- Array read `xs[i]` for an integer index: `none` is `undefined`. -/
def jsIndex {α : Type} (xs : List α) (i : Int) : Option α :=
  if i < 0 then none else xs[i.toNat]?

/-- `Array.prototype.map` whose callback receives the element and its index
and may throw. -/
def jsMap {α β : Type} (f : α → Nat → Option β) : List α → Nat → Option (List β)
  | [], _ => some []
  | a :: rest, i =>
    match f a i with
    | none => none
    | some b => (jsMap f rest (i + 1)).map (fun bs => b :: bs)

/-- The test `v != 0` on a shape entry; `none` is `undefined`, and `undefined != 0` holds. -/
def jsNonZero : Option Int → Bool
  | none => true
  | some v => v != 0

/-- Truthiness of a shape entry, as in `if (v)`; `undefined` is falsy. -/
def jsTruthy : Option Int → Bool
  | none => false
  | some v => v != 0

/-- The value `ceil(a / 2)` for an integer `a`. -/
def ceilHalf (a : Int) : Int := (a + 1) / 2

/-! ## Cells and the grid -/

/-- The keys of `COLOR`. -/
inductive Color
  | grey | cyan | yellow | purple | green | red | blue | orange | black | white
deriving DecidableEq

/-- A cell of the grid: its colour and its occupancy flag. -/
structure Cell where
  color : Color
  active : Bool
deriving DecidableEq

/-- The `Cell` constructor. -/
def Cell.new : Cell := { color := Color.white, active := false }

/-- The method `Cell.fill(color)`. -/
def Cell.fill (c : Cell) (color : Color) : Cell := { c with active := true, color := color }

/-- The method `Cell.reset()`. -/
def Cell.reset (c : Cell) : Cell := { c with color := Color.white, active := false }

/-- The game grid: `width`, `height` and the array `cells[row][col]`. -/
structure Grid where
  width : Nat
  height : Nat
  cells : List (List Cell)
deriving DecidableEq

/-- The `Grid` constructor together with `init()`. -/
def Grid.new (width height : Nat) : Grid :=
  { width := width
    height := height
    cells := (List.range height).map (fun _ => (List.range width).map (fun _ => Cell.new)) }

/-- The array invariant of a grid: `height` rows of `width` cells each. -/
def Grid.WF (g : Grid) : Prop :=
  g.cells.length = g.height ∧ ∀ row ∈ g.cells, row.length = g.width

instance (g : Grid) : Decidable g.WF := by
  unfold Grid.WF
  infer_instance

/-- The cell invariant: an unoccupied cell carries the default colour. -/
def Grid.CellInv (g : Grid) : Prop :=
  ∀ row ∈ g.cells, ∀ c ∈ row, c.active = false → c.color = Color.white

instance (g : Grid) : Decidable g.CellInv := by
  unfold Grid.CellInv
  infer_instance

/-- The read `this.cells[row][col]`; `none` when it would throw or be `undefined`. -/
def Grid.cellAt (g : Grid) (row col : Int) : Option Cell :=
  (jsIndex g.cells row).bind (fun r => jsIndex r col)

/-- An in-place update of the cell object `this.cells[row][col]`. -/
def Grid.modifyCell (g : Grid) (row col : Int) (f : Cell → Cell) : Option Grid :=
  match jsIndex g.cells row with
  | none => none
  | some r =>
    match jsIndex r col with
    | none => none
    | some c => some { g with cells := g.cells.set row.toNat (r.set col.toNat (f c)) }

/-- The method `Grid.reset()`. -/
def Grid.reset (g : Grid) : Option Grid :=
  forUp g.height (fun row g1 =>
    forUp g.width (fun col g2 => g2.modifyCell row col Cell.reset) g1) g

/-! ## Pieces -/

/-- The keys of `PIECES`. -/
inductive PieceType
  | O | J | L | S | Z | T | I | Gameover
deriving DecidableEq

/-- The table `PIECES`. -/
def PIECES : PieceType → List (List Int)
  | PieceType.O => [[1, 1], [1, 1]]
  | PieceType.J => [[1, 0, 0], [1, 1, 1], [0, 0, 0]]
  | PieceType.L => [[0, 0, 1], [1, 1, 1], [0, 0, 0]]
  | PieceType.S => [[0, 1, 1], [1, 1, 0], [0, 0, 0]]
  | PieceType.Z => [[1, 1, 0], [0, 1, 1], [0, 0, 0]]
  | PieceType.T => [[0, 1, 0], [1, 1, 1], [0, 0, 0]]
  | PieceType.I => [[0, 0, 0, 0], [1, 1, 1, 1], [0, 0, 0, 0], [0, 0, 0, 0]]
  | PieceType.Gameover =>
    [[1, 0, 1, 0, 0, 1, 0, 1],
     [0, 1, 0, 0, 0, 0, 1, 0],
     [1, 0, 1, 0, 0, 1, 0, 1],
     [0, 0, 0, 0, 0, 0, 0, 0],
     [0, 0, 0, 0, 0, 0, 0, 0],
     [0, 0, 1, 1, 1, 1, 0, 0],
     [0, 1, 0, 0, 0, 0, 1, 0],
     [0, 0, 0, 0, 0, 0, 0, 0]]

/-- The table `PIECE_COLORS`. -/
def PIECE_COLORS : PieceType → Color
  | PieceType.I => Color.cyan
  | PieceType.J => Color.blue
  | PieceType.L => Color.orange
  | PieceType.O => Color.yellow
  | PieceType.S => Color.green
  | PieceType.T => Color.purple
  | PieceType.Z => Color.red
  | PieceType.Gameover => Color.black

/-- The global `DROP_INTERVAL`, in milliseconds. -/
def DROP_INTERVAL : Nat := 799

/-- A piece; times are whole milliseconds. -/
structure Piece where
  type : PieceType
  representation : List (List Int)
  color : Color
  rotation : Nat
  size : Nat
  x : Int
  y : Int
  dropBuffer : Nat
deriving DecidableEq

/-- The `Piece` constructor; `none` for an argument is `undefined`. It reads the global grid. -/
def Piece.new (grid : Grid) (type : PieceType) (x y : Option Int) : Piece :=
  { type := type
    representation := PIECES type
    color := PIECE_COLORS type
    rotation := 0
    size := (PIECES type).length
    x := match x with
      | none => ceilHalf ((grid.width : Int) - ((PIECES type).length : Int))
      | some v => v
    y := match y with
      | none => 0
      | some v => v
    dropBuffer := 0 }

/-- A square matrix of side `n`. -/
def Square (n : Nat) (m : List (List Int)) : Prop :=
  m.length = n ∧ ∀ row ∈ m, row.length = n

instance (n : Nat) (m : List (List Int)) : Decidable (Square n m) := by
  unfold Square
  infer_instance

/-- The shape invariant of a piece: `size` is the side of its square matrix. -/
def Piece.WF (p : Piece) : Prop := Square p.size p.representation

instance (p : Piece) : Decidable p.WF := by
  unfold Piece.WF
  infer_instance

/-- The method `update(time)`. -/
def Piece.update (p : Piece) (time : Nat) : Piece := { p with dropBuffer := p.dropBuffer + time }

/-- The getter `dropReady`. -/
def Piece.dropReady (p : Piece) : Bool := decide (p.dropBuffer > DROP_INTERVAL)

/-- The method `resetBuffer()`. -/
def Piece.resetBuffer (p : Piece) : Piece := { p with dropBuffer := 0 }

/-- The method `moveDown()`. -/
def Piece.moveDown (p : Piece) : Piece := { p with y := p.y + 1 }

/-- The method `moveRight()`. -/
def Piece.moveRight (p : Piece) : Piece := { p with x := p.x + 1 }

/-- The method `moveLeft()`. -/
def Piece.moveLeft (p : Piece) : Piece := { p with x := p.x - 1 }

/-- The method `moveUp()`. -/
def Piece.moveUp (p : Piece) : Piece := { p with y := p.y - 1 }

/-- The matrix computed by `rotateCW()`. An entry read that yields `undefined`
(possible only for a matrix that is not square) is reported as `none`. -/
def rotateCWMatrix (rep : List (List Int)) : Option (List (List Int)) :=
  jsMap (fun row i =>
    jsMap (fun _ j =>
      (jsIndex rep ((rep.length : Int) - 1 - (j : Int))).bind (fun r => r[i]?)) row 0) rep 0

/-- The matrix computed by `rotateCCW()`; it starts from `representation[0]`,
so it throws on an empty matrix. An `undefined` entry is reported as `none`. -/
def rotateCCWMatrix (rep : List (List Int)) : Option (List (List Int)) :=
  match rep[0]? with
  | none => none
  | some first =>
    jsMap (fun _ index =>
      jsMap (fun row _ => jsIndex row ((row.length : Int) - 1 - (index : Int))) rep 0) first 0

/-- The method `rotateCW()`. -/
def Piece.rotateCW (p : Piece) : Option Piece :=
  (rotateCWMatrix p.representation).map (fun r => { p with representation := r })

/-- The method `rotateCCW()`. -/
def Piece.rotateCCW (p : Piece) : Option Piece :=
  (rotateCCWMatrix p.representation).map (fun r => { p with representation := r })

/-- The number of filled (non-zero) entries of a shape matrix. -/
def filledCount (m : List (List Int)) : Nat :=
  (m.map (fun row => (row.filter (fun v => v != 0)).length)).sum

/-! ## Grid operations on pieces and lines -/

/-- The method `Grid.insertPiece(piece)`. -/
def Grid.insertPiece (g : Grid) (piece : Piece) : Option Grid :=
  forUp piece.size (fun row g1 =>
    forUp piece.size (fun col g2 =>
      match piece.representation[row]? with
      | none => none
      | some shapeRow =>
        if jsTruthy shapeRow[col]? then
          g2.modifyCell (piece.y + row) (piece.x + col) (fun c => c.fill piece.color)
        else some g2) g1) g

/-- The method `Grid.clearPiece(piece)`. -/
def Grid.clearPiece (g : Grid) (piece : Piece) : Option Grid :=
  forUp piece.size (fun row g1 =>
    forUp piece.size (fun col g2 =>
      match piece.representation[row]? with
      | none => none
      | some shapeRow =>
        if jsTruthy shapeRow[col]? then
          g2.modifyCell (piece.y + row) (piece.x + col) Cell.reset
        else some g2) g1) g

/-- The method `Grid.isLineFull(row)`. -/
def Grid.isLineFull (g : Grid) (row : Int) : Option Bool :=
  allUp g.width (fun col => (g.cellAt row col).map (fun c => c.active))

/-- The method `Grid.clearLine(n)`. -/
def Grid.clearLine (g : Grid) (n : Nat) : Option Grid :=
  (forDown n (fun row g1 =>
    forUp g.width (fun col g2 =>
      match g2.cellAt ((row : Int) - 1) col with
      | none => none
      | some cellabove =>
        (g2.modifyCell row col (fun c => { c with active := cellabove.active })).bind
          (fun g3 => g3.modifyCell row col (fun c => { c with color := cellabove.color }))) g1) g).bind
    (fun g4 => forUp g.width (fun col g5 => g5.modifyCell 0 col Cell.reset) g4)

/-- The scanning loop of `clearFullLines()`: `row` is the loop variable and
`lines` the counter. After a clear, `row++` and the loop's `row--` cancel. -/
def clearFullLinesLoop : Nat → Grid → Int → Nat → Option (Grid × Nat)
  | 0, _, _, _ => none
  | fuel + 1, g, row, lines =>
    if row ≥ 0 then
      match g.isLineFull row with
      | none => none
      | some true =>
        match g.clearLine row.toNat with
        | none => none
        | some g1 => clearFullLinesLoop fuel g1 (row + 1 - 1) (lines + 1)
      | some false => clearFullLinesLoop fuel g (row - 1) lines
    else some (g, lines)

/-- The board part of `Grid.clearFullLines()`: the resulting grid and the value
of `lines` that is handed to `updateScore`. The hooks `updateLines`,
`updateScore` and `updateLevel` act on `GAME` only. The fuel `2 * height + 1`
covers one test per row and one more per clear. -/
def Grid.clearFullLines (g : Grid) : Option (Grid × Nat) :=
  clearFullLinesLoop (2 * g.height + 1) g ((g.height : Int) - 1) 0

/-- The method `Grid.isValid(piece)`. -/
def Grid.isValid (g : Grid) (piece : Piece) : Option Bool :=
  allUp piece.size (fun row =>
    allUp piece.size (fun col =>
      match piece.representation[row]? with
      | none => none
      | some shapeRow =>
        if jsNonZero shapeRow[col]? then
          if piece.y + row < 0 ∨ piece.y + row ≥ g.height ∨
              piece.x + col < 0 ∨ piece.x + col ≥ g.width then
            some false
          else
            match g.cellAt (piece.y + row) (piece.x + col) with
            | none => none
            | some c => if c.active then some false else some true
        else some true))

/-- The `while` loop of `hardDrop()`. -/
def hardDropLoop : Nat → Grid → Piece → Option Piece
  | 0, _, _ => none
  | fuel + 1, g, p =>
    match g.isValid p with
    | none => none
    | some true => hardDropLoop fuel g p.moveDown
    | some false => some p

/-- The method `hardDrop()`, called on the active piece. -/
def Piece.hardDrop (fuel : Nat) (g : Grid) (activePiece : Piece) : Option Piece :=
  (hardDropLoop fuel g activePiece).map (fun p => { p.moveUp with dropBuffer := DROP_INTERVAL })

/-! ## The game loop controller -/

/-- The object `GAME`. -/
structure GameVars where
  paused : Bool
  controlsLocked : Bool
  level : Nat
  score : Nat
  linescleared : Nat
deriving DecidableEq

/-- The runtime variables of `sketch.js`; `looping` is cleared by `noLoop()`. -/
structure State where
  GAME : GameVars
  grid : Grid
  activePiece : Option Piece
  nextType : PieceType
  prev : Nat
  looping : Bool
deriving DecidableEq

/-- The call `random(["O", "J", "L", "S", "Z", "T", "I"])` with the drawn position `d`. -/
def randomType (d : Fin 7) : PieceType :=
  match d with
  | 0 => PieceType.O
  | 1 => PieceType.J
  | 2 => PieceType.L
  | 3 => PieceType.S
  | 4 => PieceType.Z
  | 5 => PieceType.T
  | 6 => PieceType.I

/-- The function `uniquePiece(currPiece)`; `d1` and `d2` are the two random draws. -/
def uniquePiece (d1 d2 : Fin 7) (currPiece : Option PieceType) : PieceType :=
  if currPiece = some (randomType d1) then randomType d2 else randomType d1

/-- The function `gameOver()`; `noLoop()` clears `looping`, the drawing call changes nothing. -/
def gameOver (s : State) : Option State :=
  match s.grid.reset with
  | none => none
  | some g1 =>
    match g1.insertPiece (Piece.new g1 PieceType.Gameover (some 1) (some 1)) with
    | none => none
    | some g2 => some { s with looping := false, grid := g2 }

/-- The function `spawnPiece()`: the returned piece (`none` is `undefined`) and the new
state. The display hook `updateNext` changes nothing here. -/
def spawnPiece (d1 d2 : Fin 7) (s : State) : Option (Option Piece × State) :=
  match s.grid.isValid (Piece.new s.grid s.nextType none none) with
  | none => none
  | some false => (gameOver s).map (fun s1 => (none, s1))
  | some true =>
    some (some (Piece.new s.grid s.nextType none none),
      { s with nextType := uniquePiece d1 d2 (some s.nextType) })

/-! ## Hooks, the whole of `clearFullLines()`, and the frame function `draw()` -/

/-- The hooks called by `clearFullLines()`. Their code is not part of the
source files, so they are parameters; each of them acts on `GAME`. -/
structure Hooks where
  updateLines : GameVars → GameVars
  updateScore : Nat → GameVars → GameVars
  updateLevel : GameVars → GameVars

/-- A call of a hook, recorded in the order in which the calls are made. -/
inductive HookCall
  | updateLines
  | updateScore (lines : Nat)
  | updateLevel
deriving DecidableEq

/-- The scanning loop of `clearFullLines()` with `GAME` and the record of the
hook calls: each clear is followed by `lines++` and `updateLines()`. -/
def clearFullLinesHookLoop (hooks : Hooks) :
    Nat → Grid → Int → Nat → GameVars → List HookCall →
      Option (Grid × Nat × GameVars × List HookCall)
  | 0, _, _, _, _, _ => none
  | fuel + 1, g, row, lines, GAME, calls =>
    if row ≥ 0 then
      match g.isLineFull row with
      | none => none
      | some true =>
        match g.clearLine row.toNat with
        | none => none
        | some g1 =>
          clearFullLinesHookLoop hooks fuel g1 (row + 1 - 1) (lines + 1)
            (hooks.updateLines GAME) (calls ++ [HookCall.updateLines])
      | some false => clearFullLinesHookLoop hooks fuel g (row - 1) lines GAME calls
    else some (g, lines, GAME, calls)

/-- The whole method `Grid.clearFullLines()`: the scan, then `updateScore(lines)`,
then `updateLevel()` if `GAME.linescleared >= (GAME.level + 1) * 10`. It yields
the grid, `GAME` and the hook calls it made. -/
def Grid.clearFullLinesHooks (hooks : Hooks) (g : Grid) (GAME : GameVars) :
    Option (Grid × GameVars × List HookCall) :=
  match clearFullLinesHookLoop hooks (2 * g.height + 1) g ((g.height : Int) - 1) 0 GAME [] with
  | none => none
  | some (g1, lines, G1, calls) =>
    if (hooks.updateScore lines G1).linescleared ≥ ((hooks.updateScore lines G1).level + 1) * 10 then
      some (g1, hooks.updateLevel (hooks.updateScore lines G1),
        calls ++ [HookCall.updateScore lines, HookCall.updateLevel])
    else
      some (g1, hooks.updateScore lines G1, calls ++ [HookCall.updateScore lines])

/-- An `insertPiece` call of the controller: the grid at the moment of the call and the piece. -/
structure InsertCall where
  grid : Grid
  piece : Piece
deriving DecidableEq

/-- The statement `if (!GAME.paused) activePiece.update(delta)` of `draw()`. -/
def advanceTimer (s : State) (delta : Nat) (activePiece : Piece) : Piece :=
  if s.GAME.paused then activePiece else activePiece.update delta

/-- The last statements of `draw()`: `if (activePiece) grid.insertPiece(activePiece)`
and the drawing of the grid; `calls` records the `insertPiece` calls. -/
def renderPiece (s : State) (calls : List InsertCall) : Option (State × List InsertCall) :=
  match s.activePiece with
  | none => some (s, calls)
  | some p =>
    match s.grid.insertPiece p with
    | none => none
    | some g => some ({ s with grid := g }, calls ++ [{ grid := s.grid, piece := p }])

/-- The `insertPiece` call made inside `gameOver()`: the grid after `reset()` and the glyph. -/
def gameOverInsertCall (s : State) : List InsertCall :=
  match s.grid.reset with
  | none => []
  | some g1 => [{ grid := g1, piece := Piece.new g1 PieceType.Gameover (some 1) (some 1) }]

/-- The statements of `draw()` that follow the lock insert: `grid.clearFullLines()`
and `activePiece = spawnPiece()`. -/
def afterLock (hooks : Hooks) (d1 d2 : Fin 7) (s : State) (calls : List InsertCall) :
    Option (State × List InsertCall) :=
  match s.grid.clearFullLinesHooks hooks s.GAME with
  | none => none
  | some (g3, G3, _) =>
    match spawnPiece d1 d2 { s with GAME := G3, grid := g3 } with
    | none => none
    | some (none, s4) =>
      some ({ s4 with activePiece := none },
        calls ++ gameOverInsertCall { s with GAME := G3, grid := g3 })
    | some (some p, s4) => some ({ s4 with activePiece := some p }, calls)

/-- The function `draw()`, one frame: `current` is the reading of `millis()`,
`d1` and `d2` are the random draws a spawn may use. It yields the new state and
the `insertPiece` calls of the frame. Reading `activePiece.dropReady` while
`activePiece` is `undefined` throws. -/
def drawLog (hooks : Hooks) (current : Nat) (d1 d2 : Fin 7) (s : State) :
    Option (State × List InsertCall) :=
  match s.activePiece with
  | none => none
  | some p0 =>
    if (advanceTimer s (current - s.prev) p0).dropReady then
      match s.grid.clearPiece (advanceTimer s (current - s.prev) p0).resetBuffer with
      | none => none
      | some g1 =>
        match g1.isValid (advanceTimer s (current - s.prev) p0).resetBuffer.moveDown with
        | none => none
        | some true =>
          renderPiece { s with
            prev := current
            grid := g1
            activePiece := some (advanceTimer s (current - s.prev) p0).resetBuffer.moveDown } []
        | some false =>
          match g1.insertPiece
              (advanceTimer s (current - s.prev) p0).resetBuffer.moveDown.moveUp with
          | none => none
          | some g2 =>
            (afterLock hooks d1 d2 { s with
                prev := current
                grid := g2
                activePiece := some (advanceTimer s (current - s.prev) p0).resetBuffer.moveDown.moveUp }
              [{ grid := g1
                 piece := (advanceTimer s (current - s.prev) p0).resetBuffer.moveDown.moveUp }]).bind
              (fun r => renderPiece r.1 r.2)
    else
      renderPiece { s with
        prev := current
        activePiece := some (advanceTimer s (current - s.prev) p0) } []

/-- The state after `draw()`. -/
def draw (hooks : Hooks) (current : Nat) (d1 d2 : Fin 7) (s : State) : Option State :=
  (drawLog hooks current d1 d2 s).map (fun r => r.1)

/-- The function `setup()`: `nextType = uniquePiece()`, the 10x20 grid of
`GRID_SIZE`, and `activePiece = spawnPiece()`; `prev` starts at 0. -/
def setup (d1 d2 d3 d4 : Fin 7) : Option State :=
  (spawnPiece d3 d4
    { GAME := { paused := false, controlsLocked := false, level := 0, score := 0,
                linescleared := 0 }
      grid := Grid.new 10 20
      activePiece := none
      nextType := uniquePiece d1 d2 none
      prev := 0
      looping := true }).map (fun r => { r.2 with activePiece := r.1 })

/-- The states reached from `setup()` by frames, the pause flag being set or
cleared between frames; `draw()` runs only while the loop is on. -/
inductive TickReachable (hooks : Hooks) : State → Prop
  | setup (d1 d2 d3 d4 : Fin 7) (s : State) :
      setup d1 d2 d3 d4 = some s → TickReachable hooks s
  | tick (s s1 : State) (current : Nat) (d1 d2 : Fin 7) (calls : List InsertCall) :
      TickReachable hooks s → s.looping = true →
      drawLog hooks current d1 d2 s = some (s1, calls) → TickReachable hooks s1
  | setPaused (s : State) (b : Bool) :
      TickReachable hooks s → TickReachable hooks { s with GAME := { s.GAME with paused := b } }

/-- The states reached from `setup()` by frames and by calls from outside the
frame function: `activePiece.hardDrop()` on the grid as it is,
`grid.clearPiece(activePiece)` to lift the stamp, and a change of the pause flag. -/
inductive Reachable (hooks : Hooks) : State → Prop
  | setup (d1 d2 d3 d4 : Fin 7) (s : State) :
      setup d1 d2 d3 d4 = some s → Reachable hooks s
  | tick (s s1 : State) (current : Nat) (d1 d2 : Fin 7) (calls : List InsertCall) :
      Reachable hooks s → s.looping = true →
      drawLog hooks current d1 d2 s = some (s1, calls) → Reachable hooks s1
  | hardDrop (s : State) (p q : Piece) (fuel : Nat) :
      Reachable hooks s → s.activePiece = some p →
      Piece.hardDrop fuel s.grid p = some q → Reachable hooks { s with activePiece := some q }
  | lift (s : State) (p : Piece) (g1 : Grid) :
      Reachable hooks s → s.activePiece = some p →
      s.grid.clearPiece p = some g1 → Reachable hooks { s with grid := g1 }
  | setPaused (s : State) (b : Bool) :
      Reachable hooks s → Reachable hooks { s with GAME := { s.GAME with paused := b } }

/-- The pieces obtained from `p` by any number of `rotateCW()` and `rotateCCW()` calls. -/
inductive RotationOf (p : Piece) : Piece → Prop
  | start : RotationOf p p
  | cw (q r : Piece) : RotationOf p q → q.rotateCW = some r → RotationOf p r
  | ccw (q r : Piece) : RotationOf p q → q.rotateCCW = some r → RotationOf p r

/-- Hooks that only count: one more cleared line, `lines` more points, one more level. -/
def countingHooks : Hooks :=
  { updateLines := fun GAME => { GAME with linescleared := GAME.linescleared + 1 }
    updateScore := fun lines GAME => { GAME with score := GAME.score + lines }
    updateLevel := fun GAME => { GAME with level := GAME.level + 1 } }

/-! ## Specification vocabulary and example inputs -/

/-- The `h` by `w` table with entry `F r c` at row `r`, column `c`. -/
def tabulate {α : Type} (h w : Nat) (F : Nat → Nat → α) : List (List α) :=
  (List.range h).map (fun r => (List.range w).map (fun c => F r c))

/-- The grid `g` with its cells replaced by the table of `F`. -/
def Grid.withCells (g : Grid) (F : Nat → Nat → Cell) : Grid :=
  { width := g.width, height := g.height, cells := tabulate g.height g.width F }

/-- The cell of `g` at `(r, c)`, with a default outside the grid. -/
def Grid.fn (g : Grid) (r c : Nat) : Cell := (g.cellAt r c).getD Cell.new

/-- Whether `q i` holds for some `i < n`. -/
def anyBelow : Nat → (Nat → Bool) → Bool
  | 0, _ => false
  | n + 1, q => anyBelow n q || q n

/-- Whether shape entry `(i, j)` of the piece is filled. -/
def Piece.filled (p : Piece) (i j : Nat) : Bool :=
  jsTruthy ((p.representation[i]?).bind (fun shapeRow => shapeRow[j]?))

/-- Whether board cell `(r, c)` lies under a filled shape entry of the piece. -/
def Piece.covers (p : Piece) (r c : Nat) : Bool :=
  anyBelow p.size (fun i => anyBelow p.size (fun j =>
    p.filled i j && (decide (p.y + (i : Int) = (r : Int)) && decide (p.x + (j : Int) = (c : Int)))))

/-- Whether every filled shape entry of the piece maps inside the grid. -/
def Piece.inside (p : Piece) (g : Grid) : Prop :=
  ∀ i, i < p.size → ∀ j, j < p.size → p.filled i j = true →
    0 ≤ p.y + (i : Int) ∧ p.y + (i : Int) < g.height ∧
    0 ≤ p.x + (j : Int) ∧ p.x + (j : Int) < g.width

instance (p : Piece) (g : Grid) : Decidable (p.inside g) := by
  unfold Piece.inside
  infer_instance

/-- Shape entry `(row, col)` of a piece: `none` outside the matrix. -/
def Piece.entry (p : Piece) (row col : Nat) : Option Int :=
  (p.representation[row]?).bind (fun shapeRow => shapeRow[col]?)

/-- Whether shape entry `(i, j)` is filled and maps outside the grid or onto an occupied cell. -/
def Piece.blocked (p : Piece) (g : Grid) (i j : Nat) : Bool :=
  p.filled i j &&
    (decide (p.y + (i : Int) < 0 ∨ p.y + (i : Int) ≥ g.height ∨
        p.x + (j : Int) < 0 ∨ p.x + (j : Int) ≥ g.width) ||
      ((g.cellAt (p.y + (i : Int)) (p.x + (j : Int))).map (fun c => c.active) == some true))

/-- The collision condition in the words of the specification: some filled
(non-zero) shape cell maps outside the board bounds or onto an occupied cell. -/
def Grid.collides (g : Grid) (piece : Piece) : Prop :=
  ∃ row col v, piece.entry row col = some v ∧ v ≠ 0 ∧
    (piece.y + (row : Int) < 0 ∨ (g.height : Int) ≤ piece.y + (row : Int) ∨
      piece.x + (col : Int) < 0 ∨ (g.width : Int) ≤ piece.x + (col : Int) ∨
      ∃ cell, g.cellAt (piece.y + (row : Int)) (piece.x + (col : Int)) = some cell ∧
        cell.active = true)

/-- A row of `w` unoccupied cells in the default colour. -/
def emptyRow (w : Nat) : List Cell := List.replicate w { color := Color.white, active := false }

/-- Whether every cell of a row is occupied. -/
def rowFull (r : List Cell) : Bool := r.all (fun c => c.active)

/-- The board of the specification's row-clear example: a 10x20 board whose
row 19 is filled with colour `k`, whose row 18 is filled with colour `k`
except for one gap in column `gap`, and whose other rows are empty. -/
def specExampleBoard (k : Color) (gap : Nat) : Grid :=
  { width := 10
    height := 20
    cells := List.replicate 18 (emptyRow 10) ++
      [(List.range 10).map (fun c => if c = gap then Cell.new else { color := k, active := true }),
       List.replicate 10 { color := k, active := true }] }

/-- A 10x20 board whose rows 15 to 19 are filled with red cells, the rows above being empty. -/
def fiveFullBoard : Grid :=
  { width := 10
    height := 20
    cells := List.replicate 15 (emptyRow 10) ++
      List.replicate 5 (List.replicate 10 { color := Color.red, active := true }) }

/-- Entry `(i, j)` of a matrix, `0` outside it. -/
def matEntry (m : List (List Int)) (i j : Nat) : Int := ((m[i]?.getD [])[j]?).getD 0

/-- The matrix with the order of its rows reversed. -/
def reverseRows (m : List (List Int)) : List (List Int) := m.reverse

/-- The transpose of a matrix: row `j` of the result is column `j` of `m`. -/
def transposeMatrix (m : List (List Int)) : List (List Int) :=
  (List.range (m.headD []).length).map (fun j => m.map (fun row => row.getD j 0))

/-- A piece record whose shape matrix is the empty (0 by 0) matrix. -/
def emptyShapePiece : Piece :=
  { type := PieceType.O, representation := [], color := Color.yellow, rotation := 0,
    size := 0, x := 0, y := 0, dropBuffer := 0 }

/-- The piece `p` with its shape matrix replaced by `m`. -/
def Piece.withShape (p : Piece) (m : List (List Int)) : Piece := { p with representation := m }

/-- The piece `p` moved to row `y`. -/
def Piece.atRow (p : Piece) (y : Int) : Piece := { p with y := y }

/-- The O piece with its origin at column 4, row 5 of a 10x20 board. -/
def oPieceAtRow5 : Piece := Piece.new (Grid.new 10 20) PieceType.O (some 4) (some 5)

/-- The empty 10x20 board carrying the render stamp of `oPieceAtRow5`, as `draw()`
leaves the board at the end of a tick. -/
def stampedBoard : Grid :=
  ((Grid.new 10 20).insertPiece oPieceAtRow5).getD (Grid.new 10 20)

/-- A 6x6 board whose cell in row 1, column 3 is occupied. -/
def smallBlockedBoard : Grid :=
  ((Grid.new 6 6).modifyCell 1 3 (fun c => c.fill Color.red)).getD (Grid.new 6 6)

/-- A running game on `smallBlockedBoard` with a T piece pending. -/
def smallBlockedState : State :=
  { GAME := { paused := false, controlsLocked := false, level := 0, score := 0, linescleared := 0 }
    grid := smallBlockedBoard
    activePiece := none
    nextType := PieceType.T
    prev := 0
    looping := true }

/-- A 10x20 board whose rows 16 to 19 are filled with red cells; row 15 is
filled with blue cells except for column 0, and the rows above are empty. -/
def fourFullBoard : Grid :=
  { width := 10
    height := 20
    cells := List.replicate 15 (emptyRow 10) ++
      [Cell.new :: List.replicate 9 { color := Color.blue, active := true }] ++
      List.replicate 4 (List.replicate 10 { color := Color.red, active := true }) }

/-- The T piece as spawned on the empty 10x20 board. -/
def tPieceSpawn : Piece := Piece.new (Grid.new 10 20) PieceType.T none none

/-- The J piece as spawned on the empty 10x20 board. -/
def jPieceSpawn : Piece := Piece.new (Grid.new 10 20) PieceType.J none none

/-- A running game on the empty 10x20 board with a T piece pending. -/
def initialState : State :=
  { GAME := { paused := false, controlsLocked := false, level := 0, score := 0, linescleared := 0 }
    grid := Grid.new 10 20
    activePiece := none
    nextType := PieceType.T
    prev := 0
    looping := true }

/-- What a `clearFullLines()` call that clears `lines` rows does to `GAME`,
with the hook calls it makes: `lines` calls of `updateLines`, one of
`updateScore`, and one of `updateLevel` if the level test holds then. -/
def gameAfterClear (hooks : Hooks) (lines : Nat) (GAME : GameVars) : GameVars × List HookCall :=
  if (hooks.updateScore lines (hooks.updateLines^[lines] GAME)).linescleared
      ≥ ((hooks.updateScore lines (hooks.updateLines^[lines] GAME)).level + 1) * 10 then
    (hooks.updateLevel (hooks.updateScore lines (hooks.updateLines^[lines] GAME)),
      List.replicate lines HookCall.updateLines ++
        [HookCall.updateScore lines, HookCall.updateLevel])
  else
    (hooks.updateScore lines (hooks.updateLines^[lines] GAME),
      List.replicate lines HookCall.updateLines ++ [HookCall.updateScore lines])

/-- A play: `clearFullLines()` is called on each of the boards in turn, `GAME`
being carried from call to call; the result is the final `GAME` and all hook calls. -/
def playClears (hooks : Hooks) : List Grid → GameVars → Option (GameVars × List HookCall)
  | [], GAME => some (GAME, [])
  | g :: rest, GAME =>
    match g.clearFullLinesHooks hooks GAME with
    | none => none
    | some (_, G1, calls) => (playClears hooks rest G1).map (fun r => (r.1, calls ++ r.2))

/-- A 2x2 board whose bottom row is full and whose top row is empty. -/
def oneFullRowBoard : Grid :=
  { width := 2
    height := 2
    cells := [emptyRow 2, List.replicate 2 { color := Color.red, active := true }] }

/-- The object `GAME` as `sketch.js` initialises it. -/
def initialGame : GameVars :=
  { paused := false, controlsLocked := false, level := 0, score := 0, linescleared := 0 }

/-- A 10x20 board whose bottom row is filled with red cells except for
columns 3 to 6, the rows above being empty. -/
def gapBoard : Grid :=
  { width := 10
    height := 20
    cells := List.replicate 19 (emptyRow 10) ++
      [(List.range 10).map (fun c =>
        if 3 ≤ c ∧ c < 7 then Cell.new else { color := Color.red, active := true })] }

/-- The board `g` with the cells under the filled entries of the piece occupied
in the colour of the piece. -/
def Grid.stamp (g : Grid) (p : Piece) : Grid :=
  g.withCells (fun r c =>
    if p.covers r c = true then { color := p.color, active := true } else g.fn r c)

/-- The board `sg` shows the piece on the board `base`: the piece has a square
shape and is valid on `base`, a well-formed board that keeps the cell
invariant, and `sg` is `base` itself or `base` with the piece inserted. -/
def Stamped (base : Grid) (p : Piece) (sg : Grid) : Prop :=
  base.WF ∧ base.CellInv ∧ p.WF ∧ base.isValid p = some true ∧
    (sg = base ∨ base.insertPiece p = some sg)

instance (base : Grid) (p : Piece) (sg : Grid) : Decidable (Stamped base p sg) := by
  unfold Stamped
  infer_instance

/-- An `insertPiece` call that keeps inside its well-formed grid and is either
made at a placement that `isValid` accepts or puts the piece onto its own
stamp, which changes no cell. -/
def InsertCall.ok (c : InsertCall) : Prop :=
  c.grid.WF ∧ c.piece.WF ∧ c.piece.inside c.grid ∧
    (c.grid.isValid c.piece = some true ∨ c.grid.insertPiece c.piece = some c.grid)

/-- The invariant of the frame loop on a `w` by `h` board: the grid is
well-formed and keeps the cell invariant, and while the loop is on there is an
active piece that the grid shows on some board on which the piece is valid. -/
def TickInv (w h : Nat) (s : State) : Prop :=
  s.grid.WF ∧ s.grid.CellInv ∧ s.grid.width = w ∧ s.grid.height = h ∧
    (s.looping = true → ∃ p base, s.activePiece = some p ∧ Stamped base p s.grid)

/-- The O piece as spawned on the empty 10x20 board. -/
def oPieceSpawn : Piece := Piece.new (Grid.new 10 20) PieceType.O none none

/-- The state that `setup()` leaves when the first draw gives the O piece and
the third draw the T piece. -/
def startState : State :=
  { GAME := initialGame
    grid := Grid.new 10 20
    activePiece := some oPieceSpawn
    nextType := PieceType.T
    prev := 0
    looping := true }

/-- The state after the first frame when it comes 10 ms after `setup()`: the
piece has not moved and the grid carries its stamp. -/
def stampedStart : State :=
  { GAME := initialGame
    grid := (Grid.new 10 20).stamp oPieceSpawn
    activePiece := some (oPieceSpawn.update 10)
    nextType := PieceType.T
    prev := 10
    looping := true }

/-- The state `stampedStart` with the pause flag set. -/
def pausedStart : State :=
  { stampedStart with GAME := { stampedStart.GAME with paused := true } }

/-- The O piece at rest on the floor of the empty 10x20 board, as `hardDrop()`
leaves it: row 18, fall timer at `DROP_INTERVAL`. -/
def droppedO : Piece := { oPieceSpawn with y := 18, dropBuffer := DROP_INTERVAL }

/-- The state `startState` after `hardDrop()` on the active piece. -/
def droppedState : State := { startState with activePiece := some droppedO }

/-! ## Auxiliary lemmas -/

theorem anyBelow_iff (n : Nat) (q : Nat → Bool) :
    anyBelow n q = true ↔ ∃ i, i < n ∧ q i = true := by
  induction n with
  | zero => simp [anyBelow]
  | succ n ih =>
    simp only [anyBelow, Bool.or_eq_true, ih]
    constructor
    · rintro (⟨i, hi, hq⟩ | hq)
      · exact ⟨i, by omega, hq⟩
      · exact ⟨n, by omega, hq⟩
    · rintro ⟨i, hi, hq⟩
      by_cases h : i = n
      · subst h; exact Or.inr hq
      · exact Or.inl ⟨i, by omega, hq⟩

theorem forUp_eq {σ : Type} (n : Nat) (body : Nat → σ → Option σ) (S : Nat → σ)
    (hstep : ∀ i, i < n → body i (S i) = some (S (i + 1))) :
    forUp n body (S 0) = some (S n) := by
  induction n with
  | zero => rfl
  | succ n ih =>
    have h1 := ih (fun i hi => hstep i (by omega))
    simp [forUp, h1, hstep n (by omega)]

theorem forDown_eq {σ : Type} (n : Nat) (body : Nat → σ → Option σ) (S : Nat → σ)
    (hstep : ∀ i, 0 < i → i ≤ n → body i (S i) = some (S (i - 1))) :
    forDown n body (S n) = some (S 0) := by
  induction n with
  | zero => rfl
  | succ n ih =>
    have h1 := ih (fun i h0 hi => hstep i h0 (by omega))
    have h2 := hstep (n + 1) (by omega) (by omega)
    simp only [Nat.add_sub_cancel] at h2
    simp [forDown, h2, h1]

theorem jsIndex_natCast {α : Type} (xs : List α) (n : Nat) : jsIndex xs (n : Int) = xs[n]? := by
  simp [jsIndex]

theorem tabulate_length {α : Type} (h w : Nat) (F : Nat → Nat → α) :
    (tabulate h w F).length = h := by
  simp [tabulate]

theorem getElem?_tabulate {α : Type} (h w : Nat) (F : Nat → Nat → α) (r : Nat) (hr : r < h) :
    (tabulate h w F)[r]? = some ((List.range w).map (fun c => F r c)) := by
  simp [tabulate, List.getElem?_range hr]

theorem getElem?_tabulate_row {α : Type} (w : Nat) (f : Nat → α) (c : Nat) (hc : c < w) :
    ((List.range w).map f)[c]? = some (f c) := by
  simp [List.getElem?_range hc]

theorem tabulate_congr {α : Type} (h w : Nat) (F G : Nat → Nat → α)
    (hFG : ∀ r c, r < h → c < w → F r c = G r c) : tabulate h w F = tabulate h w G := by
  unfold tabulate
  apply List.map_congr_left
  intro r hr
  apply List.map_congr_left
  intro c hc
  exact hFG r c (List.mem_range.mp hr) (List.mem_range.mp hc)

theorem tabulate_set {α : Type} (h w : Nat) (F : Nat → Nat → α) (r c : Nat) (v : α) :
    (tabulate h w F).set r (((List.range w).map (fun c => F r c)).set c v)
      = tabulate h w (fun r1 c1 => if r1 = r ∧ c1 = c then v else F r1 c1) := by
  apply List.ext_getElem?
  intro i
  by_cases hi : i < h
  · rw [getElem?_tabulate h w _ i hi, List.getElem?_set]
    by_cases hir : r = i
    · subst hir
      simp only [if_true, tabulate_length, hi, true_and]
      congr 1
      apply List.ext_getElem?
      intro j
      by_cases hj : j < w
      · rw [getElem?_tabulate_row w _ j hj, List.getElem?_set]
        by_cases hjc : c = j
        · subst hjc; simp [hj]
        · have : ¬ j = c := fun h => hjc h.symm
          simp [hjc, this, List.getElem?_range hj]
      · have h2 : (((List.range w).map (fun c => F r c)).set c v).length ≤ j := by
          simp; omega
        rw [List.getElem?_eq_none h2, List.getElem?_eq_none]
        simp; omega
    · have : ¬ i = r := fun h => hir h.symm
      simp only [hir, if_false, this, false_and]
      exact getElem?_tabulate h w F i hi
  · have h1 : (tabulate h w (fun r1 c1 => if r1 = r ∧ c1 = c then v else F r1 c1)).length ≤ i := by
      rw [tabulate_length]; omega
    have h2 : ((tabulate h w F).set r (((List.range w).map (fun c => F r c)).set c v)).length ≤ i := by
      rw [List.length_set, tabulate_length]; omega
    rw [List.getElem?_eq_none h1, List.getElem?_eq_none h2]

theorem eq_tabulate_of_WF (g : Grid) (hg : g.WF) :
    g.cells = tabulate g.height g.width g.fn := by
  obtain ⟨hlen, hrow⟩ := hg
  apply List.ext_getElem?
  intro i
  by_cases hi : i < g.height
  · rw [getElem?_tabulate _ _ _ i hi]
    have hi2 : i < g.cells.length := by omega
    rw [List.getElem?_eq_getElem hi2]
    congr 1
    have hw := hrow _ (List.getElem_mem hi2)
    apply List.ext_getElem?
    intro j
    by_cases hj : j < g.width
    · rw [getElem?_tabulate_row _ _ j hj]
      have hj2 : j < (g.cells[i]).length := by omega
      simp [Grid.fn, Grid.cellAt, jsIndex_natCast, List.getElem?_eq_getElem hi2,
        List.getElem?_eq_getElem hj2]
    · have h1 : (g.cells[i]).length ≤ j := by omega
      have h2 : ((List.range g.width).map (fun c => g.fn i c)).length ≤ j := by simp; omega
      rw [List.getElem?_eq_none h1, List.getElem?_eq_none h2]
  · have h1 : g.cells.length ≤ i := by omega
    have h2 : (tabulate g.height g.width g.fn).length ≤ i := by rw [tabulate_length]; omega
    rw [List.getElem?_eq_none h1, List.getElem?_eq_none h2]

theorem withCells_fn (g : Grid) (hg : g.WF) : g.withCells g.fn = g := by
  cases g with
  | mk w h cells =>
    have := eq_tabulate_of_WF ⟨w, h, cells⟩ hg
    simp only [Grid.withCells]
    simp only at this
    rw [← this]

theorem withCells_WF (g : Grid) (F : Nat → Nat → Cell) : (g.withCells F).WF := by
  constructor
  · simp [Grid.withCells, tabulate]
  · intro row hrow
    simp only [Grid.withCells, tabulate, List.mem_map, List.mem_range] at hrow
    obtain ⟨r, _, rfl⟩ := hrow
    simp [Grid.withCells]

theorem withCells_congr (g : Grid) (F G : Nat → Nat → Cell)
    (hFG : ∀ r c, r < g.height → c < g.width → F r c = G r c) :
    g.withCells F = g.withCells G := by
  simp only [Grid.withCells]
  rw [tabulate_congr _ _ F G hFG]

theorem withCells_withCells (g : Grid) (F G : Nat → Nat → Cell) :
    (g.withCells F).withCells G = g.withCells G := rfl

theorem cellAt_withCells (g : Grid) (F : Nat → Nat → Cell) (r c : Nat)
    (hr : r < g.height) (hc : c < g.width) :
    (g.withCells F).cellAt r c = some (F r c) := by
  simp [Grid.cellAt, Grid.withCells, jsIndex_natCast, getElem?_tabulate _ _ _ r hr,
    List.getElem?_range hc]

theorem cellAt_withCells_int (g : Grid) (F : Nat → Nat → Cell) (r c : Int)
    (hr0 : 0 ≤ r) (hr : r < g.height) (hc0 : 0 ≤ c) (hc : c < g.width) :
    (g.withCells F).cellAt r c = some (F r.toNat c.toNat) := by
  have h1 := cellAt_withCells g F r.toNat c.toNat (by omega) (by omega)
  rwa [Int.toNat_of_nonneg hr0, Int.toNat_of_nonneg hc0] at h1

theorem modifyCell_withCells (g : Grid) (F : Nat → Nat → Cell) (r c : Nat) (f : Cell → Cell)
    (hr : r < g.height) (hc : c < g.width) :
    (g.withCells F).modifyCell r c f
      = some (g.withCells (fun r1 c1 => if r1 = r ∧ c1 = c then f (F r c) else F r1 c1)) := by
  simp only [Grid.modifyCell, Grid.withCells, jsIndex_natCast, getElem?_tabulate _ _ _ r hr,
    getElem?_tabulate_row _ _ c hc, Int.toNat_ofNat]
  rw [tabulate_set]

theorem modifyCell_withCells_int (g : Grid) (F : Nat → Nat → Cell) (r c : Int) (f : Cell → Cell)
    (v : Cell) (hf : ∀ x, f x = v)
    (hr0 : 0 ≤ r) (hr : r < g.height) (hc0 : 0 ≤ c) (hc : c < g.width) :
    (g.withCells F).modifyCell r c f
      = some (g.withCells (fun r1 c1 =>
          if (decide (r = (r1 : Int)) && decide (c = (c1 : Int))) = true then v else F r1 c1)) := by
  have h1 := modifyCell_withCells g F r.toNat c.toNat f (by omega) (by omega)
  rw [Int.toNat_of_nonneg hr0, Int.toNat_of_nonneg hc0] at h1
  rw [h1, hf]
  congr 1
  apply withCells_congr
  intro r1 c1 _ _
  have e1 : (r1 = r.toNat ∧ c1 = c.toNat) ↔ (r = (r1 : Int) ∧ c = (c1 : Int)) := by omega
  by_cases h : r = (r1 : Int) ∧ c = (c1 : Int)
  · have h2 := e1.mpr h
    simp [h.1, h.2]
  · have h2 : ¬ (r1 = r.toNat ∧ c1 = c.toNat) := fun h3 => h (e1.mp h3)
    rw [if_neg h2, if_neg]
    simpa using h

theorem forUp_overwrite (g : Grid) (v : Cell) (n : Nat) (Q : Nat → Nat → Nat → Bool)
    (body : Nat → Grid → Option Grid)
    (hbody : ∀ i, i < n → ∀ F, body i (g.withCells F)
        = some (g.withCells (fun r c => if Q i r c = true then v else F r c)))
    (F : Nat → Nat → Cell) :
    forUp n body (g.withCells F)
      = some (g.withCells (fun r c => if anyBelow n (fun i => Q i r c) = true then v else F r c)) := by
  induction n with
  | zero => simp [forUp, anyBelow]
  | succ n ih =>
    rw [forUp, ih (fun i hi => hbody i (by omega)), Option.some_bind, hbody n (by omega)]
    congr 2
    funext r c
    simp only [anyBelow, Bool.or_eq_true]
    by_cases h1 : Q n r c = true
    · simp [h1]
    · by_cases h2 : anyBelow n (fun i => Q i r c) = true
      · simp [h1, h2]
      · simp [h1, h2]

theorem filled_of_row (p : Piece) (i j : Nat) (shapeRow : List Int)
    (h : p.representation[i]? = some shapeRow) : jsTruthy shapeRow[j]? = p.filled i j := by
  simp [Piece.filled, h]

theorem row_of_WF (p : Piece) (hp : p.WF) (i : Nat) (hi : i < p.size) :
    ∃ shapeRow, p.representation[i]? = some shapeRow ∧ shapeRow.length = p.size := by
  obtain ⟨hlen, hrow⟩ := hp
  have hi2 : i < p.representation.length := by omega
  exact ⟨p.representation[i], List.getElem?_eq_getElem hi2, hrow _ (List.getElem_mem hi2)⟩

theorem stamp_eq (g : Grid) (p : Piece) (f : Cell → Cell) (v : Cell) (hf : ∀ x, f x = v)
    (hp : p.WF) (hin : p.inside g) (F : Nat → Nat → Cell) :
    forUp p.size (fun row g1 =>
      forUp p.size (fun col g2 =>
        match p.representation[row]? with
        | none => none
        | some shapeRow =>
          if jsTruthy shapeRow[col]? then
            g2.modifyCell (p.y + row) (p.x + col) f
          else some g2) g1) (g.withCells F)
      = some (g.withCells (fun r c => if p.covers r c = true then v else F r c)) := by
  unfold Piece.covers
  apply forUp_overwrite g v p.size
    (fun i r c => anyBelow p.size (fun j =>
      p.filled i j && (decide (p.y + (i : Int) = (r : Int)) && decide (p.x + (j : Int) = (c : Int)))))
  intro i hi F1
  apply forUp_overwrite g v p.size
    (fun j r c =>
      p.filled i j && (decide (p.y + (i : Int) = (r : Int)) && decide (p.x + (j : Int) = (c : Int))))
  intro j hj F2
  obtain ⟨shapeRow, h1, _⟩ := row_of_WF p hp i hi
  simp only [h1, filled_of_row p i j shapeRow h1]
  by_cases hfill : p.filled i j = true
  · obtain ⟨a, b, c, d⟩ := hin i hi j hj hfill
    rw [if_pos hfill, modifyCell_withCells_int g F2 _ _ f v hf a b c d]
    simp [hfill]
  · rw [if_neg hfill]
    simp [hfill]

theorem insertPiece_eq (g : Grid) (p : Piece) (hg : g.WF) (hp : p.WF) (hin : p.inside g) :
    g.insertPiece p = some (g.withCells (fun r c =>
      if p.covers r c = true then { color := p.color, active := true } else g.fn r c)) := by
  have h := stamp_eq g p (fun c => c.fill p.color) { color := p.color, active := true }
    (fun _ => rfl) hp hin g.fn
  rw [withCells_fn g hg] at h
  exact h

theorem clearPiece_eq (g : Grid) (p : Piece) (hg : g.WF) (hp : p.WF) (hin : p.inside g) :
    g.clearPiece p = some (g.withCells (fun r c =>
      if p.covers r c = true then { color := Color.white, active := false } else g.fn r c)) := by
  have h := stamp_eq g p Cell.reset { color := Color.white, active := false }
    (fun _ => rfl) hp hin g.fn
  rw [withCells_fn g hg] at h
  exact h

theorem fn_withCells (g : Grid) (F : Nat → Nat → Cell) (r c : Nat)
    (hr : r < g.height) (hc : c < g.width) : (g.withCells F).fn r c = F r c := by
  simp [Grid.fn, cellAt_withCells g F r c hr hc]

theorem covers_iff (p : Piece) (r c : Nat) :
    p.covers r c = true ↔ ∃ i j, i < p.size ∧ j < p.size ∧ p.filled i j = true ∧
      p.y + (i : Int) = (r : Int) ∧ p.x + (j : Int) = (c : Int) := by
  simp only [Piece.covers, anyBelow_iff, Bool.and_eq_true, decide_eq_true_eq]
  constructor
  · rintro ⟨i, hi, j, hj, h1, h2, h3⟩
    exact ⟨i, j, hi, hj, h1, h2, h3⟩
  · rintro ⟨i, j, hi, hj, h1, h2, h3⟩
    exact ⟨i, hi, j, hj, h1, h2, h3⟩

theorem allUp_eq (n : Nat) (p : Nat → Option Bool) (q : Nat → Bool)
    (h : ∀ i, i < n → p i = some (q i)) :
    allUp n p = some (!anyBelow n (fun i => !q i)) := by
  induction n with
  | zero => rfl
  | succ n ih =>
    rw [allUp, ih (fun i hi => h i (by omega))]
    cases hany : anyBelow n (fun i => !q i)
    · simp [anyBelow, hany, h n (by omega)]
    · simp [anyBelow, hany]

theorem filled_eq_entry (p : Piece) (i j : Nat) : p.filled i j = jsTruthy (p.entry i j) := rfl

theorem filled_iff (p : Piece) (i j : Nat) :
    p.filled i j = true ↔ ∃ v, p.entry i j = some v ∧ v ≠ 0 := by
  rw [filled_eq_entry]
  cases h : p.entry i j with
  | none => simp [jsTruthy]
  | some v => simp [jsTruthy]

theorem entry_lt (p : Piece) (hp : p.WF) (i j : Nat) (v : Int) (h : p.entry i j = some v) :
    i < p.size ∧ j < p.size := by
  obtain ⟨hlen, hrow⟩ := hp
  unfold Piece.entry at h
  cases h1 : p.representation[i]? with
  | none => simp [h1] at h
  | some shapeRow =>
    simp only [h1, Option.some_bind] at h
    have hi : i < p.representation.length := (List.getElem?_eq_some.mp h1).1
    have hj : j < shapeRow.length := (List.getElem?_eq_some.mp h).1
    have hm : shapeRow ∈ p.representation := by
      rw [List.mem_iff_getElem?]
      exact ⟨i, h1⟩
    have := hrow shapeRow hm
    omega

theorem cellAt_withCells_none (g : Grid) (F : Nat → Nat → Cell) (r c : Int)
    (h : ¬ (0 ≤ r ∧ r < g.height ∧ 0 ≤ c ∧ c < g.width)) :
    (g.withCells F).cellAt r c = none := by
  unfold Grid.cellAt jsIndex
  by_cases hr0 : r < 0
  · simp [hr0]
  · by_cases hr : r < g.height
    · have hr2 : r.toNat < g.height := by omega
      simp only [hr0, if_false, Grid.withCells, getElem?_tabulate _ _ _ _ hr2, Option.some_bind]
      by_cases hc0 : c < 0
      · simp [hc0]
      · have hc : ¬ c < g.width := by omega
        simp only [hc0, if_false]
        apply List.getElem?_eq_none
        simp
        omega
    · have h1 : (g.withCells F).cells.length ≤ r.toNat := by
        simp only [Grid.withCells, tabulate_length]; omega
      simp [hr0, List.getElem?_eq_none h1]

theorem isValid_eq (g : Grid) (p : Piece) (hg : g.WF) (hp : p.WF) :
    g.isValid p = some (!anyBelow p.size (fun i => anyBelow p.size (fun j => p.blocked g i j))) := by
  unfold Grid.isValid
  rw [allUp_eq p.size _ (fun i => !anyBelow p.size (fun j => p.blocked g i j))]
  · simp
  · intro i hi
    rw [allUp_eq p.size _ (fun j => !p.blocked g i j)]
    · simp
    · intro j hj
      obtain ⟨shapeRow, h1, h2⟩ := row_of_WF p hp i hi
      have hj2 : j < shapeRow.length := by omega
      have hfill : jsNonZero shapeRow[j]? = p.filled i j := by
        simp [Piece.filled, h1, List.getElem?_eq_getElem hj2, jsNonZero, jsTruthy]
      simp only [h1, hfill, Piece.blocked]
      by_cases hf : p.filled i j = true
      · simp only [hf, if_true, Bool.true_and]
        by_cases hout : p.y + (i : Int) < 0 ∨ p.y + (i : Int) ≥ g.height ∨
            p.x + (j : Int) < 0 ∨ p.x + (j : Int) ≥ g.width
        · simp [hout]
        · rw [if_neg hout]
          have hc := cellAt_withCells_int g g.fn (p.y + i) (p.x + j) (by omega) (by omega)
            (by omega) (by omega)
          rw [withCells_fn g hg] at hc
          rw [hc]
          cases hact : (g.fn (p.y + (i : Int)).toNat (p.x + (j : Int)).toNat).active
          · simp [hout, hact]
          · simp [hout, hact]
      · simp [hf]

theorem blocked_iff (p : Piece) (g : Grid) (i j : Nat) :
    p.blocked g i j = true ↔ ∃ v, p.entry i j = some v ∧ v ≠ 0 ∧
      (p.y + (i : Int) < 0 ∨ (g.height : Int) ≤ p.y + (i : Int) ∨
        p.x + (j : Int) < 0 ∨ (g.width : Int) ≤ p.x + (j : Int) ∨
        ∃ cell, g.cellAt (p.y + (i : Int)) (p.x + (j : Int)) = some cell ∧ cell.active = true) := by
  simp only [Piece.blocked, Bool.and_eq_true, filled_iff, Bool.or_eq_true, decide_eq_true_eq,
    beq_iff_eq, Option.map_eq_some', ge_iff_le]
  constructor
  · rintro ⟨⟨v, h1, h2⟩, h3⟩
    refine ⟨v, h1, h2, ?_⟩
    rcases h3 with h3 | h3
    · rcases h3 with h | h | h | h
      · exact Or.inl h
      · exact Or.inr (Or.inl h)
      · exact Or.inr (Or.inr (Or.inl h))
      · exact Or.inr (Or.inr (Or.inr (Or.inl h)))
    · exact Or.inr (Or.inr (Or.inr (Or.inr h3)))
  · rintro ⟨v, h1, h2, h3⟩
    refine ⟨⟨v, h1, h2⟩, ?_⟩
    rcases h3 with h | h | h | h | h
    · exact Or.inl (Or.inl h)
    · exact Or.inl (Or.inr (Or.inl h))
    · exact Or.inl (Or.inr (Or.inr (Or.inl h)))
    · exact Or.inl (Or.inr (Or.inr (Or.inr h)))
    · exact Or.inr h

theorem anyBlocked_iff (g : Grid) (p : Piece) (hp : p.WF) :
    anyBelow p.size (fun i => anyBelow p.size (fun j => p.blocked g i j)) = true
      ↔ g.collides p := by
  simp only [anyBelow_iff, Grid.collides]
  constructor
  · rintro ⟨i, _, j, _, h⟩
    obtain ⟨v, h1, h2, h3⟩ := (blocked_iff p g i j).mp h
    exact ⟨i, j, v, h1, h2, h3⟩
  · rintro ⟨i, j, v, h1, h2, h3⟩
    obtain ⟨hi, hj⟩ := entry_lt p hp i j v h1
    exact ⟨i, hi, j, hj, (blocked_iff p g i j).mpr ⟨v, h1, h2, h3⟩⟩

theorem isValid_true_iff (g : Grid) (p : Piece) (hg : g.WF) (hp : p.WF) :
    g.isValid p = some true ↔ ¬ g.collides p := by
  rw [isValid_eq g p hg hp, ← anyBlocked_iff g p hp]
  cases anyBelow p.size (fun i => anyBelow p.size (fun j => p.blocked g i j)) <;> simp

theorem isValid_false_iff (g : Grid) (p : Piece) (hg : g.WF) (hp : p.WF) :
    g.isValid p = some false ↔ g.collides p := by
  rw [isValid_eq g p hg hp, ← anyBlocked_iff g p hp]
  cases anyBelow p.size (fun i => anyBelow p.size (fun j => p.blocked g i j)) <;> simp

theorem cellAt_fn (g : Grid) (hg : g.WF) (r c : Nat) (hr : r < g.height) (hc : c < g.width) :
    g.cellAt r c = some (g.fn r c) := by
  have h := cellAt_withCells g g.fn r c hr hc
  rwa [withCells_fn g hg] at h

theorem cellAt_mem (g : Grid) (r c : Int) (cell : Cell) (h : g.cellAt r c = some cell) :
    ∃ row, row ∈ g.cells ∧ cell ∈ row := by
  unfold Grid.cellAt jsIndex at h
  by_cases hr : r < 0
  · simp [hr] at h
  · simp only [hr, if_false] at h
    cases h1 : g.cells[r.toNat]? with
    | none => simp [h1] at h
    | some row =>
      simp only [h1, Option.some_bind] at h
      by_cases hc : c < 0
      · simp [hc] at h
      · simp only [hc, if_false] at h
        exact ⟨row, List.mem_iff_getElem?.mpr ⟨_, h1⟩, List.mem_iff_getElem?.mpr ⟨_, h⟩⟩

theorem inside_of_not_collides (g : Grid) (p : Piece) (h : ¬ g.collides p) : p.inside g := by
  intro i _ j _ hf
  obtain ⟨v, h1, h2⟩ := (filled_iff p i j).mp hf
  by_contra hcon
  apply h
  refine ⟨i, j, v, h1, h2, ?_⟩
  by_cases a : p.y + (i : Int) < 0
  · exact Or.inl a
  · by_cases b : (g.height : Int) ≤ p.y + (i : Int)
    · exact Or.inr (Or.inl b)
    · by_cases c : p.x + (j : Int) < 0
      · exact Or.inr (Or.inr (Or.inl c))
      · by_cases d : (g.width : Int) ≤ p.x + (j : Int)
        · exact Or.inr (Or.inr (Or.inr (Or.inl d)))
        · exfalso; apply hcon; omega

theorem inside_iff (g : Grid) (p : Piece) (hp : p.WF) :
    p.inside g ↔ ∀ row col v, p.entry row col = some v → v ≠ 0 →
      0 ≤ p.y + (row : Int) ∧ p.y + (row : Int) < g.height ∧
      0 ≤ p.x + (col : Int) ∧ p.x + (col : Int) < g.width := by
  constructor
  · intro h row col v h1 h2
    obtain ⟨hi, hj⟩ := entry_lt p hp row col v h1
    exact h row hi col hj ((filled_iff p row col).mpr ⟨v, h1, h2⟩)
  · intro h i _ j _ hf
    obtain ⟨v, h1, h2⟩ := (filled_iff p i j).mp hf
    exact h i j v h1 h2

theorem inside_withCells (g : Grid) (p : Piece) (F : Nat → Nat → Cell) (h : p.inside g) :
    p.inside (g.withCells F) := h

theorem copyRow_eq (g : Grid) (G : Nat → Nat → Cell) (w row : Nat) (hw : w ≤ g.width)
    (hrow0 : 0 < row) (hrow : row < g.height) :
    forUp w (fun col g2 =>
      match g2.cellAt ((row : Int) - 1) col with
      | none => none
      | some cellabove =>
        (g2.modifyCell row col (fun c => { c with active := cellabove.active })).bind
          (fun g3 => g3.modifyCell row col (fun c => { c with color := cellabove.color })))
      (g.withCells G)
      = some (g.withCells (fun r c => if r = row ∧ c < w then G (row - 1) c else G r c)) := by
  have hcast : ((row : Int) - 1) = ((row - 1 : Nat) : Int) := by omega
  have h := forUp_eq w (fun col g2 =>
      match g2.cellAt ((row : Int) - 1) col with
      | none => none
      | some cellabove =>
        (g2.modifyCell row col (fun c => { c with active := cellabove.active })).bind
          (fun g3 => g3.modifyCell row col (fun c => { c with color := cellabove.color })))
    (fun k => g.withCells (fun r c => if r = row ∧ c < k then G (row - 1) c else G r c))
  simp only [Nat.not_lt_zero, and_false, if_false] at h
  by_cases hwlt : ∀ i, i < w → i < g.width
  · apply h
    intro i hi
    have hiw := hwlt i hi
    simp only [hcast]
    rw [cellAt_withCells g _ (row - 1) i (by omega) hiw]
    have hne : ¬ (row - 1 = row ∧ i < i) := by omega
    simp only [if_neg hne]
    rw [modifyCell_withCells g _ row i _ hrow hiw, Option.some_bind,
      modifyCell_withCells g _ row i _ hrow hiw]
    congr 1
    apply withCells_congr
    intro r c _ _
    by_cases h1 : r = row ∧ c = i
    · have h2 : r = row ∧ c < i + 1 := by omega
      obtain ⟨h1a, h1b⟩ := h1
      subst h1a
      subst h1b
      simp
    · simp only [if_neg h1]
      by_cases h3 : r = row ∧ c < i
      · have h2 : r = row ∧ c < i + 1 := by omega
        simp only [if_pos h3, if_pos h2]
      · have h2 : ¬ (r = row ∧ c < i + 1) := by omega
        simp only [if_neg h3, if_neg h2]
  · exfalso
    apply hwlt
    intro i hi
    omega

theorem shiftRows_eq (g : Grid) (F : Nat → Nat → Cell) (n : Nat) (hn : n < g.height) :
    forDown n (fun row g1 =>
      forUp g.width (fun col g2 =>
        match g2.cellAt ((row : Int) - 1) col with
        | none => none
        | some cellabove =>
          (g2.modifyCell row col (fun c => { c with active := cellabove.active })).bind
            (fun g3 => g3.modifyCell row col (fun c => { c with color := cellabove.color }))) g1)
      (g.withCells F)
      = some (g.withCells (fun r c => if 0 < r ∧ r ≤ n then F (r - 1) c else F r c)) := by
  have h := forDown_eq n (fun row g1 =>
      forUp g.width (fun col g2 =>
        match g2.cellAt ((row : Int) - 1) col with
        | none => none
        | some cellabove =>
          (g2.modifyCell row col (fun c => { c with active := cellabove.active })).bind
            (fun g3 => g3.modifyCell row col (fun c => { c with color := cellabove.color }))) g1)
    (fun k => g.withCells (fun r c => if k < r ∧ r ≤ n then F (r - 1) c else F r c))
  have hstart : g.withCells (fun r c => if n < r ∧ r ≤ n then F (r - 1) c else F r c)
      = g.withCells F := by
    apply withCells_congr
    intro r c _ _
    have : ¬ (n < r ∧ r ≤ n) := by omega
    rw [if_neg this]
  simp only [hstart] at h
  apply h
  intro i hi0 hin
  rw [copyRow_eq g _ g.width i (le_refl _) hi0 (by omega)]
  congr 1
  apply withCells_congr
  intro r c _ hc
  by_cases h1 : r = i ∧ c < g.width
  · have h2 : ¬ (i < i - 1 ∧ i - 1 ≤ n) := by omega
    have h3 : i - 1 < r ∧ r ≤ n := by omega
    rw [if_pos h1, if_neg h2, if_pos h3, h1.1]
  · rw [if_neg h1]
    by_cases h4 : i < r ∧ r ≤ n
    · have h3 : i - 1 < r ∧ r ≤ n := by omega
      rw [if_pos h4, if_pos h3]
    · have h3 : ¬ (i - 1 < r ∧ r ≤ n) := by omega
      rw [if_neg h4, if_neg h3]

theorem resetRow0_eq (g : Grid) (G : Nat → Nat → Cell) (hh : 0 < g.height) :
    forUp g.width (fun col g5 => g5.modifyCell 0 col Cell.reset) (g.withCells G)
      = some (g.withCells (fun r c =>
          if r = 0 then { color := Color.white, active := false } else G r c)) := by
  rw [forUp_overwrite g { color := Color.white, active := false } g.width
    (fun i r c => decide ((0 : Int) = (r : Int)) && decide ((i : Int) = (c : Int)))]
  · congr 1
    apply withCells_congr
    intro r c _ hc
    by_cases hr : r = 0
    · have : anyBelow g.width
          (fun i => decide ((0 : Int) = (r : Int)) && decide ((i : Int) = (c : Int))) = true := by
        rw [anyBelow_iff]
        exact ⟨c, hc, by simp [hr]⟩
      rw [if_pos this, if_pos hr]
    · have : ¬ anyBelow g.width
          (fun i => decide ((0 : Int) = (r : Int)) && decide ((i : Int) = (c : Int))) = true := by
        rw [anyBelow_iff]
        rintro ⟨i, _, h⟩
        simp at h
        omega
      rw [if_neg this, if_neg hr]
  · intro i hi F
    exact modifyCell_withCells_int g F 0 i Cell.reset _ (fun _ => rfl) (le_refl _)
      (by omega) (by omega) (by omega)

theorem clearLine_eq (g : Grid) (hg : g.WF) (n : Nat) (hn : n < g.height) :
    g.clearLine n = some (g.withCells (fun r c =>
      if r = 0 then { color := Color.white, active := false }
      else if r ≤ n then g.fn (r - 1) c else g.fn r c)) := by
  have h := shiftRows_eq g g.fn n hn
  rw [withCells_fn g hg] at h
  unfold Grid.clearLine
  rw [h, Option.some_bind, resetRow0_eq g _ (by omega)]
  congr 1
  apply withCells_congr
  intro r c _ _
  by_cases hr : r = 0
  · rw [if_pos hr, if_pos hr]
  · rw [if_neg hr, if_neg hr]
    by_cases h2 : r ≤ n
    · rw [if_pos h2, if_pos ⟨by omega, h2⟩]
    · rw [if_neg h2, if_neg (fun h3 => h2 h3.2)]

theorem clearLine_cells (g : Grid) (hg : g.WF) (n : Nat) (hn : n < g.height) :
    g.clearLine n = some { g with cells := emptyRow g.width :: g.cells.eraseIdx n } := by
  rw [clearLine_eq g hg n hn]
  congr 1
  simp only [Grid.withCells]
  congr 1
  conv_rhs => rw [eq_tabulate_of_WF g hg]
  apply List.ext_getElem?
  intro i
  by_cases hi : i < g.height
  · rw [getElem?_tabulate _ _ _ i hi]
    cases i with
    | zero =>
      simp only [List.getElem?_cons_zero, if_true, emptyRow]
      congr 1
      apply List.ext_getElem?
      intro j
      by_cases hj : j < g.width
      · simp [List.getElem?_range hj, hj]
      · rw [List.getElem?_eq_none, List.getElem?_eq_none] <;> simp <;> omega
    | succ k =>
      rw [List.getElem?_cons_succ, List.getElem?_eraseIdx]
      by_cases hk : k < n
      · rw [if_pos hk, getElem?_tabulate _ _ _ k (by omega)]
        congr 1
        apply List.map_congr_left
        intro c _
        have h1 : ¬ (k + 1 = 0) := by omega
        have h2 : k + 1 ≤ n := by omega
        simp only [if_neg h1, if_pos h2, Nat.add_sub_cancel]
      · rw [if_neg hk, getElem?_tabulate _ _ _ (k + 1) hi]
        congr 1
        apply List.map_congr_left
        intro c _
        have h1 : ¬ (k + 1 = 0) := by omega
        have h2 : ¬ (k + 1 ≤ n) := by omega
        simp only [if_neg h1, if_neg h2]
  · have hlen : (tabulate g.height g.width g.fn).length = g.height := tabulate_length _ _ _
    rw [List.getElem?_eq_none, List.getElem?_eq_none]
    · simp only [List.length_cons, List.length_eraseIdx, hlen, if_pos hn]
      omega
    · rw [tabulate_length]; omega

theorem rowFull_map_range (w : Nat) (f : Nat → Cell) :
    rowFull ((List.range w).map f) = !anyBelow w (fun c => !(f c).active) := by
  induction w with
  | zero => simp [rowFull, anyBelow]
  | succ w ih =>
    unfold rowFull at ih ⊢
    rw [List.range_succ, List.map_append, List.all_append, ih]
    simp [anyBelow]

theorem isLineFull_eq (g : Grid) (hg : g.WF) (k : Nat) (R : List Cell)
    (hk : g.cells[k]? = some R) : g.isLineFull (k : Int) = some (rowFull R) := by
  have hkh : k < g.height := by
    have := (List.getElem?_eq_some.mp hk).1
    rw [hg.1] at this
    exact this
  have hR : R = (List.range g.width).map (fun c => g.fn k c) := by
    rw [eq_tabulate_of_WF g hg, getElem?_tabulate _ _ _ k hkh] at hk
    exact (Option.some.inj hk).symm
  unfold Grid.isLineFull
  rw [allUp_eq g.width _ (fun c => (g.fn k c).active), hR, rowFull_map_range]
  intro i hi
  rw [cellAt_fn g hg k i hkh hi]
  rfl

theorem rowFull_emptyRow (w : Nat) (hw : 0 < w) : rowFull (emptyRow w) = false := by
  cases w with
  | zero => omega
  | succ w => simp [rowFull, emptyRow, List.replicate_succ]

theorem clearLine_split (g : Grid) (hg : g.WF) (A B : List (List Cell)) (R : List Cell)
    (hcells : g.cells = A ++ R :: B) :
    g.clearLine A.length = some { g with cells := emptyRow g.width :: (A ++ B) } ∧
      ({ g with cells := emptyRow g.width :: (A ++ B) } : Grid).WF := by
  have hn : A.length < g.height := by
    rw [← hg.1, hcells]
    simp
  have h1 := clearLine_cells g hg A.length hn
  have h2 := clearLine_eq g hg A.length hn
  have herase : g.cells.eraseIdx A.length = A ++ B := by
    rw [hcells, List.eraseIdx_append_of_length_le (le_refl _)]
    simp
  rw [herase] at h1
  refine ⟨h1, ?_⟩
  rw [h1] at h2
  rw [Option.some.inj h2]
  exact withCells_WF g _

theorem scan_eq : ∀ (fuel : Nat) (g : Grid) (A B : List (List Cell)) (lines : Nat),
    g.WF → 0 < g.width → g.cells = A ++ B →
    A.length + (A.filter rowFull).length < fuel →
    clearFullLinesLoop fuel g ((A.length : Int) - 1) lines
      = some ({ g with cells :=
            List.replicate (A.filter rowFull).length (emptyRow g.width)
              ++ A.filter (fun r => !rowFull r) ++ B },
          lines + (A.filter rowFull).length) := by
  intro fuel
  induction fuel with
  | zero => intro g A B lines _ _ _ h; omega
  | succ fuel ih =>
    intro g A B lines hg hw hcells hfuel
    rcases List.eq_nil_or_concat A with hA | ⟨A1, R, hA⟩
    · subst hA
      simp only [List.length_nil, List.filter_nil, List.replicate_zero, List.nil_append,
        Nat.add_zero]
      unfold clearFullLinesLoop
      have : ¬ ((((0 : Nat) : Int) - 1) ≥ 0) := by omega
      rw [if_neg this]
      simp only [List.nil_append] at hcells
      rw [← hcells]
    · rw [List.concat_eq_append] at hA
      subst hA
      have hcells2 : g.cells = A1 ++ R :: B := by
        rw [hcells, List.append_assoc]; rfl
      have hrow : g.cells[A1.length]? = some R := by
        rw [hcells2, List.getElem?_append_right (le_refl _)]
        simp
      have hidx : (((A1 ++ [R]).length : Int) - 1) = ((A1.length : Nat) : Int) := by
        simp
      rw [hidx]
      unfold clearFullLinesLoop
      have hge : ((A1.length : Nat) : Int) ≥ 0 := by omega
      rw [if_pos hge, isLineFull_eq g hg A1.length R hrow]
      cases hfull : rowFull R
      · -- the row is not full: move up
        simp only
        have hnext : ((A1.length : Nat) : Int) - 1 = ((A1.length : Int) - 1) := rfl
        rw [ih g A1 (R :: B) lines hg hw hcells2 (by
          simp only [List.length_append, List.length_singleton, List.filter_append,
            List.filter_cons, List.filter_nil, hfull] at hfuel
          simp at hfuel
          omega)]
        simp [List.filter_append, List.filter_cons, hfull]
      · -- the row is full: clear it and test the same index again
        simp only [Int.toNat_ofNat]
        obtain ⟨hcl, hwf1⟩ := clearLine_split g hg A1 B R hcells2
        rw [hcl]
        simp only
        have hnext : ((A1.length : Nat) : Int) + 1 - 1
            = (((emptyRow g.width :: A1).length : Nat) : Int) - 1 := by
          simp
        rw [hnext]
        have he := rowFull_emptyRow g.width hw
        have hf1 : (emptyRow g.width :: A1).filter rowFull = A1.filter rowFull := by
          simp [List.filter_cons, he]
        have hf2 : (emptyRow g.width :: A1).filter (fun r => !rowFull r)
            = emptyRow g.width :: A1.filter (fun r => !rowFull r) := by
          simp [List.filter_cons, he]
        have hf3 : (A1 ++ [R]).filter rowFull = A1.filter rowFull ++ [R] := by
          simp [hfull]
        have hf4 : (A1 ++ [R]).filter (fun r => !rowFull r)
            = A1.filter (fun r => !rowFull r) := by
          simp [hfull]
        rw [hf3] at hfuel
        simp only [List.length_append, List.length_singleton] at hfuel
        rw [ih { g with cells := emptyRow g.width :: (A1 ++ B) } (emptyRow g.width :: A1) B
          (lines + 1) hwf1 hw (by simp) (by
            rw [hf1]
            simp only [List.length_cons]
            omega)]
        rw [hf1, hf2, hf3, hf4]
        simp only [List.length_append, List.length_singleton]
        congr 2
        · congr 1
          rw [List.replicate_succ', List.append_assoc, List.append_assoc, List.append_assoc]
          rfl
        · omega

theorem clearFullLinesLoop_eq (g : Grid) (hg : g.WF) (hw : 0 < g.width) (fuel : Nat)
    (hfuel : 2 * g.height + 1 ≤ fuel) :
    clearFullLinesLoop fuel g ((g.height : Int) - 1) 0
      = some ({ g with cells :=
            List.replicate (g.cells.filter rowFull).length (emptyRow g.width)
              ++ g.cells.filter (fun r => !rowFull r) },
          (g.cells.filter rowFull).length) := by
  have hlen : (g.cells.filter rowFull).length ≤ g.cells.length := List.length_filter_le _ _
  have h := scan_eq fuel g g.cells [] 0 hg hw (by simp) (by rw [hg.1] at hlen ⊢; omega)
  rw [hg.1] at h
  simpa using h

theorem clearFullLines_block (g : Grid) (hg : g.WF) (hw : 0 < g.width) (m : Nat)
    (hm : m ≤ g.height)
    (hfull : ∀ r R, g.height - m ≤ r → g.cells[r]? = some R → rowFull R = true)
    (hnot : ∀ r R, r < g.height - m → g.cells[r]? = some R → rowFull R = false) :
    g.clearFullLines
      = some ({ g with cells :=
            List.replicate m (emptyRow g.width) ++ g.cells.take (g.height - m) }, m) := by
  have hsplit : g.cells = g.cells.take (g.height - m) ++ g.cells.drop (g.height - m) :=
    (List.take_append_drop _ _).symm
  have h1 : (g.cells.take (g.height - m)).filter rowFull = [] := by
    rw [List.filter_eq_nil_iff]
    intro R hR
    obtain ⟨r, hr⟩ := List.mem_iff_getElem?.mp hR
    rw [List.getElem?_take] at hr
    by_cases hlt : r < g.height - m
    · rw [if_pos hlt] at hr
      simp [hnot r R hlt hr]
    · rw [if_neg hlt] at hr
      cases hr
  have h2 : (g.cells.drop (g.height - m)).filter rowFull = g.cells.drop (g.height - m) := by
    rw [List.filter_eq_self]
    intro R hR
    obtain ⟨r, hr⟩ := List.mem_iff_getElem?.mp hR
    rw [List.getElem?_drop] at hr
    exact hfull _ R (by omega) hr
  have h3 : (g.cells.take (g.height - m)).filter (fun r => !rowFull r)
      = g.cells.take (g.height - m) := by
    rw [List.filter_eq_self]
    intro R hR
    have : R ∈ (g.cells.take (g.height - m)).filter rowFull → False := by
      rw [h1]; simp
    cases hRf : rowFull R
    · rfl
    · exact absurd (List.mem_filter.mpr ⟨hR, hRf⟩) this
  have h4 : (g.cells.drop (g.height - m)).filter (fun r => !rowFull r) = [] := by
    rw [List.filter_eq_nil_iff]
    intro R hR
    have := (List.filter_eq_self.mp h2) R hR
    simp [this]
  have hk : (g.cells.filter rowFull).length = m := by
    rw [hsplit, List.filter_append, h1, h2, List.nil_append, List.length_drop, hg.1]
    omega
  have hnf : g.cells.filter (fun r => !rowFull r) = g.cells.take (g.height - m) := by
    conv_lhs => rw [hsplit]
    rw [List.filter_append, h3, h4, List.append_nil]
  unfold Grid.clearFullLines
  rw [clearFullLinesLoop_eq g hg hw _ (le_refl _), hk, hnf]

theorem jsMap_eq {α β : Type} (f : α → Nat → Option β) (G : Nat → β) :
    ∀ (l : List α) (i : Nat),
      (∀ k a, l[k]? = some a → f a (i + k) = some (G (i + k))) →
      jsMap f l i = some ((List.range l.length).map (fun k => G (i + k))) := by
  intro l
  induction l with
  | nil => intro i _; rfl
  | cons a rest ih =>
    intro i h
    have h0 : f a i = some (G i) := h 0 a (List.getElem?_cons_zero)
    have hrest := ih (i + 1) (fun k b hk => by
      have := h (k + 1) b (by simpa using hk)
      rw [show i + 1 + k = i + (k + 1) by omega]
      exact this)
    simp only [jsMap, h0, hrest, Option.map_some', List.length_cons, List.range_succ_eq_map,
      List.map_cons, List.map_map, Nat.add_zero]
    congr 2
    apply List.map_congr_left
    intro k _
    simp only [Function.comp, Nat.succ_eq_add_one]
    congr 1
    omega

theorem square_tabulate (n : Nat) (F : Nat → Nat → Int) : Square n (tabulate n n F) := by
  constructor
  · exact tabulate_length n n F
  · intro row hrow
    simp only [tabulate, List.mem_map, List.mem_range] at hrow
    obtain ⟨r, _, rfl⟩ := hrow
    simp

theorem square_eq_tabulate (n : Nat) (m : List (List Int)) (h : Square n m) :
    m = tabulate n n (matEntry m) := by
  obtain ⟨hlen, hrow⟩ := h
  apply List.ext_getElem?
  intro i
  by_cases hi : i < n
  · rw [getElem?_tabulate _ _ _ i hi]
    have hi2 : i < m.length := by omega
    rw [List.getElem?_eq_getElem hi2]
    congr 1
    have hw := hrow _ (List.getElem_mem hi2)
    apply List.ext_getElem?
    intro j
    by_cases hj : j < n
    · rw [getElem?_tabulate_row _ _ j hj]
      have hj2 : j < (m[i]).length := by omega
      simp [matEntry, List.getElem?_eq_getElem hi2, List.getElem?_eq_getElem hj2]
    · have h1 : (m[i]).length ≤ j := by omega
      have h2 : ((List.range n).map (fun c => matEntry m i c)).length ≤ j := by simp; omega
      rw [List.getElem?_eq_none h1, List.getElem?_eq_none h2]
  · rw [List.getElem?_eq_none, List.getElem?_eq_none]
    · rw [tabulate_length]; omega
    · omega

theorem rotateCW_tabulate (n : Nat) (F : Nat → Nat → Int) :
    rotateCWMatrix (tabulate n n F) = some (tabulate n n (fun i j => F (n - 1 - j) i)) := by
  unfold rotateCWMatrix
  have h := jsMap_eq
    (fun (row : List Int) i =>
      jsMap (fun (_ : Int) j =>
        (jsIndex (tabulate n n F) (((tabulate n n F).length : Int) - 1 - (j : Int))).bind
          (fun r => r[i]?)) row 0)
    (fun i => (List.range n).map (fun j => F (n - 1 - j) i)) (tabulate n n F) 0
  simp only [Nat.zero_add, tabulate_length] at h
  simp only [tabulate_length]
  apply h
  · intro i row hrow
    have hi : i < n := by
      have := (List.getElem?_eq_some.mp hrow).1
      rwa [tabulate_length] at this
    rw [getElem?_tabulate n n F i hi] at hrow
    have hlen : row.length = n := by
      rw [← Option.some.inj hrow]; simp
    have h2 := jsMap_eq
      (fun (_ : Int) j =>
        (jsIndex (tabulate n n F) ((n : Int) - 1 - (j : Int))).bind (fun r => r[i]?))
      (fun j => F (n - 1 - j) i) row 0
    simp only [Nat.zero_add, hlen] at h2
    apply h2
    intro j a hj
    have hjn : j < n := by
      have := (List.getElem?_eq_some.mp hj).1
      omega
    have hcast : ((n : Int) - 1 - (j : Int)) = ((n - 1 - j : Nat) : Int) := by omega
    rw [hcast, jsIndex_natCast, getElem?_tabulate n n F (n - 1 - j) (by omega)]
    simp [List.getElem?_range hi]

theorem rotateCCW_tabulate (n : Nat) (F : Nat → Nat → Int) (hn : 0 < n) :
    rotateCCWMatrix (tabulate n n F) = some (tabulate n n (fun i j => F j (n - 1 - i))) := by
  unfold rotateCCWMatrix
  rw [getElem?_tabulate n n F 0 hn]
  simp only
  have h := jsMap_eq
    (fun (_ : Int) index =>
      jsMap (fun (row : List Int) (_ : Nat) =>
        jsIndex row ((row.length : Int) - 1 - (index : Int))) (tabulate n n F) 0)
    (fun i => (List.range n).map (fun j => F j (n - 1 - i)))
    ((List.range n).map (fun c => F 0 c)) 0
  simp only [Nat.zero_add, List.length_map, List.length_range] at h
  apply h
  · intro i a hi
    have hin : i < n := by
      have := (List.getElem?_eq_some.mp hi).1
      simpa using this
    have h2 := jsMap_eq
      (fun (row : List Int) (_ : Nat) => jsIndex row ((row.length : Int) - 1 - (i : Int)))
      (fun j => F j (n - 1 - i)) (tabulate n n F) 0
    simp only [Nat.zero_add, tabulate_length] at h2
    apply h2
    intro j row hrow
    have hj : j < n := by
      have := (List.getElem?_eq_some.mp hrow).1
      rwa [tabulate_length] at this
    rw [getElem?_tabulate n n F j hj] at hrow
    rw [← Option.some.inj hrow]
    have hcast : (((List.map (fun c => F j c) (List.range n)).length : Int) - 1 - (i : Int))
        = ((n - 1 - i : Nat) : Int) := by
      simp only [List.length_map, List.length_range]
      omega
    rw [hcast, jsIndex_natCast]
    have : n - 1 - i < n := by omega
    simp [List.getElem?_range this]

theorem reverseRows_tabulate (n : Nat) (F : Nat → Nat → Int) :
    reverseRows (tabulate n n F) = tabulate n n (fun i j => F (n - 1 - i) j) := by
  unfold reverseRows
  apply List.ext_getElem?
  intro i
  by_cases hi : i < n
  · rw [List.getElem?_reverse (by rw [tabulate_length]; exact hi), tabulate_length,
      getElem?_tabulate _ _ _ _ (by omega), getElem?_tabulate _ _ _ i hi]
  · rw [List.getElem?_eq_none, List.getElem?_eq_none]
    · rw [tabulate_length]; omega
    · rw [List.length_reverse, tabulate_length]; omega

theorem transposeMatrix_tabulate (n : Nat) (F : Nat → Nat → Int) :
    transposeMatrix (tabulate n n F) = tabulate n n (fun i j => F j i) := by
  cases n with
  | zero => rfl
  | succ k =>
    unfold transposeMatrix
    have hhead : ((tabulate (k + 1) (k + 1) F).headD []).length = k + 1 := by
      simp [tabulate, List.range_succ_eq_map]
    rw [hhead]
    unfold tabulate
    apply List.map_congr_left
    intro j hj
    rw [List.map_map]
    apply List.map_congr_left
    intro i _
    have hj2 : j < k + 1 := List.mem_range.mp hj
    simp [List.getD, List.getElem?_range hj2]

theorem sum_map_range (n : Nat) (f : Nat → Nat) :
    ((List.range n).map f).sum = ∑ i in Finset.range n, f i := by
  induction n with
  | zero => simp
  | succ n ih => rw [List.range_succ, List.map_append, List.sum_append, ih, Finset.sum_range_succ]; simp

theorem length_filter_map_range (n : Nat) (f : Nat → Int) :
    (((List.range n).map f).filter (fun v => v != 0)).length
      = ∑ j in Finset.range n, (if f j ≠ 0 then 1 else 0) := by
  induction n with
  | zero => simp
  | succ n ih =>
    rw [List.range_succ, List.map_append, List.filter_append, List.length_append, ih,
      Finset.sum_range_succ]
    by_cases h : f n = 0
    · simp [h]
    · simp [h]

theorem filledCount_tabulate (n : Nat) (F : Nat → Nat → Int) :
    filledCount (tabulate n n F)
      = ∑ i in Finset.range n, ∑ j in Finset.range n, (if F i j ≠ 0 then 1 else 0) := by
  unfold filledCount tabulate
  rw [List.map_map, sum_map_range]
  apply Finset.sum_congr rfl
  intro i _
  exact length_filter_map_range n (fun c => F i c)

theorem filledCount_rotateCW (n : Nat) (F : Nat → Nat → Int) :
    filledCount (tabulate n n (fun i j => F (n - 1 - j) i)) = filledCount (tabulate n n F) := by
  rw [filledCount_tabulate, filledCount_tabulate, Finset.sum_comm]
  rw [← Finset.sum_range_reflect (fun j => ∑ i in Finset.range n, if F j i ≠ 0 then 1 else 0) n]

theorem filledCount_rotateCCW (n : Nat) (F : Nat → Nat → Int) :
    filledCount (tabulate n n (fun i j => F j (n - 1 - i))) = filledCount (tabulate n n F) := by
  rw [filledCount_tabulate, filledCount_tabulate]
  rw [Finset.sum_range_reflect (fun i => ∑ j in Finset.range n, if F j i ≠ 0 then 1 else 0) n]
  exact Finset.sum_comm

theorem piece_rotateCW_eq (p : Piece) (n : Nat) (F : Nat → Nat → Int)
    (h : p.representation = tabulate n n F) :
    p.rotateCW = some (p.withShape (tabulate n n (fun i j => F (n - 1 - j) i))) := by
  unfold Piece.rotateCW
  rw [h, rotateCW_tabulate]
  rfl

theorem piece_rotateCCW_eq (p : Piece) (n : Nat) (F : Nat → Nat → Int) (hn : 0 < n)
    (h : p.representation = tabulate n n F) :
    p.rotateCCW = some (p.withShape (tabulate n n (fun i j => F j (n - 1 - i)))) := by
  unfold Piece.rotateCCW
  rw [h, rotateCCW_tabulate n F hn]
  rfl

theorem withShape_withShape (p : Piece) (m1 m2 : List (List Int)) :
    (p.withShape m1).withShape m2 = p.withShape m2 := rfl

theorem withShape_self (p : Piece) (m : List (List Int)) (h : m = p.representation) :
    p.withShape m = p := by
  subst h
  rfl

theorem entry_tabulate (p : Piece) (n : Nat) (F : Nat → Nat → Int)
    (h : p.representation = tabulate n n F) (i j : Nat) (hi : i < n) (hj : j < n) :
    p.entry i j = some (F i j) := by
  simp [Piece.entry, h, getElem?_tabulate n n F i hi, List.getElem?_range hj]

theorem rotateCW_four (p : Piece) (hp : p.WF) :
    ((p.rotateCW.bind Piece.rotateCW).bind Piece.rotateCW).bind Piece.rotateCW = some p := by
  have hrep := square_eq_tabulate p.size p.representation hp
  rw [piece_rotateCW_eq p p.size _ hrep, Option.some_bind,
    piece_rotateCW_eq _ p.size _ rfl, Option.some_bind,
    piece_rotateCW_eq _ p.size _ rfl, Option.some_bind,
    piece_rotateCW_eq _ p.size _ rfl]
  simp only [withShape_withShape]
  congr 1
  apply withShape_self
  conv_rhs => rw [hrep]
  apply tabulate_congr
  intro i j hi hj
  have e1 : p.size - 1 - (p.size - 1 - i) = i := by omega
  have e2 : p.size - 1 - (p.size - 1 - j) = j := by omega
  simp only [e1, e2]

theorem rotateCW_rotateCCW (p : Piece) (hp : p.WF) (hn : 0 < p.size) :
    (p.rotateCW.bind Piece.rotateCCW = some p) ∧ (p.rotateCCW.bind Piece.rotateCW = some p) := by
  have hrep := square_eq_tabulate p.size p.representation hp
  constructor
  · rw [piece_rotateCW_eq p p.size _ hrep, Option.some_bind,
      piece_rotateCCW_eq _ p.size _ hn rfl]
    simp only [withShape_withShape]
    congr 1
    apply withShape_self
    conv_rhs => rw [hrep]
    apply tabulate_congr
    intro i j hi hj
    have e1 : p.size - 1 - (p.size - 1 - i) = i := by omega
    simp only [e1]
  · rw [piece_rotateCCW_eq p p.size _ hn hrep, Option.some_bind,
      piece_rotateCW_eq _ p.size _ rfl]
    simp only [withShape_withShape]
    congr 1
    apply withShape_self
    conv_rhs => rw [hrep]
    apply tabulate_congr
    intro i j hi hj
    have e2 : p.size - 1 - (p.size - 1 - j) = j := by omega
    simp only [e2]

theorem catalog_WF (grid : Grid) (t : PieceType) (x y : Option Int) :
    (Piece.new grid t x y).WF ∧ 0 < (Piece.new grid t x y).size := by
  show Square (PIECES t).length (PIECES t) ∧ 0 < (PIECES t).length
  cases t <;> exact ⟨by decide, by decide⟩

theorem isValid_congr (g : Grid) (p q : Piece) (h1 : p.representation = q.representation)
    (h2 : p.size = q.size) (h3 : p.x = q.x) (h4 : p.y = q.y) : g.isValid p = g.isValid q := by
  unfold Grid.isValid
  rw [h1, h2, h3, h4]

theorem isValid_some (g : Grid) (p : Piece) (hg : g.WF) (hp : p.WF) :
    g.isValid p = some true ∨ g.isValid p = some false := by
  rw [isValid_eq g p hg hp]
  cases anyBelow p.size (fun i => anyBelow p.size (fun j => p.blocked g i j)) <;> simp

theorem row_lt_of_valid (g : Grid) (p : Piece) (hg : g.WF) (hp : p.WF)
    (hfill : ∃ i j v, p.entry i j = some v ∧ v ≠ 0) (hv : g.isValid p = some true) :
    p.y < g.height := by
  obtain ⟨i, j, v, h1, h2⟩ := hfill
  have hnc := (isValid_true_iff g p hg hp).mp hv
  by_contra hcon
  apply hnc
  exact ⟨i, j, v, h1, h2, Or.inr (Or.inl (by omega))⟩

theorem hardDropLoop_spec (g : Grid) (hg : g.WF) :
    ∀ (fuel : Nat) (p : Piece), p.WF → (∃ i j v, p.entry i j = some v ∧ v ≠ 0) →
      ((g.height : Int) - p.y).toNat < fuel →
      ∃ k : Nat, hardDropLoop fuel g p = some (p.atRow (p.y + (k : Int))) ∧
        g.isValid (p.atRow (p.y + (k : Int))) = some false ∧
        ∀ k1 : Nat, k1 < k → g.isValid (p.atRow (p.y + (k1 : Int))) = some true := by
  intro fuel
  induction fuel with
  | zero => intro p _ _ h; omega
  | succ fuel ih =>
    intro p hp hfill hfuel
    unfold hardDropLoop
    rcases isValid_some g p hg hp with hv | hv
    · rw [hv]
      simp only
      have hlt := row_lt_of_valid g p hg hp hfill hv
      obtain ⟨k, h1, h2, h3⟩ := ih p.moveDown hp hfill (by
        show ((g.height : Int) - (p.y + 1)).toNat < fuel
        omega)
      have hrow : ∀ n : Nat, p.moveDown.atRow (p.moveDown.y + (n : Int))
          = p.atRow (p.y + ((n + 1 : Nat) : Int)) := by
        intro n
        show ({ p with y := p.y + 1 + (n : Int) } : Piece) = { p with y := p.y + ((n + 1 : Nat) : Int) }
        congr 1
        push_cast
        ring
      refine ⟨k + 1, ?_, ?_, ?_⟩
      · rw [h1, hrow]
      · rw [← hrow]; exact h2
      · intro k1 hk1
        cases k1 with
        | zero =>
          have : p.atRow (p.y + ((0 : Nat) : Int)) = p := by
            show ({ p with y := p.y + ((0 : Nat) : Int) } : Piece) = p
            simp
          rw [this]; exact hv
        | succ k2 =>
          rw [← hrow]
          exact h3 k2 (by omega)
    · rw [hv]
      simp only
      have : p.atRow (p.y + ((0 : Nat) : Int)) = p := by
        show ({ p with y := p.y + ((0 : Nat) : Int) } : Piece) = p
        simp
      refine ⟨0, by rw [this], by rw [this]; exact hv, ?_⟩
      intro k1 hk1
      omega

/-- On a piece without any filled cell the `while` loop of `hardDrop()` never ends. -/
theorem hardDropLoop_emptyShape (g : Grid) :
    ∀ (fuel : Nat) (y : Int), hardDropLoop fuel g (emptyShapePiece.atRow y) = none := by
  intro fuel
  induction fuel with
  | zero => intro y; rfl
  | succ fuel ih =>
    intro y
    have h := ih (y + 1)
    unfold hardDropLoop
    have hv : g.isValid (emptyShapePiece.atRow y) = some true := rfl
    rw [hv]
    exact h

theorem ceilHalf_eq_ceil (a : Int) : ceilHalf a = ⌈(a : ℚ) / 2⌉ := by
  unfold ceilHalf
  symm
  rw [Int.ceil_eq_iff]
  have h1 : 2 * ((a + 1) / 2) ≤ a + 1 := by omega
  have h2 : a ≤ 2 * ((a + 1) / 2) := by omega
  have h1q : (2 : ℚ) * (((a + 1) / 2 : Int) : ℚ) ≤ (a : ℚ) + 1 := by exact_mod_cast h1
  have h2q : (a : ℚ) ≤ 2 * (((a + 1) / 2 : Int) : ℚ) := by exact_mod_cast h2
  constructor <;> linarith

theorem reset_eq (g : Grid) (hg : g.WF) :
    g.reset = some (g.withCells (fun _ _ => { color := Color.white, active := false })) := by
  unfold Grid.reset
  conv_lhs => rw [← withCells_fn g hg]
  show forUp g.height (fun row g1 =>
    forUp g.width (fun col g2 => g2.modifyCell row col Cell.reset) g1) (g.withCells g.fn) = _
  rw [forUp_overwrite g { color := Color.white, active := false } g.height
    (fun i r c => anyBelow g.width (fun j =>
      decide ((i : Int) = (r : Int)) && decide ((j : Int) = (c : Int))))]
  · congr 1
    apply withCells_congr
    intro r c hr hc
    have : anyBelow g.height (fun i => anyBelow g.width (fun j =>
        decide ((i : Int) = (r : Int)) && decide ((j : Int) = (c : Int)))) = true := by
      rw [anyBelow_iff]
      refine ⟨r, hr, ?_⟩
      rw [anyBelow_iff]
      exact ⟨c, hc, by simp⟩
    rw [if_pos this]
  · intro i hi F
    apply forUp_overwrite g { color := Color.white, active := false } g.width
      (fun j r c => decide ((i : Int) = (r : Int)) && decide ((j : Int) = (c : Int)))
    intro j hj F2
    exact modifyCell_withCells_int g F2 i j Cell.reset _ (fun _ => rfl) (by omega) (by omega)
      (by omega) (by omega)

theorem catalog_filled_bounds (t : PieceType) (i j : Nat)
    (h : jsTruthy (((PIECES t)[i]?).bind (fun shapeRow => shapeRow[j]?)) = true) :
    i ≤ 6 ∧ j ≤ 7 ∧ j < (PIECES t).length ∧ 1 ≤ (PIECES t).length ∧ (PIECES t).length ≤ 8 := by
  have key : ∀ t : PieceType, ∀ i, i < 8 → ∀ j, j < 8 →
      jsTruthy (((PIECES t)[i]?).bind (fun shapeRow => shapeRow[j]?)) = true →
      i ≤ 6 ∧ j ≤ 7 ∧ j < (PIECES t).length ∧ 1 ≤ (PIECES t).length ∧ (PIECES t).length ≤ 8 := by
    intro t i hi j hj hf
    have hno : anyBelow 8 (fun i => anyBelow 8 (fun j =>
        jsTruthy (((PIECES t)[i]?).bind (fun shapeRow => shapeRow[j]?)) &&
          !decide (i ≤ 6 ∧ j ≤ 7 ∧ j < (PIECES t).length ∧ 1 ≤ (PIECES t).length ∧
            (PIECES t).length ≤ 8))) = false := by
      cases t <;> decide
    by_contra hcon
    have : anyBelow 8 (fun i => anyBelow 8 (fun j =>
        jsTruthy (((PIECES t)[i]?).bind (fun shapeRow => shapeRow[j]?)) &&
          !decide (i ≤ 6 ∧ j ≤ 7 ∧ j < (PIECES t).length ∧ 1 ≤ (PIECES t).length ∧
            (PIECES t).length ≤ 8))) = true := by
      rw [anyBelow_iff]
      refine ⟨i, hi, ?_⟩
      rw [anyBelow_iff]
      exact ⟨j, hj, by simp [hf, hcon]⟩
    rw [hno] at this
    cases this
  have hi : i < 8 := by
    by_contra hcon
    have hnone : (PIECES t)[i]? = none := by
      apply List.getElem?_eq_none
      have : (PIECES t).length ≤ 8 := by cases t <;> decide
      omega
    rw [hnone] at h
    simp [jsTruthy] at h
  have hj : j < 8 := by
    by_contra hcon
    cases hrow : (PIECES t)[i]? with
    | none => rw [hrow] at h; simp [jsTruthy] at h
    | some shapeRow =>
      have hmem : shapeRow ∈ PIECES t := List.mem_iff_getElem?.mpr ⟨i, hrow⟩
      have hlen : shapeRow.length ≤ 8 := by
        have : ∀ r ∈ PIECES t, r.length ≤ 8 := by cases t <;> decide
        exact this shapeRow hmem
      have hnone : shapeRow[j]? = none := List.getElem?_eq_none (by omega)
      rw [hrow] at h
      simp [hnone, jsTruthy] at h
  exact key t i hi j hj h

theorem spawn_inside (g : Grid) (t : PieceType) (hw : 9 ≤ g.width) (hh : 8 ≤ g.height) :
    (Piece.new g t none none).inside g := by
  intro i _ j _ hf
  obtain ⟨h1, h2, h3, h4, h5⟩ := catalog_filled_bounds t i j hf
  show 0 ≤ (0 : Int) + (i : Int) ∧ (0 : Int) + (i : Int) < g.height ∧
    0 ≤ ceilHalf ((g.width : Int) - ((PIECES t).length : Int)) + (j : Int) ∧
    ceilHalf ((g.width : Int) - ((PIECES t).length : Int)) + (j : Int) < g.width
  unfold ceilHalf
  omega

theorem glyph_inside (g : Grid) (hw : 9 ≤ g.width) (hh : 8 ≤ g.height) :
    (Piece.new g PieceType.Gameover (some 1) (some 1)).inside g := by
  intro i _ j _ hf
  obtain ⟨h1, h2, h3, h4, h5⟩ := catalog_filled_bounds PieceType.Gameover i j hf
  show 0 ≤ (1 : Int) + (i : Int) ∧ (1 : Int) + (i : Int) < g.height ∧
    0 ≤ (1 : Int) + (j : Int) ∧ (1 : Int) + (j : Int) < g.width
  omega

theorem gameOver_eq (s : State) (hg : s.grid.WF) (hw : 9 ≤ s.grid.width)
    (hh : 8 ≤ s.grid.height) :
    gameOver s = some { s with
      looping := false
      grid := s.grid.withCells (fun r c =>
        if (Piece.new s.grid PieceType.Gameover (some 1) (some 1)).covers r c = true then
          { color := Color.black, active := true }
        else { color := Color.white, active := false }) } := by
  unfold gameOver
  rw [reset_eq s.grid hg]
  simp only
  have hins := insertPiece_eq (s.grid.withCells (fun _ _ => { color := Color.white, active := false }))
    (Piece.new (s.grid.withCells (fun _ _ => { color := Color.white, active := false }))
      PieceType.Gameover (some 1) (some 1))
    (withCells_WF _ _) (catalog_WF _ _ _ _).1 (glyph_inside _ hw hh)
  rw [hins]
  simp only [withCells_withCells]
  congr 2
  apply withCells_congr
  intro r c hr hc
  rw [fn_withCells s.grid _ r c hr hc]
  rfl

theorem spawn_invalid_iff (g : Grid) (t : PieceType) (hg : g.WF) (hw : 9 ≤ g.width)
    (hh : 8 ≤ g.height) :
    g.isValid (Piece.new g t none none) = some false ↔
      ∃ row col v, (Piece.new g t none none).entry row col = some v ∧ v ≠ 0 ∧
        ∃ cell, g.cellAt ((Piece.new g t none none).y + (row : Int))
            ((Piece.new g t none none).x + (col : Int)) = some cell ∧ cell.active = true := by
  rw [isValid_false_iff g _ hg (catalog_WF g t none none).1]
  have hin := spawn_inside g t hw hh
  constructor
  · rintro ⟨row, col, v, h1, h2, h3⟩
    obtain ⟨hi, hj⟩ := entry_lt _ (catalog_WF g t none none).1 row col v h1
    obtain ⟨a, b, c, d⟩ := hin row hi col hj ((filled_iff _ row col).mpr ⟨v, h1, h2⟩)
    rcases h3 with h | h | h | h | h
    · omega
    · omega
    · omega
    · omega
    · exact ⟨row, col, v, h1, h2, h⟩
  · rintro ⟨row, col, v, h1, h2, h3⟩
    exact ⟨row, col, v, h1, h2, Or.inr (Or.inr (Or.inr (Or.inr h3)))⟩

theorem clearFullLinesLoop_lines :
    ∀ (fuel : Nat) (g : Grid) (row : Int) (lines : Nat),
      clearFullLinesLoop fuel g row lines
        = (clearFullLinesLoop fuel g row 0).map (fun r => (r.1, lines + r.2)) := by
  intro fuel
  induction fuel with
  | zero => intro g row lines; rfl
  | succ fuel ih =>
    intro g row lines
    unfold clearFullLinesLoop
    by_cases hrow : row ≥ 0
    · rw [if_pos hrow, if_pos hrow]
      cases hfull : g.isLineFull row with
      | none => rfl
      | some b =>
        cases b
        · simp only
          exact ih g (row - 1) lines
        · simp only
          cases hcl : g.clearLine row.toNat with
          | none => rfl
          | some g1 =>
            simp only
            rw [ih g1 (row + 1 - 1) (lines + 1), ih g1 (row + 1 - 1) (0 + 1), Option.map_map]
            congr 1
            funext r
            simp only [Function.comp]
            congr 1
            omega
    · rw [if_neg hrow, if_neg hrow]
      rfl

theorem clearFullLinesHookLoop_eq (hooks : Hooks) :
    ∀ (fuel : Nat) (g : Grid) (row : Int) (lines : Nat) (GAME : GameVars)
      (calls : List HookCall),
      clearFullLinesHookLoop hooks fuel g row lines GAME calls
        = (clearFullLinesLoop fuel g row 0).map (fun r =>
            (r.1, lines + r.2, hooks.updateLines^[r.2] GAME,
              calls ++ List.replicate r.2 HookCall.updateLines)) := by
  intro fuel
  induction fuel with
  | zero => intro g row lines GAME calls; rfl
  | succ fuel ih =>
    intro g row lines GAME calls
    unfold clearFullLinesHookLoop clearFullLinesLoop
    by_cases hrow : row ≥ 0
    · rw [if_pos hrow, if_pos hrow]
      cases hfull : g.isLineFull row with
      | none => rfl
      | some b =>
        cases b
        · simp only
          exact ih g (row - 1) lines GAME calls
        · simp only
          cases hcl : g.clearLine row.toNat with
          | none => rfl
          | some g1 =>
            simp only
            rw [ih g1 (row + 1 - 1) (lines + 1), clearFullLinesLoop_lines fuel g1 (row + 1 - 1) (0 + 1),
              Option.map_map]
            congr 1
            funext r
            simp only [Function.comp, Nat.zero_add]
            have e1 : lines + 1 + r.2 = lines + (1 + r.2) := by omega
            have e2 : hooks.updateLines^[1 + r.2] GAME
                = hooks.updateLines^[r.2] (hooks.updateLines GAME) := by
              rw [Nat.add_comm, Function.iterate_succ_apply]
            have e3 : calls ++ [HookCall.updateLines] ++ List.replicate r.2 HookCall.updateLines
                = calls ++ List.replicate (1 + r.2) HookCall.updateLines := by
              rw [Nat.add_comm, List.replicate_succ, List.append_assoc]
              rfl
            rw [e1, e2, e3]
    · rw [if_neg hrow, if_neg hrow]
      simp

theorem clearFullLinesHooks_eq (hooks : Hooks) (g : Grid) (GAME : GameVars) :
    g.clearFullLinesHooks hooks GAME
      = g.clearFullLines.map (fun r =>
          (r.1, (gameAfterClear hooks r.2 GAME).1, (gameAfterClear hooks r.2 GAME).2)) := by
  unfold Grid.clearFullLinesHooks Grid.clearFullLines
  rw [clearFullLinesHookLoop_eq]
  cases hloop : clearFullLinesLoop (2 * g.height + 1) g ((g.height : Int) - 1) 0 with
  | none => rfl
  | some r =>
    obtain ⟨g1, lines⟩ := r
    simp only [Option.map_some', Nat.zero_add, List.nil_append, gameAfterClear]
    split <;> rfl

theorem iterate_updateLines (hooks : Hooks)
    (hlines : ∀ G, hooks.updateLines G = { G with linescleared := G.linescleared + 1 })
    (n : Nat) (G : GameVars) :
    (hooks.updateLines^[n] G).linescleared = G.linescleared + n ∧
      (hooks.updateLines^[n] G).level = G.level := by
  induction n generalizing G with
  | zero => exact ⟨rfl, rfl⟩
  | succ n ih =>
    rw [Function.iterate_succ_apply]
    obtain ⟨h1, h2⟩ := ih (hooks.updateLines G)
    rw [h1, h2, hlines G]
    exact ⟨by simp only; omega, rfl⟩

theorem count_replicate_updateLines (n : Nat) :
    (List.replicate n HookCall.updateLines).count HookCall.updateLevel = 0 := by
  rw [List.count_eq_zero]
  intro h
  have := List.eq_of_mem_replicate h
  cases this

theorem gameAfterClear_count (hooks : Hooks) (lines : Nat) (G : GameVars) :
    ((gameAfterClear hooks lines G).2.count HookCall.updateLevel
        = if (hooks.updateScore lines (hooks.updateLines^[lines] G)).linescleared
            ≥ ((hooks.updateScore lines (hooks.updateLines^[lines] G)).level + 1) * 10
          then 1 else 0) ∧
      ((gameAfterClear hooks lines G).1
        = if (hooks.updateScore lines (hooks.updateLines^[lines] G)).linescleared
            ≥ ((hooks.updateScore lines (hooks.updateLines^[lines] G)).level + 1) * 10
          then hooks.updateLevel (hooks.updateScore lines (hooks.updateLines^[lines] G))
          else hooks.updateScore lines (hooks.updateLines^[lines] G)) := by
  unfold gameAfterClear
  split
  · refine ⟨?_, rfl⟩
    rw [List.count_append, count_replicate_updateLines]
    simp
  · refine ⟨?_, rfl⟩
    rw [List.count_append, count_replicate_updateLines]
    simp

theorem gameAfterClear_counting (hooks : Hooks)
    (hlines : ∀ G, hooks.updateLines G = { G with linescleared := G.linescleared + 1 })
    (hlevel : ∀ G, hooks.updateLevel G = { G with level := G.level + 1 })
    (hscore : ∀ n G, (hooks.updateScore n G).linescleared = G.linescleared ∧
      (hooks.updateScore n G).level = G.level)
    (lines : Nat) (G : GameVars) :
    (gameAfterClear hooks lines G).1.linescleared = G.linescleared + lines ∧
      (G.linescleared + lines ≥ (G.level + 1) * 10 →
        (gameAfterClear hooks lines G).1.level = G.level + 1 ∧
          (gameAfterClear hooks lines G).2.count HookCall.updateLevel = 1) ∧
      (G.linescleared + lines < (G.level + 1) * 10 →
        (gameAfterClear hooks lines G).1.level = G.level ∧
          (gameAfterClear hooks lines G).2.count HookCall.updateLevel = 0) := by
  obtain ⟨hc, hG⟩ := gameAfterClear_count hooks lines G
  obtain ⟨i1, i2⟩ := iterate_updateLines hooks hlines lines G
  obtain ⟨s1, s2⟩ := hscore lines (hooks.updateLines^[lines] G)
  rw [hc, hG, s1, s2, i1, i2]
  refine ⟨?_, ?_, ?_⟩
  · split
    · rw [hlevel]; simp only; rw [s1, i1]
    · rw [s1, i1]
  · intro h
    rw [if_pos h, if_pos h, hlevel]
    simp [s2, i2]
  · intro h
    have h1 : ¬ (G.linescleared + lines ≥ (G.level + 1) * 10) := by omega
    rw [if_neg h1, if_neg h1, s2, i2]
    exact ⟨rfl, rfl⟩

theorem playClears_cons (hooks : Hooks) (g : Grid) (rest : List Grid) (G G1 : GameVars)
    (calls : List HookCall) (h : playClears hooks (g :: rest) G = some (G1, calls)) :
    ∃ lines G2 calls2, playClears hooks rest (gameAfterClear hooks lines G).1 = some (G2, calls2) ∧
      G1 = G2 ∧ calls = (gameAfterClear hooks lines G).2 ++ calls2 := by
  unfold playClears at h
  rw [clearFullLinesHooks_eq] at h
  cases hc : g.clearFullLines with
  | none => rw [hc] at h; cases h
  | some r =>
    rw [hc] at h
    simp only [Option.map_some'] at h
    cases hp : playClears hooks rest (gameAfterClear hooks r.2 G).1 with
    | none => rw [hp] at h; cases h
    | some q =>
      rw [hp] at h
      simp only [Option.map_some', Option.some.injEq, Prod.mk.injEq] at h
      exact ⟨r.2, q.1, q.2, by rw [hp], h.1.symm, h.2.symm⟩

theorem playClears_levels (hooks : Hooks)
    (hlines : ∀ G, hooks.updateLines G = { G with linescleared := G.linescleared + 1 })
    (hlevel : ∀ G, hooks.updateLevel G = { G with level := G.level + 1 })
    (hscore : ∀ n G, (hooks.updateScore n G).linescleared = G.linescleared ∧
      (hooks.updateScore n G).level = G.level) :
    ∀ (boards : List Grid) (G G1 : GameVars) (calls : List HookCall),
      playClears hooks boards G = some (G1, calls) →
      G.linescleared ≤ G1.linescleared ∧
        (G1.linescleared < (G.level + 1) * 10 → calls.count HookCall.updateLevel = 0) ∧
        (G.level = 0 → G.linescleared < 10 → G1.linescleared = 10 →
          calls.count HookCall.updateLevel = 1) := by
  intro boards
  induction boards with
  | nil =>
    intro G G1 calls h
    unfold playClears at h
    simp only [Option.some.injEq, Prod.mk.injEq] at h
    obtain ⟨h1, h2⟩ := h
    subst h1 h2
    exact ⟨le_refl _, fun _ => rfl, fun _ h3 h4 => by omega⟩
  | cons g rest ih =>
    intro G G1 calls h
    obtain ⟨lines, G2, calls2, hp, hG, hcalls⟩ := playClears_cons hooks g rest G G1 calls h
    subst hG hcalls
    obtain ⟨c1, c2, c3⟩ := gameAfterClear_counting hooks hlines hlevel hscore lines G
    obtain ⟨m1, m2, m3⟩ := ih _ _ _ hp
    rw [c1] at m1
    refine ⟨by omega, ?_, ?_⟩
    · intro hlt
      obtain ⟨d1, d2⟩ := c3 (by omega)
      rw [List.count_append, d2, m2 (by rw [d1]; exact hlt)]
    · intro h0 h9 h10
      by_cases hup : G.linescleared + lines ≥ (G.level + 1) * 10
      · obtain ⟨d1, d2⟩ := c2 hup
        rw [List.count_append, d2, m2 (by rw [d1, h0]; omega)]
      · obtain ⟨d1, d2⟩ := c3 (by omega)
        rw [List.count_append, d2, m3 (by rw [d1, h0]) (by rw [c1]; omega) h10]

theorem forUp_preserves {σ : Type} (P : σ → Prop) (body : Nat → σ → Option σ)
    (hbody : ∀ i a b, P a → body i a = some b → P b) :
    ∀ (n : Nat) (a b : σ), P a → forUp n body a = some b → P b := by
  intro n
  induction n with
  | zero =>
    intro a b ha h
    unfold forUp at h
    cases h
    exact ha
  | succ n ih =>
    intro a b ha h
    unfold forUp at h
    cases h1 : forUp n body a with
    | none => rw [h1] at h; cases h
    | some c =>
      rw [h1] at h
      exact hbody n c b (ih a c ha h1) h

theorem forDown_preserves {σ : Type} (P : σ → Prop) (body : Nat → σ → Option σ)
    (hbody : ∀ i a b, P a → body i a = some b → P b) :
    ∀ (n : Nat) (a b : σ), P a → forDown n body a = some b → P b := by
  intro n
  induction n with
  | zero =>
    intro a b ha h
    unfold forDown at h
    cases h
    exact ha
  | succ n ih =>
    intro a b ha h
    unfold forDown at h
    cases h1 : body (n + 1) a with
    | none => rw [h1] at h; cases h
    | some c =>
      rw [h1] at h
      exact ih c b (hbody (n + 1) a c ha h1) h

theorem jsIndex_mem {α : Type} (xs : List α) (i : Int) (x : α) (h : jsIndex xs i = some x) :
    x ∈ xs ∧ 0 ≤ i ∧ xs[i.toNat]? = some x := by
  unfold jsIndex at h
  by_cases hi : i < 0
  · rw [if_pos hi] at h; cases h
  · rw [if_neg hi] at h
    exact ⟨List.mem_iff_getElem?.mpr ⟨_, h⟩, by omega, h⟩

theorem modifyCell_CellInv (g g1 : Grid) (row col : Int) (f : Cell → Cell)
    (hf : ∀ c, (f c).active = false → (f c).color = Color.white)
    (hinv : g.CellInv) (h : g.modifyCell row col f = some g1) : g1.CellInv := by
  unfold Grid.modifyCell at h
  cases h1 : jsIndex g.cells row with
  | none => rw [h1] at h; cases h
  | some r =>
    rw [h1] at h
    simp only at h
    cases h2 : jsIndex r col with
    | none => rw [h2] at h; cases h
    | some c =>
      rw [h2] at h
      simp only [Option.some.injEq] at h
      subst h
      intro R hR x hx hact
      rcases List.mem_or_eq_of_mem_set hR with hold | hnew
      · exact hinv R hold x hx hact
      · subst hnew
        rcases List.mem_or_eq_of_mem_set hx with hold | hnew
        · exact hinv r (jsIndex_mem _ _ _ h1).1 x hold hact
        · subst hnew
          exact hf c hact

theorem modifyCell_modifyCell (g : Grid) (row col : Int) (f1 f2 : Cell → Cell) :
    (g.modifyCell row col f1).bind (fun g3 => g3.modifyCell row col f2)
      = g.modifyCell row col (fun c => f2 (f1 c)) := by
  unfold Grid.modifyCell
  cases h1 : jsIndex g.cells row with
  | none => rfl
  | some r =>
    simp only
    cases h2 : jsIndex r col with
    | none => rfl
    | some c =>
      simp only [Option.some_bind]
      obtain ⟨_, hr0, hr⟩ := jsIndex_mem _ _ _ h1
      obtain ⟨_, hc0, hc⟩ := jsIndex_mem _ _ _ h2
      have hrl : row.toNat < g.cells.length := (List.getElem?_eq_some.mp hr).1
      have hcl : col.toNat < r.length := (List.getElem?_eq_some.mp hc).1
      have e1 : jsIndex (g.cells.set row.toNat (r.set col.toNat (f1 c))) row
          = some (r.set col.toNat (f1 c)) := by
        unfold jsIndex
        rw [if_neg (by omega)]
        simp [hrl]
      have e2 : jsIndex (r.set col.toNat (f1 c)) col = some (f1 c) := by
        unfold jsIndex
        rw [if_neg (by omega)]
        simp [hcl]
      rw [e1]
      simp only
      rw [e2]
      simp only [List.set_set]

theorem reset_CellInv (g g1 : Grid) (hinv : g.CellInv) (h : g.reset = some g1) : g1.CellInv := by
  unfold Grid.reset at h
  refine forUp_preserves Grid.CellInv _ ?_ g.height g g1 hinv h
  intro row a b ha hb
  refine forUp_preserves Grid.CellInv _ ?_ g.width a b ha hb
  intro col a1 b1 ha1 hb1
  exact modifyCell_CellInv a1 b1 _ _ Cell.reset (fun _ _ => rfl) ha1 hb1

theorem insertPiece_CellInv (g g1 : Grid) (p : Piece) (hinv : g.CellInv)
    (h : g.insertPiece p = some g1) : g1.CellInv := by
  unfold Grid.insertPiece at h
  refine forUp_preserves Grid.CellInv _ ?_ p.size g g1 hinv h
  intro row a b ha hb
  refine forUp_preserves Grid.CellInv _ ?_ p.size a b ha hb
  intro col a1 b1 ha1 hb1
  cases hrow : p.representation[row]? with
  | none => rw [hrow] at hb1; cases hb1
  | some shapeRow =>
    rw [hrow] at hb1
    simp only at hb1
    split at hb1
    · refine modifyCell_CellInv a1 b1 _ _ _ ?_ ha1 hb1
      intro c hc
      simp [Cell.fill] at hc
    · cases hb1
      exact ha1

theorem clearPiece_CellInv (g g1 : Grid) (p : Piece) (hinv : g.CellInv)
    (h : g.clearPiece p = some g1) : g1.CellInv := by
  unfold Grid.clearPiece at h
  refine forUp_preserves Grid.CellInv _ ?_ p.size g g1 hinv h
  intro row a b ha hb
  refine forUp_preserves Grid.CellInv _ ?_ p.size a b ha hb
  intro col a1 b1 ha1 hb1
  cases hrow : p.representation[row]? with
  | none => rw [hrow] at hb1; cases hb1
  | some shapeRow =>
    rw [hrow] at hb1
    simp only at hb1
    split at hb1
    · exact modifyCell_CellInv a1 b1 _ _ Cell.reset (fun _ _ => rfl) ha1 hb1
    · cases hb1
      exact ha1

theorem clearLine_CellInv (g g1 : Grid) (n : Nat) (hinv : g.CellInv)
    (h : g.clearLine n = some g1) : g1.CellInv := by
  unfold Grid.clearLine at h
  obtain ⟨g4, h1, h2⟩ := Option.bind_eq_some.mp h
  have hg4 : g4.CellInv := by
    refine forDown_preserves Grid.CellInv _ ?_ n g g4 hinv h1
    intro row a b ha hb
    refine forUp_preserves Grid.CellInv _ ?_ g.width a b ha hb
    intro col a1 b1 ha1 hb1
    cases hab : a1.cellAt ((row : Int) - 1) col with
    | none => rw [hab] at hb1; cases hb1
    | some cellabove =>
      rw [hab] at hb1
      simp only at hb1
      rw [modifyCell_modifyCell] at hb1
      obtain ⟨R, hR, hc⟩ := cellAt_mem a1 _ _ cellabove hab
      refine modifyCell_CellInv a1 b1 _ _ _ ?_ ha1 hb1
      intro c hact
      exact ha1 R hR cellabove hc hact
  refine forUp_preserves Grid.CellInv _ ?_ g.width g4 g1 hg4 h2
  intro col a1 b1 ha1 hb1
  exact modifyCell_CellInv a1 b1 _ _ Cell.reset (fun _ _ => rfl) ha1 hb1

theorem clearFullLinesLoop_CellInv :
    ∀ (fuel : Nat) (g g1 : Grid) (row : Int) (lines k : Nat), g.CellInv →
      clearFullLinesLoop fuel g row lines = some (g1, k) → g1.CellInv := by
  intro fuel
  induction fuel with
  | zero => intro g g1 row lines k _ h; cases h
  | succ fuel ih =>
    intro g g1 row lines k hinv h
    unfold clearFullLinesLoop at h
    by_cases hrow : row ≥ 0
    · rw [if_pos hrow] at h
      cases hfull : g.isLineFull row with
      | none => rw [hfull] at h; cases h
      | some b =>
        rw [hfull] at h
        cases b
        · exact ih g g1 _ _ k hinv h
        · simp only at h
          cases hcl : g.clearLine row.toNat with
          | none => rw [hcl] at h; cases h
          | some g2 =>
            rw [hcl] at h
            exact ih g2 g1 _ _ k (clearLine_CellInv g g2 _ hinv hcl) h
    · rw [if_neg hrow] at h
      cases h
      exact hinv

theorem new_cells (w h : Nat) :
    (Grid.new w h).WF ∧ (Grid.new w h).width = w ∧ (Grid.new w h).height = h ∧
      ∀ row ∈ (Grid.new w h).cells, ∀ c ∈ row, c = { color := Color.white, active := false } := by
  refine ⟨⟨by simp [Grid.new], ?_⟩, rfl, rfl, ?_⟩
  · intro row hrow
    simp only [Grid.new, List.mem_map, List.mem_range] at hrow
    obtain ⟨r, _, rfl⟩ := hrow
    simp [Grid.new]
  · intro row hrow c hc
    simp only [Grid.new, List.mem_map, List.mem_range] at hrow
    obtain ⟨r, _, rfl⟩ := hrow
    simp only [List.mem_map, List.mem_range] at hc
    obtain ⟨_, _, rfl⟩ := hc
    rfl

theorem reset_eq_new (g : Grid) (hg : g.WF) : g.reset = some (Grid.new g.width g.height) :=
  reset_eq g hg

theorem clearLine_fullCount (g : Grid) (hg : g.WF) (hw : 0 < g.width) (n : Nat) (R : List Cell)
    (hn : g.cells[n]? = some R) (hfull : rowFull R = true) :
    ∃ g1, g.clearLine n = some g1 ∧ g1.WF ∧ g1.width = g.width ∧ g1.height = g.height ∧
      g1.cells[0]? = some (emptyRow g.width) ∧
      (g1.cells.filter rowFull).length + 1 = (g.cells.filter rowFull).length := by
  obtain ⟨hlt, hget⟩ := List.getElem?_eq_some.mp hn
  have hsplit : g.cells = g.cells.take n ++ R :: g.cells.drop (n + 1) := by
    rw [← hget]
    conv_lhs => rw [← List.take_append_drop n g.cells]
    rw [List.drop_eq_getElem_cons hlt]
  have hlen : (g.cells.take n).length = n := by
    rw [List.length_take]
    omega
  obtain ⟨h1, h2⟩ := clearLine_split g hg (g.cells.take n) (g.cells.drop (n + 1)) R hsplit
  rw [hlen] at h1
  refine ⟨_, h1, h2, rfl, rfl, by simp, ?_⟩
  show ((emptyRow g.width :: (g.cells.take n ++ g.cells.drop (n + 1))).filter rowFull).length + 1
    = (g.cells.filter rowFull).length
  conv_rhs => rw [hsplit]
  rw [List.filter_cons_of_neg (by rw [rowFull_emptyRow g.width hw]; simp), List.filter_append,
    List.filter_append, List.filter_cons_of_pos hfull]
  simp only [List.length_append, List.length_cons]
  omega

theorem hardDrop_total (g : Grid) (hg : g.WF) (p : Piece) (hp : p.WF)
    (hfill : ∃ i j v, p.entry i j = some v ∧ v ≠ 0) :
    ∃ k : Nat, g.isValid (p.atRow (p.y + (k : Int))) = some false ∧
      (∀ k1 : Nat, k1 < k → g.isValid (p.atRow (p.y + (k1 : Int))) = some true) ∧
      ∀ fuel, ((g.height : Int) - p.y).toNat < fuel →
        Piece.hardDrop fuel g p
          = some { (p.atRow (p.y + (k : Int))).moveUp with dropBuffer := DROP_INTERVAL } := by
  obtain ⟨k0, a1, a2, a3⟩ := hardDropLoop_spec g hg (((g.height : Int) - p.y).toNat + 1) p hp
    hfill (Nat.lt_succ_self _)
  refine ⟨k0, a2, a3, ?_⟩
  intro fuel hfuel
  obtain ⟨k, b1, b2, b3⟩ := hardDropLoop_spec g hg fuel p hp hfill hfuel
  have hk : k = k0 := by
    rcases Nat.lt_trichotomy k k0 with hlt | heq | hgt
    · have := a3 k hlt
      rw [b2] at this
      cases this
    · exact heq
    · have := b3 k0 hgt
      rw [a2] at this
      cases this
  subst hk
  unfold Piece.hardDrop
  rw [b1]
  rfl

theorem filter_length_le_of_interval {α : Type} (l : List α) (P : α → Bool) (a n : Nat)
    (h : ∀ r x, l[r]? = some x → P x = true → a ≤ r ∧ r < a + n) :
    (l.filter P).length ≤ n := by
  have h1 : (l.take a).filter P = [] := by
    rw [List.filter_eq_nil_iff]
    intro x hx hP
    obtain ⟨r, hr⟩ := List.mem_iff_getElem?.mp hx
    rw [List.getElem?_take] at hr
    by_cases hlt : r < a
    · rw [if_pos hlt] at hr
      have := (h r x hr hP).1
      omega
    · rw [if_neg hlt] at hr
      cases hr
  have h2 : ((l.drop a).drop n).filter P = [] := by
    rw [List.filter_eq_nil_iff]
    intro x hx hP
    obtain ⟨r, hr⟩ := List.mem_iff_getElem?.mp hx
    rw [List.getElem?_drop, List.getElem?_drop] at hr
    have := (h _ x hr hP).2
    omega
  have h3 : l = l.take a ++ ((l.drop a).take n ++ (l.drop a).drop n) := by
    rw [List.take_append_drop, List.take_append_drop]
  rw [h3, List.filter_append, List.filter_append, h1, h2]
  simp only [List.nil_append, List.append_nil]
  calc (((l.drop a).take n).filter P).length ≤ ((l.drop a).take n).length :=
        List.length_filter_le _ _
    _ ≤ n := by rw [List.length_take]; omega

theorem length_filter_add {α : Type} (l : List α) (P : α → Bool) :
    (l.filter P).length + (l.filter (fun x => !P x)).length = l.length := by
  induction l with
  | nil => rfl
  | cons x xs ih =>
    cases hx : P x
    · rw [List.filter_cons_of_neg (by simp [hx]), List.filter_cons_of_pos (by simp [hx])]
      simp only [List.length_cons]
      omega
    · rw [List.filter_cons_of_pos hx, List.filter_cons_of_neg (by simp [hx])]
      simp only [List.length_cons]
      omega

theorem clearFullLines_eq (g : Grid) (hg : g.WF) (h : 0 < g.width ∨ g.height = 0) :
    g.clearFullLines
      = some ({ g with cells :=
            List.replicate (g.cells.filter rowFull).length (emptyRow g.width)
              ++ g.cells.filter (fun r => !rowFull r) },
          (g.cells.filter rowFull).length) := by
  rcases h with hw | hh
  · exact clearFullLinesLoop_eq g hg hw _ (le_refl _)
  · cases g with
    | mk w h cells =>
      simp only at hh
      subst hh
      have hcells : cells = [] := List.eq_nil_of_length_eq_zero hg.1
      subst hcells
      rfl

theorem clearFullLines_result (g : Grid) (hg : g.WF) (h : 0 < g.width ∨ g.height = 0) :
    ∃ g1, g.clearFullLines = some (g1, (g.cells.filter rowFull).length) ∧ g1.WF ∧
      g1.width = g.width ∧ g1.height = g.height ∧
      g1.cells = List.replicate (g.cells.filter rowFull).length (emptyRow g.width)
        ++ g.cells.filter (fun r => !rowFull r) ∧
      (∀ R ∈ g1.cells, rowFull R = false) ∧
      g1.clearFullLines = some (g1, 0) := by
  have hwf : ({ g with cells :=
                  List.replicate (g.cells.filter rowFull).length (emptyRow g.width)
                    ++ g.cells.filter (fun r => !rowFull r) } : Grid).WF := by
    constructor
    · show (List.replicate (g.cells.filter rowFull).length (emptyRow g.width)
        ++ g.cells.filter (fun r => !rowFull r)).length = g.height
      rw [List.length_append, List.length_replicate, length_filter_add, hg.1]
    · intro R hR
      show R.length = g.width
      rcases List.mem_append.mp hR with h1 | h1
      · rw [List.eq_of_mem_replicate h1]
        simp [emptyRow]
      · exact hg.2 R (List.mem_of_mem_filter h1)
  have hnone : ∀ R ∈ List.replicate (g.cells.filter rowFull).length (emptyRow g.width)
      ++ g.cells.filter (fun r => !rowFull r), rowFull R = false := by
    intro R hR
    rcases List.mem_append.mp hR with h1 | h1
    · rw [List.eq_of_mem_replicate h1]
      rcases h with hw | hh
      · exact rowFull_emptyRow g.width hw
      · have hcells : g.cells = [] := by
          apply List.eq_nil_of_length_eq_zero
          rw [hg.1, hh]
        rw [hcells] at h1
        simp at h1
    · have := (List.mem_filter.mp h1).2
      simpa using this
  refine ⟨_, clearFullLines_eq g hg h, hwf, rfl, rfl, rfl, hnone, ?_⟩
  have h2 := clearFullLines_eq _ hwf h
  have e1 : (List.replicate (g.cells.filter rowFull).length (emptyRow g.width)
      ++ g.cells.filter (fun r => !rowFull r)).filter rowFull = [] := by
    rw [List.filter_eq_nil_iff]
    intro R hR
    rw [hnone R hR]
    simp
  have e2 : (List.replicate (g.cells.filter rowFull).length (emptyRow g.width)
      ++ g.cells.filter (fun r => !rowFull r)).filter (fun r => !rowFull r)
      = List.replicate (g.cells.filter rowFull).length (emptyRow g.width)
        ++ g.cells.filter (fun r => !rowFull r) := by
    rw [List.filter_eq_self]
    intro R hR
    rw [hnone R hR]
    rfl
  simp only [e1, e2] at h2
  exact h2

theorem rotationOf_shape (p q : Piece) (hp : p.WF) (h : RotationOf p q) :
    q.WF ∧ q.size = p.size ∧ q.x = p.x ∧ q.y = p.y ∧ q.color = p.color := by
  induction h with
  | start => exact ⟨hp, rfl, rfl, rfl, rfl⟩
  | cw q r _ hrot ih =>
    obtain ⟨h1, h2, h3, h4, h5⟩ := ih
    have hrep := square_eq_tabulate q.size q.representation h1
    rw [piece_rotateCW_eq q q.size _ hrep] at hrot
    cases hrot
    exact ⟨square_tabulate _ _, h2, h3, h4, h5⟩
  | ccw q r _ hrot ih =>
    obtain ⟨h1, h2, h3, h4, h5⟩ := ih
    have hrep := square_eq_tabulate q.size q.representation h1
    by_cases hn : 0 < q.size
    · rw [piece_rotateCCW_eq q q.size _ hn hrep] at hrot
      cases hrot
      exact ⟨square_tabulate _ _, h2, h3, h4, h5⟩
    · have h0 : q.representation = [] := by
        apply List.eq_nil_of_length_eq_zero
        rw [h1.1]
        omega
      unfold Piece.rotateCCW rotateCCWMatrix at hrot
      rw [h0] at hrot
      cases hrot

theorem width_pos_or_empty (g : Grid) (hg : g.WF) (hno : ∀ R ∈ g.cells, rowFull R = false) :
    0 < g.width ∨ g.height = 0 := by
  by_cases hw : 0 < g.width
  · exact Or.inl hw
  · right
    rw [← hg.1]
    cases hcells : g.cells with
    | nil => rfl
    | cons R rest =>
      exfalso
      have hmem : R ∈ g.cells := by rw [hcells]; exact List.mem_cons_self _ _
      have hlen := hg.2 R hmem
      have hR : R = [] := List.eq_nil_of_length_eq_zero (by omega)
      have := hno R hmem
      rw [hR] at this
      cases this

theorem stamped_full_rows (g : Grid) (q : Piece) (hg : g.WF)
    (hno : ∀ R ∈ g.cells, rowFull R = false) (r : Nat) (R : List Cell)
    (hr : (g.withCells (fun r c =>
      if q.covers r c = true then { color := q.color, active := true } else g.fn r c)).cells[r]?
        = some R)
    (hfull : rowFull R = true) : q.y ≤ (r : Int) ∧ (r : Int) < q.y + (q.size : Int) := by
  have hlt : r < g.height := by
    have := (List.getElem?_eq_some.mp hr).1
    simpa [Grid.withCells, tabulate] using this
  by_contra hcon
  have hcov : ∀ c, q.covers r c = false := by
    intro c
    cases hc : q.covers r c with
    | false => rfl
    | true =>
      exfalso
      obtain ⟨i, j, hi, _, _, hy, _⟩ := (covers_iff q r c).mp hc
      apply hcon
      omega
  have hrow : (g.withCells (fun r c =>
      if q.covers r c = true then { color := q.color, active := true } else g.fn r c)).cells[r]?
        = g.cells[r]? := by
    conv_rhs => rw [eq_tabulate_of_WF g hg]
    show (tabulate g.height g.width _)[r]? = _
    rw [getElem?_tabulate _ _ _ r hlt, getElem?_tabulate _ _ _ r hlt]
    simp only [hcov]
    rfl
  rw [hrow] at hr
  have := hno R (List.mem_iff_getElem?.mpr ⟨r, hr⟩)
  rw [this] at hfull
  cases hfull

theorem playable_size (grid : Grid) (t : PieceType) (x y : Option Int)
    (ht : t ≠ PieceType.Gameover) : (Piece.new grid t x y).size ≤ 4 := by
  show (PIECES t).length ≤ 4
  cases t <;> first | decide | exact absurd rfl ht

theorem moveDown_moveUp (p : Piece) : p.moveDown.moveUp = p := by
  cases p with
  | mk type representation color rotation size x y dropBuffer =>
    show ({ type := type, representation := representation, color := color,
            rotation := rotation, size := size, x := x, y := y + 1 - 1,
            dropBuffer := dropBuffer } : Piece) = _
    rw [Int.add_sub_cancel]

theorem advanceTimer_resetBuffer (s : State) (delta : Nat) (p : Piece) :
    (advanceTimer s delta p).resetBuffer = p.resetBuffer := by
  unfold advanceTimer
  split <;> rfl

theorem advanceTimer_paused (s : State) (delta : Nat) (p : Piece) (h : s.GAME.paused = true) :
    advanceTimer s delta p = p := by
  unfold advanceTimer
  rw [if_pos h]

theorem advanceTimer_running (s : State) (delta : Nat) (p : Piece) (h : s.GAME.paused = false) :
    advanceTimer s delta p = p.update delta := by
  unfold advanceTimer
  rw [if_neg (by rw [h]; decide)]

theorem insertPiece_congr (g : Grid) (p q : Piece) (h1 : p.representation = q.representation)
    (h2 : p.size = q.size) (h3 : p.x = q.x) (h4 : p.y = q.y) (h5 : p.color = q.color) :
    g.insertPiece p = g.insertPiece q := by
  unfold Grid.insertPiece
  rw [h1, h2, h3, h4, h5]

theorem clearPiece_congr (g : Grid) (p q : Piece) (h1 : p.representation = q.representation)
    (h2 : p.size = q.size) (h3 : p.x = q.x) (h4 : p.y = q.y) :
    g.clearPiece p = g.clearPiece q := by
  unfold Grid.clearPiece
  rw [h1, h2, h3, h4]

theorem insertPiece_advanceTimer (g : Grid) (s : State) (delta : Nat) (p : Piece) :
    g.insertPiece (advanceTimer s delta p) = g.insertPiece p := by
  unfold advanceTimer
  split <;> rfl

theorem valid_cell_empty (g : Grid) (p : Piece) (hg : g.WF) (hc : g.CellInv) (hp : p.WF)
    (hv : g.isValid p = some true) (r c : Nat) (hr : r < g.height) (hcw : c < g.width)
    (hcov : p.covers r c = true) : g.fn r c = { color := Color.white, active := false } := by
  have hnc := (isValid_true_iff g p hg hp).mp hv
  obtain ⟨i, j, _, _, hf, h1, h2⟩ := (covers_iff p r c).mp hcov
  obtain ⟨v, hv1, hv2⟩ := (filled_iff p i j).mp hf
  have hcell := cellAt_fn g hg r c hr hcw
  have hact : (g.fn r c).active = false := by
    cases hact : (g.fn r c).active
    · rfl
    · exfalso
      apply hnc
      refine ⟨i, j, v, hv1, hv2, Or.inr (Or.inr (Or.inr (Or.inr ⟨g.fn r c, ?_, hact⟩)))⟩
      rw [h1, h2]; exact hcell
  obtain ⟨row, hrow, hmem⟩ := cellAt_mem g r c _ hcell
  have hcol := hc row hrow _ hmem hact
  cases hfn : g.fn r c with
  | mk color active =>
    rw [hfn] at hact hcol
    simp only at hact hcol
    rw [hact, hcol]

theorem clearPiece_shown (g : Grid) (p : Piece) (F : Nat → Nat → Cell) (hg : g.WF)
    (hc : g.CellInv) (hp : p.WF) (hv : g.isValid p = some true)
    (hF : ∀ r c, p.covers r c = false → F r c = g.fn r c) :
    (g.withCells F).clearPiece p = some g := by
  have hin := inside_of_not_collides g p ((isValid_true_iff g p hg hp).mp hv)
  rw [clearPiece_eq _ p (withCells_WF g _) hp (inside_withCells g p _ hin), withCells_withCells]
  congr 1
  conv_rhs => rw [← withCells_fn g hg]
  apply withCells_congr
  intro r c hr hcw
  by_cases hcov : p.covers r c = true
  · rw [if_pos hcov, valid_cell_empty g p hg hc hp hv r c hr hcw hcov]
  · rw [if_neg hcov, fn_withCells g _ r c hr hcw]
    exact hF r c (by simpa using hcov)

theorem insertPiece_shown (g : Grid) (p : Piece) (F : Nat → Nat → Cell)
    (hp : p.WF) (hin : p.inside g)
    (hF : ∀ r c, p.covers r c = false → F r c = g.fn r c) :
    (g.withCells F).insertPiece p = some (g.stamp p) := by
  rw [insertPiece_eq _ p (withCells_WF g _) hp (inside_withCells g p _ hin), withCells_withCells]
  congr 1
  apply withCells_congr
  intro r c hr hcw
  by_cases hcov : p.covers r c = true
  · rw [if_pos hcov, if_pos hcov]
  · rw [if_neg hcov, if_neg hcov, fn_withCells g _ r c hr hcw]
    exact hF r c (by simpa using hcov)

theorem stamp_WF (g : Grid) (p : Piece) :
    (g.stamp p).WF ∧ (g.stamp p).width = g.width ∧ (g.stamp p).height = g.height :=
  ⟨withCells_WF g _, rfl, rfl⟩

theorem stamped_facts (base : Grid) (p : Piece) (sg : Grid) (h : Stamped base p sg) :
    p.inside base ∧ sg.WF ∧ sg.width = base.width ∧ sg.height = base.height ∧ p.inside sg ∧
      sg.insertPiece p = some (base.stamp p) ∧ sg.clearPiece p = some base ∧
      base.insertPiece p = some (base.stamp p) ∧
      (sg.isValid p = some true ∨ sg.insertPiece p = some sg) := by
  obtain ⟨hg, hc, hp, hv, hsg⟩ := h
  have hin := inside_of_not_collides base p ((isValid_true_iff base p hg hp).mp hv)
  have hins : base.insertPiece p = some (base.stamp p) := insertPiece_eq base p hg hp hin
  rcases hsg with h1 | h1
  · subst h1
    refine ⟨hin, hg, rfl, rfl, hin, hins, ?_, hins, Or.inl hv⟩
    have := clearPiece_shown sg p sg.fn hg hc hp hv (fun _ _ _ => rfl)
    rwa [withCells_fn sg hg] at this
  · rw [hins] at h1
    cases h1
    have hoff : ∀ r c, p.covers r c = false →
        (if p.covers r c = true then ({ color := p.color, active := true } : Cell)
          else base.fn r c) = base.fn r c := by
      intro r c hcov
      rw [if_neg (by rw [hcov]; decide)]
    have hre : (base.stamp p).insertPiece p = some (base.stamp p) :=
      insertPiece_shown base p _ hp hin hoff
    exact ⟨hin, withCells_WF base _, rfl, rfl, hin, hre,
      clearPiece_shown base p _ hg hc hp hv hoff, hins, Or.inr hre⟩

theorem renderPiece_some (s : State) (calls : List InsertCall) (p : Piece)
    (hact : s.activePiece = some p) :
    renderPiece s calls
      = (s.grid.insertPiece p).map (fun g =>
          ({ s with grid := g }, calls ++ [{ grid := s.grid, piece := p }])) := by
  unfold renderPiece
  rw [hact]
  simp only
  cases h : s.grid.insertPiece p with
  | none => rfl
  | some g => rfl

theorem drawLog_wait (hooks : Hooks) (current : Nat) (d1 d2 : Fin 7) (s : State) (p0 : Piece)
    (hact : s.activePiece = some p0)
    (hnot : (advanceTimer s (current - s.prev) p0).dropReady = false) :
    drawLog hooks current d1 d2 s
      = (s.grid.insertPiece p0).map (fun g1 =>
          ({ s with
              prev := current
              activePiece := some (advanceTimer s (current - s.prev) p0)
              grid := g1 },
            [{ grid := s.grid, piece := advanceTimer s (current - s.prev) p0 }])) := by
  unfold drawLog
  rw [hact]
  simp only [hnot, Bool.false_eq_true, if_false]
  rw [renderPiece_some _ _ (advanceTimer s (current - s.prev) p0) rfl]
  simp only [insertPiece_advanceTimer, List.nil_append]

theorem drawLog_descend (hooks : Hooks) (current : Nat) (d1 d2 : Fin 7) (s : State)
    (p0 : Piece) (g1 : Grid) (hact : s.activePiece = some p0)
    (hready : (advanceTimer s (current - s.prev) p0).dropReady = true)
    (hlift : s.grid.clearPiece p0 = some g1)
    (hvalid : g1.isValid p0.resetBuffer.moveDown = some true) :
    drawLog hooks current d1 d2 s
      = (g1.insertPiece p0.resetBuffer.moveDown).map (fun g2 =>
          ({ s with
              prev := current
              grid := g2
              activePiece := some p0.resetBuffer.moveDown },
            [{ grid := g1, piece := p0.resetBuffer.moveDown }])) := by
  have hl : s.grid.clearPiece p0.resetBuffer = some g1 := hlift
  unfold drawLog
  rw [hact]
  simp only [hready, if_true, advanceTimer_resetBuffer, hl, hvalid]
  rw [renderPiece_some _ _ p0.resetBuffer.moveDown rfl]
  simp only [List.nil_append]

theorem drawLog_lock (hooks : Hooks) (current : Nat) (d1 d2 : Fin 7) (s : State)
    (p0 : Piece) (g1 g2 : Grid) (hact : s.activePiece = some p0)
    (hready : (advanceTimer s (current - s.prev) p0).dropReady = true)
    (hlift : s.grid.clearPiece p0 = some g1)
    (hinvalid : g1.isValid p0.resetBuffer.moveDown = some false)
    (hins : g1.insertPiece p0 = some g2) :
    drawLog hooks current d1 d2 s
      = (afterLock hooks d1 d2 { s with
            prev := current
            grid := g2
            activePiece := some p0.resetBuffer }
          [{ grid := g1, piece := p0.resetBuffer }]).bind (fun r => renderPiece r.1 r.2) := by
  have hl : s.grid.clearPiece p0.resetBuffer = some g1 := hlift
  have hi : g1.insertPiece p0.resetBuffer = some g2 := hins
  unfold drawLog
  rw [hact]
  simp only [hready, if_true, advanceTimer_resetBuffer, hl, hinvalid, moveDown_moveUp, hi]

theorem afterLock_spawn (hooks : Hooks) (d1 d2 : Fin 7) (s : State) (calls : List InsertCall)
    (g3 g4 : Grid) (G3 : GameVars) (hc : List HookCall)
    (hclear : s.grid.clearFullLinesHooks hooks s.GAME = some (g3, G3, hc))
    (hvalid : g3.isValid (Piece.new g3 s.nextType none none) = some true)
    (hins : g3.insertPiece (Piece.new g3 s.nextType none none) = some g4) :
    (afterLock hooks d1 d2 s calls).bind (fun r => renderPiece r.1 r.2)
      = some ({ s with
            GAME := G3
            grid := g4
            activePiece := some (Piece.new g3 s.nextType none none)
            nextType := uniquePiece d1 d2 (some s.nextType) },
          calls ++ [{ grid := g3, piece := Piece.new g3 s.nextType none none }]) := by
  unfold afterLock
  rw [hclear]
  simp only [spawnPiece, hvalid, Option.some_bind]
  rw [renderPiece_some _ _ (Piece.new g3 s.nextType none none) rfl]
  simp only [hins, Option.map_some']

theorem afterLock_gameOver (hooks : Hooks) (d1 d2 : Fin 7) (s : State)
    (calls : List InsertCall) (g3 g4 g5 : Grid) (G3 : GameVars) (hc : List HookCall)
    (hclear : s.grid.clearFullLinesHooks hooks s.GAME = some (g3, G3, hc))
    (hinvalid : g3.isValid (Piece.new g3 s.nextType none none) = some false)
    (hreset : g3.reset = some g4)
    (hglyph : g4.insertPiece (Piece.new g4 PieceType.Gameover (some 1) (some 1)) = some g5) :
    (afterLock hooks d1 d2 s calls).bind (fun r => renderPiece r.1 r.2)
      = some ({ s with
            GAME := G3
            grid := g5
            activePiece := none
            looping := false },
          calls ++ [{ grid := g4, piece := Piece.new g4 PieceType.Gameover (some 1) (some 1) }]) := by
  unfold afterLock
  rw [hclear]
  simp only [spawnPiece, hinvalid, gameOver, hreset, hglyph, Option.map_some', Option.some_bind,
    gameOverInsertCall]
  rfl

theorem stamped_dropBuffer (base : Grid) (p : Piece) (sg : Grid) (b : Nat)
    (h : Stamped base p sg) : Stamped base { p with dropBuffer := b } sg := h

theorem stamped_advanceTimer (base : Grid) (p : Piece) (sg : Grid) (s : State) (delta : Nat)
    (h : Stamped base p sg) : Stamped base (advanceTimer s delta p) sg := by
  unfold advanceTimer
  split
  · exact h
  · exact h

theorem stamped_stamp (base : Grid) (p : Piece) (hg : base.WF) (hc : base.CellInv) (hp : p.WF)
    (hv : base.isValid p = some true) :
    Stamped base p (base.stamp p) ∧ base.insertPiece p = some (base.stamp p) ∧
      (base.stamp p).CellInv ∧ p.inside base := by
  have hin := inside_of_not_collides base p ((isValid_true_iff base p hg hp).mp hv)
  have hins : base.insertPiece p = some (base.stamp p) := insertPiece_eq base p hg hp hin
  exact ⟨⟨hg, hc, hp, hv, Or.inr hins⟩, hins, insertPiece_CellInv base _ p hc hins, hin⟩

theorem tick_wait (hooks : Hooks) (current : Nat) (d1 d2 : Fin 7) (s : State) (p0 : Piece)
    (base : Grid) (hact : s.activePiece = some p0) (hst : Stamped base p0 s.grid)
    (hnot : (advanceTimer s (current - s.prev) p0).dropReady = false) :
    drawLog hooks current d1 d2 s
      = some ({ s with
            prev := current
            activePiece := some (advanceTimer s (current - s.prev) p0)
            grid := base.stamp p0 },
          [{ grid := s.grid, piece := advanceTimer s (current - s.prev) p0 }]) := by
  rw [drawLog_wait hooks current d1 d2 s p0 hact hnot, (stamped_facts base p0 s.grid hst).2.2.2.2.2.1]
  rfl

theorem tick_descend (hooks : Hooks) (current : Nat) (d1 d2 : Fin 7) (s : State)
    (p0 : Piece) (base : Grid) (hact : s.activePiece = some p0) (hst : Stamped base p0 s.grid)
    (hready : (advanceTimer s (current - s.prev) p0).dropReady = true)
    (hvalid : base.isValid p0.resetBuffer.moveDown = some true) :
    drawLog hooks current d1 d2 s
      = some ({ s with
            prev := current
            grid := base.stamp p0.resetBuffer.moveDown
            activePiece := some p0.resetBuffer.moveDown },
          [{ grid := base, piece := p0.resetBuffer.moveDown }]) := by
  have hlift := (stamped_facts base p0 s.grid hst).2.2.2.2.2.2.1
  rw [drawLog_descend hooks current d1 d2 s p0 base hact hready hlift hvalid,
    (stamped_stamp base p0.resetBuffer.moveDown hst.1 hst.2.1 hst.2.2.1 hvalid).2.1]
  rfl

theorem glyph_valid (w h : Nat) (hw : 9 ≤ w) (hh : 8 ≤ h) :
    (Grid.new w h).isValid (Piece.new (Grid.new w h) PieceType.Gameover (some 1) (some 1))
      = some true := by
  obtain ⟨n1, n2, n3, n4⟩ := new_cells w h
  rw [isValid_true_iff _ _ n1 (catalog_WF _ _ _ _).1]
  rintro ⟨row, col, v, h1, h2, h3⟩
  have hin := (inside_iff _ _ (catalog_WF (Grid.new w h) PieceType.Gameover (some 1) (some 1)).1).mp
    (glyph_inside (Grid.new w h) (by rw [n2]; exact hw) (by rw [n3]; exact hh)) row col v h1 h2
  rcases h3 with h3 | h3 | h3 | h3 | ⟨cell, hcell, hactive⟩
  · omega
  · omega
  · omega
  · omega
  · obtain ⟨R, hR, hmem⟩ := cellAt_mem _ _ _ cell hcell
    rw [n4 R hR cell hmem] at hactive
    cases hactive

theorem lock_clear (hooks : Hooks) (g2 : Grid) (GAME : GameVars) (hg : g2.WF)
    (hc : g2.CellInv) (hw : 0 < g2.width) :
    ∃ g3 G3 calls, g2.clearFullLinesHooks hooks GAME = some (g3, G3, calls) ∧
      g2.clearFullLines = some (g3, (g2.cells.filter rowFull).length) ∧
      g3.WF ∧ g3.CellInv ∧ g3.width = g2.width ∧ g3.height = g2.height := by
  obtain ⟨g3, c1, c2, c3, c4, _, _, _⟩ := clearFullLines_result g2 hg (Or.inl hw)
  refine ⟨g3, (gameAfterClear hooks (g2.cells.filter rowFull).length GAME).1,
    (gameAfterClear hooks (g2.cells.filter rowFull).length GAME).2, ?_, c1, c2,
    clearFullLinesLoop_CellInv _ g2 g3 _ 0 _ hc c1, c3, c4⟩
  rw [clearFullLinesHooks_eq, c1]
  rfl

theorem tick_lock (hooks : Hooks) (current : Nat) (d1 d2 : Fin 7) (s : State) (p0 : Piece)
    (base : Grid) (hact : s.activePiece = some p0) (hst : Stamped base p0 s.grid)
    (hready : (advanceTimer s (current - s.prev) p0).dropReady = true)
    (hinvalid : base.isValid p0.resetBuffer.moveDown = some false)
    (hw : 9 ≤ base.width) (hh : 8 ≤ base.height) :
    ∃ g3 G3 hc, (base.stamp p0).clearFullLinesHooks hooks s.GAME = some (g3, G3, hc) ∧
      (base.stamp p0).clearFullLines
        = some (g3, ((base.stamp p0).cells.filter rowFull).length) ∧
      g3.WF ∧ g3.CellInv ∧ g3.width = base.width ∧ g3.height = base.height ∧
      ((g3.isValid (Piece.new g3 s.nextType none none) = some true ∧
          drawLog hooks current d1 d2 s
            = some ({ s with
                  prev := current
                  GAME := G3
                  grid := g3.stamp (Piece.new g3 s.nextType none none)
                  activePiece := some (Piece.new g3 s.nextType none none)
                  nextType := uniquePiece d1 d2 (some s.nextType) },
                [{ grid := base, piece := p0.resetBuffer },
                 { grid := g3, piece := Piece.new g3 s.nextType none none }])) ∨
        (g3.isValid (Piece.new g3 s.nextType none none) = some false ∧
          drawLog hooks current d1 d2 s
            = some ({ s with
                  prev := current
                  GAME := G3
                  grid := (Grid.new base.width base.height).stamp
                    (Piece.new (Grid.new base.width base.height) PieceType.Gameover
                      (some 1) (some 1))
                  activePiece := none
                  looping := false },
                [{ grid := base, piece := p0.resetBuffer },
                 { grid := Grid.new base.width base.height
                   piece := Piece.new (Grid.new base.width base.height) PieceType.Gameover
                     (some 1) (some 1) }]))) := by
  obtain ⟨_, _, _, _, _, _, hlift, hins, _⟩ := stamped_facts base p0 s.grid hst
  obtain ⟨hbg, hbc, hp0, hbv, _⟩ := hst
  have hsc : (base.stamp p0).CellInv := insertPiece_CellInv base _ p0 hbc hins
  obtain ⟨g3, G3, hc, c1, c0, c2, c3, c4, c5⟩ := lock_clear hooks (base.stamp p0) s.GAME
    (stamp_WF base p0).1 hsc (by show 0 < base.width; omega)
  have c4b : g3.width = base.width := c4
  have c5b : g3.height = base.height := c5
  refine ⟨g3, G3, hc, c1, c0, c2, c3, c4b, c5b, ?_⟩
  rw [drawLog_lock hooks current d1 d2 s p0 base (base.stamp p0) hact hready hlift hinvalid hins]
  rcases isValid_some g3 (Piece.new g3 s.nextType none none) c2
    (catalog_WF g3 s.nextType none none).1 with hv | hv
  · left
    refine ⟨hv, ?_⟩
    have hst3 := stamped_stamp g3 (Piece.new g3 s.nextType none none) c2 c3
      (catalog_WF g3 s.nextType none none).1 hv
    exact afterLock_spawn hooks d1 d2
      { s with prev := current, grid := base.stamp p0, activePiece := some p0.resetBuffer }
      [{ grid := base, piece := p0.resetBuffer }] g3
      (g3.stamp (Piece.new g3 s.nextType none none)) G3 hc c1 hv hst3.2.1
  · right
    refine ⟨hv, ?_⟩
    have hreset : g3.reset = some (Grid.new base.width base.height) := by
      rw [reset_eq_new g3 c2, c4b, c5b]
    obtain ⟨n1, n2, n3, _⟩ := new_cells base.width base.height
    have hglyph : (Grid.new base.width base.height).insertPiece
        (Piece.new (Grid.new base.width base.height) PieceType.Gameover (some 1) (some 1))
        = some ((Grid.new base.width base.height).stamp
            (Piece.new (Grid.new base.width base.height) PieceType.Gameover (some 1) (some 1))) :=
      insertPiece_eq _ _ n1 (catalog_WF _ _ _ _).1
        (glyph_inside _ (by rw [n2]; exact hw) (by rw [n3]; exact hh))
    exact afterLock_gameOver hooks d1 d2
      { s with prev := current, grid := base.stamp p0, activePiece := some p0.resetBuffer }
      [{ grid := base, piece := p0.resetBuffer }] g3 (Grid.new base.width base.height) _ G3 hc
      c1 hv hreset hglyph

theorem new_CellInv (w h : Nat) : (Grid.new w h).CellInv := by
  intro R hR c hc _
  rw [(new_cells w h).2.2.2 R hR c hc]

theorem tick_step (hooks : Hooks) (w h : Nat) (hw : 9 ≤ w) (hh : 8 ≤ h) (current : Nat)
    (d1 d2 : Fin 7) (s : State) (hinv : TickInv w h s) (hloop : s.looping = true) :
    ∃ s1 calls, drawLog hooks current d1 d2 s = some (s1, calls) ∧ TickInv w h s1 ∧
      (∀ c ∈ calls, c.ok ∧ c.grid.width = w ∧ c.grid.height = h) ∧
      (∃ p, s.activePiece = some p ∧ p.WF ∧ p.inside s.grid) ∧
      (∀ p, s.activePiece = some p → (advanceTimer s (current - s.prev) p).dropReady = true →
        ∀ c ∈ calls, c.grid.isValid c.piece = some true) := by
  obtain ⟨hsg, hsc, hsw, hsh, hex⟩ := hinv
  obtain ⟨p0, base, hact, hst⟩ := hex hloop
  obtain ⟨f1, f2, f3, f4, f5, f6, f7, f8, f9⟩ := stamped_facts base p0 s.grid hst
  have hbw : base.width = w := by rw [← f3]; exact hsw
  have hbh : base.height = h := by rw [← f4]; exact hsh
  obtain ⟨hbg, hbc, hp0, hbv, _⟩ := id hst
  have hpin : ∃ p, s.activePiece = some p ∧ p.WF ∧ p.inside s.grid := ⟨p0, hact, hp0, f5⟩
  cases hready : (advanceTimer s (current - s.prev) p0).dropReady with
  | false =>
    have hsa := stamped_advanceTimer base p0 s.grid s (current - s.prev) hst
    obtain ⟨_, _, _, _, a5, _, _, _, a9⟩ := stamped_facts base _ s.grid hsa
    have hss := stamped_stamp base p0 hbg hbc hp0 hbv
    refine ⟨_, _, tick_wait hooks current d1 d2 s p0 base hact hst hready, ?_, ?_, hpin, ?_⟩
    · exact ⟨(stamp_WF base p0).1, hss.2.2.1, hbw, hbh,
        fun _ => ⟨_, base, rfl, stamped_advanceTimer base p0 _ s (current - s.prev) hss.1⟩⟩
    · intro c hc
      simp only [List.mem_singleton] at hc
      subst hc
      exact ⟨⟨hsg, hsa.2.2.1, a5, a9⟩, hsw, hsh⟩
    · intro p hp hr
      rw [hact] at hp
      cases hp
      rw [hready] at hr
      cases hr
  | true =>
    rcases isValid_some base p0.resetBuffer.moveDown hbg hp0 with hv | hv
    · have hss := stamped_stamp base p0.resetBuffer.moveDown hbg hbc hp0 hv
      refine ⟨_, _, tick_descend hooks current d1 d2 s p0 base hact hst hready hv, ?_, ?_, hpin,
        ?_⟩
      · exact ⟨(stamp_WF base _).1, hss.2.2.1, hbw, hbh, fun _ => ⟨_, base, rfl, hss.1⟩⟩
      · intro c hc
        simp only [List.mem_singleton] at hc
        subst hc
        exact ⟨⟨hbg, hp0, hss.2.2.2, Or.inl hv⟩, hbw, hbh⟩
      · intro _ _ _ c hc
        simp only [List.mem_singleton] at hc
        subst hc
        exact hv
    · obtain ⟨g3, G3, hc3, _, _, c2, c3, c4, c5, hcase⟩ :=
        tick_lock hooks current d1 d2 s p0 base hact hst hready hv (by omega) (by omega)
      have hlock : InsertCall.ok { grid := base, piece := p0.resetBuffer } :=
        ⟨hbg, hp0, f1, Or.inl hbv⟩
      have hlockv : base.isValid p0.resetBuffer = some true := hbv
      rcases hcase with ⟨hv3, hd⟩ | ⟨hv3, hd⟩
      · have hss := stamped_stamp g3 (Piece.new g3 s.nextType none none) c2 c3
          (catalog_WF g3 s.nextType none none).1 hv3
        refine ⟨_, _, hd, ?_, ?_, hpin, ?_⟩
        · exact ⟨(stamp_WF g3 _).1, hss.2.2.1, by rw [← hbw]; exact c4, by rw [← hbh]; exact c5,
            fun _ => ⟨_, g3, rfl, hss.1⟩⟩
        · intro c hc
          simp only [List.mem_cons, List.mem_singleton, List.not_mem_nil, or_false] at hc
          rcases hc with hc | hc
          · subst hc
            exact ⟨hlock, hbw, hbh⟩
          · subst hc
            exact ⟨⟨c2, (catalog_WF g3 s.nextType none none).1, hss.2.2.2, Or.inl hv3⟩,
              by rw [← hbw]; exact c4, by rw [← hbh]; exact c5⟩
        · intro _ _ _ c hc
          simp only [List.mem_cons, List.mem_singleton, List.not_mem_nil, or_false] at hc
          rcases hc with hc | hc
          · subst hc
            exact hlockv
          · subst hc
            exact hv3
      · obtain ⟨n1, n2, n3, _⟩ := new_cells base.width base.height
        have hgv := glyph_valid base.width base.height (by omega) (by omega)
        have hss := stamped_stamp (Grid.new base.width base.height) _ n1
          (new_CellInv base.width base.height)
          (catalog_WF (Grid.new base.width base.height) PieceType.Gameover (some 1) (some 1)).1 hgv
        refine ⟨_, _, hd, ?_, ?_, hpin, ?_⟩
        · exact ⟨(stamp_WF _ _).1, hss.2.2.1, by rw [← hbw]; rfl, by rw [← hbh]; rfl,
            fun hl => by cases hl⟩
        · intro c hc
          simp only [List.mem_cons, List.mem_singleton, List.not_mem_nil, or_false] at hc
          rcases hc with hc | hc
          · subst hc
            exact ⟨hlock, hbw, hbh⟩
          · subst hc
            exact ⟨⟨n1, hss.1.2.2.1, hss.2.2.2, Or.inl hgv⟩, by rw [← hbw]; rfl,
              by rw [← hbh]; rfl⟩
        · intro _ _ _ c hc
          simp only [List.mem_cons, List.mem_singleton, List.not_mem_nil, or_false] at hc
          rcases hc with hc | hc
          · subst hc
            exact hlockv
          · subst hc
            exact hgv

theorem valid_on_new (w h : Nat) (p : Piece) (hp : p.WF) (hin : p.inside (Grid.new w h)) :
    (Grid.new w h).isValid p = some true := by
  obtain ⟨n1, n2, n3, n4⟩ := new_cells w h
  rw [isValid_true_iff _ _ n1 hp]
  rintro ⟨row, col, v, h1, h2, h3⟩
  have hb := (inside_iff _ _ hp).mp hin row col v h1 h2
  rcases h3 with h3 | h3 | h3 | h3 | ⟨cell, hcell, hactive⟩
  · omega
  · omega
  · omega
  · omega
  · obtain ⟨R, hR, hmem⟩ := cellAt_mem _ _ _ cell hcell
    rw [n4 R hR cell hmem] at hactive
    cases hactive

theorem setup_eq (d1 d2 d3 d4 : Fin 7) :
    setup d1 d2 d3 d4
      = some { GAME := { paused := false, controlsLocked := false, level := 0, score := 0,
                         linescleared := 0 }
               grid := Grid.new 10 20
               activePiece := some (Piece.new (Grid.new 10 20) (uniquePiece d1 d2 none) none none)
               nextType := uniquePiece d3 d4 (some (uniquePiece d1 d2 none))
               prev := 0
               looping := true } := by
  have hv := valid_on_new 10 20 (Piece.new (Grid.new 10 20) (uniquePiece d1 d2 none) none none)
    (catalog_WF _ _ _ _).1 (spawn_inside (Grid.new 10 20) _ (by decide) (by decide))
  unfold setup spawnPiece
  simp only [hv, Option.map_some']

theorem setup_inv (d1 d2 d3 d4 : Fin 7) (s : State) (h : setup d1 d2 d3 d4 = some s) :
    TickInv 10 20 s ∧ s.looping = true ∧ s.GAME.paused = false ∧
      ∃ p, s.activePiece = some p ∧ p.dropBuffer = 0 := by
  rw [setup_eq] at h
  cases h
  have hv := valid_on_new 10 20 (Piece.new (Grid.new 10 20) (uniquePiece d1 d2 none) none none)
    (catalog_WF _ _ _ _).1 (spawn_inside (Grid.new 10 20) _ (by decide) (by decide))
  refine ⟨⟨(new_cells 10 20).1, new_CellInv 10 20, rfl, rfl, fun _ => ⟨_, Grid.new 10 20, rfl,
    (new_cells 10 20).1, new_CellInv 10 20, (catalog_WF _ _ _ _).1, hv, Or.inl rfl⟩⟩, rfl, rfl,
    _, rfl, rfl⟩

theorem tickReachable_inv (hooks : Hooks) (s : State) (h : TickReachable hooks s) :
    TickInv 10 20 s := by
  induction h with
  | setup d1 d2 d3 d4 s hs => exact (setup_inv d1 d2 d3 d4 s hs).1
  | tick s s1 current d1 d2 calls _ hloop hd ih =>
    obtain ⟨s2, calls2, hd2, hinv, _, _, _⟩ :=
      tick_step hooks 10 20 (by decide) (by decide) current d1 d2 s ih hloop
    rw [hd] at hd2
    cases hd2
    exact hinv
  | setPaused s b _ ih => exact ih

theorem renderPiece_inv (s s1 : State) (calls calls1 : List InsertCall)
    (h : renderPiece s calls = some (s1, calls1)) :
    s1.activePiece = s.activePiece ∧ s1.looping = s.looping ∧ s1.GAME = s.GAME ∧
      s1.nextType = s.nextType ∧ s1.prev = s.prev := by
  unfold renderPiece at h
  cases hact : s.activePiece with
  | none =>
    rw [hact] at h
    simp only [Option.some.injEq, Prod.mk.injEq] at h
    rw [← h.1]
    exact ⟨hact.symm ▸ rfl, rfl, rfl, rfl, rfl⟩
  | some p =>
    rw [hact] at h
    simp only at h
    cases hins : s.grid.insertPiece p with
    | none => rw [hins] at h; cases h
    | some g =>
      rw [hins] at h
      simp only [Option.some.injEq, Prod.mk.injEq] at h
      rw [← h.1]
      exact ⟨rfl, rfl, rfl, rfl, rfl⟩

theorem afterLock_inv (hooks : Hooks) (d1 d2 : Fin 7) (s s1 : State)
    (calls calls1 : List InsertCall) (h : afterLock hooks d1 d2 s calls = some (s1, calls1)) :
    s1.looping = true → ∃ p, s1.activePiece = some p ∧ p.dropBuffer = 0 := by
  unfold afterLock at h
  cases hclear : s.grid.clearFullLinesHooks hooks s.GAME with
  | none => rw [hclear] at h; cases h
  | some r =>
    obtain ⟨g3, G3, hc⟩ := r
    rw [hclear] at h
    simp only at h
    unfold spawnPiece at h
    simp only at h
    cases hv : g3.isValid (Piece.new g3 s.nextType none none) with
    | none => rw [hv] at h; cases h
    | some b =>
      rw [hv] at h
      cases b
      · simp only at h
        unfold gameOver at h
        simp only at h
        cases hreset : g3.reset with
        | none => rw [hreset] at h; cases h
        | some g4 =>
          rw [hreset] at h
          simp only at h
          cases hglyph : g4.insertPiece (Piece.new g4 PieceType.Gameover (some 1) (some 1)) with
          | none => rw [hglyph] at h; cases h
          | some g5 =>
            rw [hglyph] at h
            simp only [Option.map_some', Option.some.injEq, Prod.mk.injEq] at h
            rw [← h.1]
            intro hl
            cases hl
      · simp only [Option.some.injEq, Prod.mk.injEq] at h
        rw [← h.1]
        intro _
        exact ⟨_, rfl, rfl⟩

theorem drawLog_timer (hooks : Hooks) (current : Nat) (d1 d2 : Fin 7) (s s1 : State)
    (calls : List InsertCall) (p0 : Piece) (hact : s.activePiece = some p0)
    (h : drawLog hooks current d1 d2 s = some (s1, calls)) :
    s1.looping = true → ∃ p, s1.activePiece = some p ∧ p.dropBuffer ≤ DROP_INTERVAL := by
  cases hready : (advanceTimer s (current - s.prev) p0).dropReady with
  | false =>
    rw [drawLog_wait hooks current d1 d2 s p0 hact hready] at h
    cases hins : s.grid.insertPiece p0 with
    | none => rw [hins] at h; cases h
    | some g1 =>
      rw [hins] at h
      simp only [Option.map_some', Option.some.injEq, Prod.mk.injEq] at h
      rw [← h.1]
      intro _
      refine ⟨_, rfl, ?_⟩
      unfold Piece.dropReady at hready
      simpa using hready
  | true =>
    cases hlift : s.grid.clearPiece p0 with
    | none =>
      have hl : s.grid.clearPiece p0.resetBuffer = none := hlift
      unfold drawLog at h
      rw [hact] at h
      simp only [hready, if_true, advanceTimer_resetBuffer, hl] at h
      cases h
    | some g1 =>
      have hl : s.grid.clearPiece p0.resetBuffer = some g1 := hlift
      cases hv : g1.isValid p0.resetBuffer.moveDown with
      | none =>
        unfold drawLog at h
        rw [hact] at h
        simp only [hready, if_true, advanceTimer_resetBuffer, hl, hv] at h
        cases h
      | some b =>
        cases b
        · cases hins : g1.insertPiece p0 with
          | none =>
            have hi : g1.insertPiece p0.resetBuffer = none := hins
            unfold drawLog at h
            rw [hact] at h
            simp only [hready, if_true, advanceTimer_resetBuffer, hl, hv, moveDown_moveUp, hi] at h
            cases h
          | some g2 =>
            rw [drawLog_lock hooks current d1 d2 s p0 g1 g2 hact hready hlift hv hins] at h
            obtain ⟨r, hr1, hr2⟩ := Option.bind_eq_some.mp h
            obtain ⟨e1, e2, _, _, _⟩ := renderPiece_inv r.1 s1 r.2 calls hr2
            intro hloop
            rw [e2] at hloop
            obtain ⟨p, hp1, hp2⟩ := afterLock_inv hooks d1 d2 _ r.1 _ r.2 hr1 hloop
            exact ⟨p, by rw [e1]; exact hp1, by rw [hp2]; exact Nat.zero_le _⟩
        · rw [drawLog_descend hooks current d1 d2 s p0 g1 hact hready hlift hv] at h
          cases hins : g1.insertPiece p0.resetBuffer.moveDown with
          | none => rw [hins] at h; cases h
          | some g2 =>
            rw [hins] at h
            simp only [Option.map_some', Option.some.injEq, Prod.mk.injEq] at h
            rw [← h.1]
            intro _
            exact ⟨_, rfl, Nat.zero_le _⟩

theorem reachable_timer (hooks : Hooks) (s : State) (h : Reachable hooks s) :
    s.looping = true → ∃ p, s.activePiece = some p ∧ p.dropBuffer ≤ DROP_INTERVAL := by
  induction h with
  | setup d1 d2 d3 d4 s hs =>
    intro _
    obtain ⟨_, _, _, p, hp1, hp2⟩ := setup_inv d1 d2 d3 d4 s hs
    exact ⟨p, hp1, by rw [hp2]; exact Nat.zero_le _⟩
  | tick s s1 current d1 d2 calls _ hloop hd ih =>
    obtain ⟨p0, hact, _⟩ := ih hloop
    exact drawLog_timer hooks current d1 d2 s s1 calls p0 hact hd
  | hardDrop s p q fuel _ hact hq ih =>
    intro _
    unfold Piece.hardDrop at hq
    cases hloop : hardDropLoop fuel s.grid p with
    | none => rw [hloop] at hq; cases hq
    | some r =>
      rw [hloop] at hq
      simp only [Option.map_some', Option.some.injEq] at hq
      rw [← hq]
      exact ⟨_, rfl, le_refl _⟩
  | lift s p g1 _ _ _ ih => exact ih
  | setPaused s b _ ih => exact ih

theorem tickReachable_reachable (hooks : Hooks) (s : State) (h : TickReachable hooks s) :
    Reachable hooks s := by
  induction h with
  | setup d1 d2 d3 d4 s hs => exact Reachable.setup d1 d2 d3 d4 s hs
  | tick s s1 current d1 d2 calls _ hloop hd ih =>
    exact Reachable.tick s s1 current d1 d2 calls ih hloop hd
  | setPaused s b _ ih => exact Reachable.setPaused s b ih

theorem atRow_self (p : Piece) : p.atRow (p.y + ((0 : Nat) : Int)) = p := by
  show ({ p with y := p.y + ((0 : Nat) : Int) } : Piece) = p
  simp

theorem hardDrop_resting (g : Grid) (hg : g.WF) (p : Piece) (hp : p.WF)
    (hfill : ∃ i j v, p.entry i j = some v ∧ v ≠ 0) (hv : g.isValid p = some true)
    (fuel : Nat) (hfuel : ((g.height : Int) - p.y).toNat < fuel) :
    ∃ q, Piece.hardDrop fuel g p = some q ∧ q.WF ∧ q.dropBuffer = DROP_INTERVAL ∧
      q.x = p.x ∧ q.representation = p.representation ∧ q.size = p.size ∧ p.y ≤ q.y ∧
      g.isValid q = some true ∧ g.isValid q.moveDown = some false := by
  obtain ⟨k, h1, h2, h3⟩ := hardDrop_total g hg p hp hfill
  have hk : 0 < k := by
    cases k with
    | zero =>
      rw [atRow_self, hv] at h1
      cases h1
    | succ n => omega
  refine ⟨_, h3 fuel hfuel, hp, rfl, rfl, rfl, rfl, ?_, ?_, ?_⟩
  · show p.y ≤ p.y + (k : Int) - 1
    omega
  · have := h2 (k - 1) (by omega)
    rw [← this]
    exact isValid_congr g _ _ rfl rfl rfl (by
      show p.y + (k : Int) - 1 = p.y + ((k - 1 : Nat) : Int)
      omega)
  · rw [← h1]
    exact isValid_congr g _ _ rfl rfl rfl (by
      show p.y + (k : Int) - 1 + 1 = p.y + (k : Int)
      omega)

theorem spawnPiece_valid (d1 d2 : Fin 7) (s : State)
    (hv : s.grid.isValid (Piece.new s.grid s.nextType none none) = some true) :
    spawnPiece d1 d2 s
      = some (some (Piece.new s.grid s.nextType none none),
          { s with nextType := uniquePiece d1 d2 (some s.nextType) }) := by
  unfold spawnPiece
  rw [hv]

theorem spawnPiece_invalid (d1 d2 : Fin 7) (s : State) (hg : s.grid.WF)
    (hw : 9 ≤ s.grid.width) (hh : 8 ≤ s.grid.height)
    (hv : s.grid.isValid (Piece.new s.grid s.nextType none none) = some false) :
    spawnPiece d1 d2 s
      = some (none,
          { s with
            looping := false
            grid := (Grid.new s.grid.width s.grid.height).stamp
              (Piece.new (Grid.new s.grid.width s.grid.height) PieceType.Gameover
                (some 1) (some 1)) }) := by
  obtain ⟨n1, n2, n3, _⟩ := new_cells s.grid.width s.grid.height
  have hglyph : (Grid.new s.grid.width s.grid.height).insertPiece
      (Piece.new (Grid.new s.grid.width s.grid.height) PieceType.Gameover (some 1) (some 1))
      = some ((Grid.new s.grid.width s.grid.height).stamp
          (Piece.new (Grid.new s.grid.width s.grid.height) PieceType.Gameover (some 1) (some 1))) :=
    insertPiece_eq _ _ n1 (catalog_WF _ _ _ _).1
      (glyph_inside _ (by rw [n2]; exact hw) (by rw [n3]; exact hh))
  unfold spawnPiece
  rw [hv]
  simp only [gameOver, reset_eq_new s.grid hg, hglyph, Option.map_some']

/-! ## The claims -/

/-- C1: on every board and for every piece (square shape matrix, any integer
origin), `isValid` returns `false` exactly when some filled shape cell maps
outside the board bounds or onto an occupied cell, and `true` otherwise. -/
theorem isValid_collision_soundness (g : Grid) (piece : Piece) (hg : g.WF) (hp : piece.WF) :
    (g.isValid piece = some false ↔ g.collides piece) ∧
      (g.isValid piece = some true ↔ ¬ g.collides piece) :=
  ⟨isValid_false_iff g piece hg hp, isValid_true_iff g piece hg hp⟩

/-- C1 (witness): the O piece at row 5 on the board carrying its own stamp. -/
theorem isValid_collision_soundness_witness :
    stampedBoard.WF ∧ oPieceAtRow5.WF ∧
      ((stampedBoard.isValid oPieceAtRow5 = some false ↔ stampedBoard.collides oPieceAtRow5) ∧
        (stampedBoard.isValid oPieceAtRow5 = some true ↔ ¬ stampedBoard.collides oPieceAtRow5)) :=
  ⟨by decide, by decide,
    isValid_collision_soundness stampedBoard oPieceAtRow5 (by decide) (by decide)⟩

/-- C2: for a valid placement, `insertPiece` followed by `clearPiece` gives
back the board it started from, cell by cell in occupancy and colour. -/
theorem insertPiece_clearPiece_inverse (g : Grid) (piece : Piece) (hg : g.WF) (hc : g.CellInv)
    (hp : piece.WF) (hv : g.isValid piece = some true) :
    (g.insertPiece piece).bind (fun g1 => g1.clearPiece piece) = some g := by
  have hnc := (isValid_true_iff g piece hg hp).mp hv
  have hin := inside_of_not_collides g piece hnc
  rw [insertPiece_eq g piece hg hp hin, Option.some_bind,
    clearPiece_eq _ piece (withCells_WF g _) hp (inside_withCells g piece _ hin),
    withCells_withCells]
  congr 1
  conv_rhs => rw [← withCells_fn g hg]
  apply withCells_congr
  intro r c hr hcw
  by_cases hcov : piece.covers r c = true
  · rw [if_pos hcov]
    obtain ⟨i, j, _, _, hf, h1, h2⟩ := (covers_iff piece r c).mp hcov
    obtain ⟨v, hv1, hv2⟩ := (filled_iff piece i j).mp hf
    have hcell := cellAt_fn g hg r c hr hcw
    have hact : (g.fn r c).active = false := by
      cases hact : (g.fn r c).active
      · rfl
      · exfalso
        apply hnc
        refine ⟨i, j, v, hv1, hv2, Or.inr (Or.inr (Or.inr (Or.inr ⟨g.fn r c, ?_, hact⟩)))⟩
        rw [h1, h2]; exact hcell
    obtain ⟨row, hrow, hmem⟩ := cellAt_mem g r c _ hcell
    have hcol := hc row hrow _ hmem hact
    cases hfn : g.fn r c with
    | mk color active =>
      rw [hfn] at hact hcol
      simp only at hact hcol
      rw [hact, hcol]
  · rw [if_neg hcov, fn_withCells g _ r c hr hcw, if_neg hcov]

/-- C2 (witness): the O piece at row 5 on the empty 10x20 board. -/
theorem insertPiece_clearPiece_inverse_witness :
    (Grid.new 10 20).WF ∧ (Grid.new 10 20).CellInv ∧ oPieceAtRow5.WF ∧
      (Grid.new 10 20).isValid oPieceAtRow5 = some true ∧
      ((Grid.new 10 20).insertPiece oPieceAtRow5).bind (fun g1 => g1.clearPiece oPieceAtRow5)
        = some (Grid.new 10 20) :=
  ⟨by decide, by decide, by decide, by decide,
    insertPiece_clearPiece_inverse (Grid.new 10 20) oPieceAtRow5 (by decide) (by decide)
      (by decide) (by decide)⟩

/-- C3: for a row index `n` inside the board, `clearLine(n)` succeeds, keeps
the dimensions, gives every row `r` with `1 ≤ r ≤ n` the cells (occupancy and
colour) of the former row `r - 1`, leaves row 0 empty and leaves every row
below `n` unchanged. -/
theorem clearLine_shift (g : Grid) (n : Nat) (hg : g.WF) (hn : n < g.height) :
    ∃ g1, g.clearLine n = some g1 ∧ g1.width = g.width ∧ g1.height = g.height ∧ g1.WF ∧
      (∀ r, 1 ≤ r → r ≤ n → g1.cells[r]? = g.cells[r - 1]?) ∧
      g1.cells[0]? = some (emptyRow g.width) ∧
      (∀ c, c < g.width → g1.cellAt 0 c = some { color := Color.white, active := false }) ∧
      (∀ r, n < r → g1.cells[r]? = g.cells[r]?) := by
  have h1 := clearLine_cells g hg n hn
  have h2 := clearLine_eq g hg n hn
  have hwf : ({ g with cells := emptyRow g.width :: g.cells.eraseIdx n } : Grid).WF := by
    rw [h1] at h2
    rw [Option.some.inj h2]
    exact withCells_WF g _
  refine ⟨_, h1, rfl, rfl, hwf, ?_, ?_, ?_, ?_⟩
  · intro r hr1 hrn
    obtain ⟨k, rfl⟩ : ∃ k, r = k + 1 := ⟨r - 1, by omega⟩
    simp only [List.getElem?_cons_succ, Nat.add_sub_cancel]
    rw [List.getElem?_eraseIdx, if_pos (by omega)]
  · simp
  · intro c hc
    simp [Grid.cellAt, jsIndex, emptyRow, hc]
  · intro r hr
    obtain ⟨k, rfl⟩ : ∃ k, r = k + 1 := ⟨r - 1, by omega⟩
    simp only [List.getElem?_cons_succ]
    rw [List.getElem?_eraseIdx, if_neg (by omega)]

/-- C3 (witness): clearing row 19 of the board whose rows 15 to 19 are full. -/
theorem clearLine_shift_witness :
    fiveFullBoard.WF ∧ 19 < fiveFullBoard.height ∧
      ∃ g1, fiveFullBoard.clearLine 19 = some g1 ∧ g1.width = fiveFullBoard.width ∧
        g1.height = fiveFullBoard.height ∧ g1.WF ∧
        (∀ r, 1 ≤ r → r ≤ 19 → g1.cells[r]? = fiveFullBoard.cells[r - 1]?) ∧
        g1.cells[0]? = some (emptyRow fiveFullBoard.width) ∧
        (∀ c, c < fiveFullBoard.width →
          g1.cellAt 0 c = some { color := Color.white, active := false }) ∧
        (∀ r, 19 < r → g1.cells[r]? = fiveFullBoard.cells[r]?) :=
  ⟨by decide, by decide, clearLine_shift fiveFullBoard 19 (by decide) (by decide)⟩

/-- C4: on a board of width at least 1, `clearFullLines()` finishes and hands
the score hook the number `k` of rows that were full before the call; the
resulting board is `k` empty rows followed by the formerly non-full rows in
their original order, cells unchanged; more fuel than `2 * height + 1` changes
nothing. On the specification's example board (row 19 full, row 18 with one
gap) it reports 1, row 19 becomes the former row 18 and row 0 is empty. -/
theorem clearFullLines_spec (g : Grid) (hg : g.WF) (hw : 1 ≤ g.width) :
    g.clearFullLines
        = some ({ g with cells :=
              List.replicate (g.cells.filter rowFull).length (emptyRow g.width)
                ++ g.cells.filter (fun r => !rowFull r) },
            (g.cells.filter rowFull).length) ∧
      (∀ fuel, 2 * g.height + 1 ≤ fuel →
        clearFullLinesLoop fuel g ((g.height : Int) - 1) 0 = g.clearFullLines) ∧
      (∀ (k : Color) (gap : Nat), gap < 10 →
        ∃ g1, (specExampleBoard k gap).clearFullLines = some (g1, 1) ∧
          g1.cells[19]? = (specExampleBoard k gap).cells[18]? ∧
          g1.cells[0]? = some (emptyRow 10)) := by
  refine ⟨clearFullLinesLoop_eq g hg hw _ (le_refl _), ?_, ?_⟩
  · intro fuel hfuel
    unfold Grid.clearFullLines
    rw [clearFullLinesLoop_eq g hg hw fuel hfuel, clearFullLinesLoop_eq g hg hw _ (le_refl _)]
  · intro k gap hgap
    have hwf : (specExampleBoard k gap).WF := by
      constructor
      · simp [specExampleBoard]
      · intro row hrow
        simp only [specExampleBoard, List.mem_append, List.mem_replicate, List.mem_cons,
          List.mem_singleton, List.not_mem_nil, or_false] at hrow
        rcases hrow with ⟨_, rfl⟩ | rfl | rfl <;> simp [specExampleBoard, emptyRow]
    have hgapRow : rowFull ((List.range 10).map
        (fun c => if c = gap then Cell.new else { color := k, active := true })) = false := by
      rw [rowFull_map_range]
      have : anyBelow 10 (fun c => !(if c = gap then Cell.new
          else ({ color := k, active := true } : Cell)).active) = true := by
        rw [anyBelow_iff]
        exact ⟨gap, hgap, by simp [Cell.new]⟩
      rw [this]; rfl
    have hb := clearFullLines_block (specExampleBoard k gap) hwf (Nat.zero_lt_succ 9) 1 (Nat.succ_le_succ (Nat.zero_le 19))
      (by
        intro r R hr hR
        have hr19 : r = 19 := by
          have := (List.getElem?_eq_some.mp hR).1
          simp [specExampleBoard] at this hr
          omega
        subst hr19
        simp [specExampleBoard] at hR
        subst hR
        simp [rowFull])
      (by
        intro r R hr hR
        have hr19 : r < 19 := hr
        by_cases h18 : r = 18
        · subst h18
          simp [specExampleBoard] at hR
          subst hR
          exact hgapRow
        · have hr18 : r < 18 := by omega
          simp only [specExampleBoard] at hR
          rw [List.getElem?_append_left (by simpa using hr18),
            List.getElem?_replicate_of_lt hr18] at hR
          cases hR
          exact rowFull_emptyRow 10 (by decide))
    refine ⟨_, hb, ?_, ?_⟩
    · simp [specExampleBoard]
    · simp [specExampleBoard]

/-- C4 (witness): the example board with a red fill and the gap in column 3. -/
theorem clearFullLines_spec_witness :
    (specExampleBoard Color.red 3).WF ∧ 1 ≤ (specExampleBoard Color.red 3).width ∧
      (specExampleBoard Color.red 3).clearFullLines
        = some ({ width := (specExampleBoard Color.red 3).width
                  height := (specExampleBoard Color.red 3).height
                  cells :=
                    List.replicate ((specExampleBoard Color.red 3).cells.filter rowFull).length
                        (emptyRow (specExampleBoard Color.red 3).width)
                      ++ (specExampleBoard Color.red 3).cells.filter (fun r => !rowFull r) },
            ((specExampleBoard Color.red 3).cells.filter rowFull).length) :=
  ⟨by decide, by decide,
    (clearFullLines_spec (specExampleBoard Color.red 3) (by decide) (by decide)).1⟩

/-- C5 (counterexample): on the 10x20 board whose rows 15 to 19 are all full,
rows 16 to 19 are full and `clearFullLines()` reports 5 cleared lines, not 4. -/
theorem clearFullLines_five_rows_counterexample :
    fiveFullBoard.WF ∧ fiveFullBoard.CellInv ∧
      fiveFullBoard.width = 10 ∧ fiveFullBoard.height = 20 ∧
      (∀ r, r < 20 → 16 ≤ r → (fiveFullBoard.cells[r]?).map rowFull = some true) ∧
      fiveFullBoard.clearFullLines.map (fun res => res.2) = some 5 := by
  decide

/-- C5 (amended): on a 10x20 board in which rows 16 to 19 are all full and
none of rows 0 to 15 is full, `clearFullLines()` reports exactly 4 lines and
leaves rows 0 to 3 empty and rows 4 to 19 equal, in occupancy and colour, to
the former rows 0 to 15. -/
theorem clearFullLines_four_rows (g : Grid) (hg : g.WF) (hw : g.width = 10)
    (hh : g.height = 20)
    (hfull : ∀ r, r < 20 → 16 ≤ r → (g.cells[r]?).map rowFull = some true)
    (hnot : ∀ r, r < 16 → (g.cells[r]?).map rowFull = some false) :
    ∃ g1, g.clearFullLines = some (g1, 4) ∧ g1.width = 10 ∧ g1.height = 20 ∧ g1.WF ∧
      (∀ r, r < 4 → g1.cells[r]? = some (emptyRow 10)) ∧
      (∀ r, 4 ≤ r → r ≤ 19 → g1.cells[r]? = g.cells[r - 4]?) := by
  have hb := clearFullLines_block g hg (by omega) 4 (by omega)
    (by
      intro r R hr hR
      have hr20 : r < 20 := by
        have := (List.getElem?_eq_some.mp hR).1
        rw [hg.1] at this
        omega
      have := hfull r hr20 (by omega)
      rw [hR] at this
      exact Option.some.inj this)
    (by
      intro r R hr hR
      have := hnot r (by omega)
      rw [hR] at this
      exact Option.some.inj this)
  have hlen : (g.cells.take (g.height - 4)).length = 16 := by
    rw [List.length_take, hg.1, hh]
    rfl
  refine ⟨_, hb, hw, hh, ?_, ?_, ?_⟩
  · constructor
    · show (List.replicate 4 (emptyRow g.width) ++ g.cells.take (g.height - 4)).length = g.height
      rw [List.length_append, List.length_replicate, hlen, hh]
    · intro row hrow
      show row.length = g.width
      have hrow2 : row ∈ List.replicate 4 (emptyRow g.width) ++ g.cells.take (g.height - 4) :=
        hrow
      rw [List.mem_append] at hrow2
      rcases hrow2 with h | h
      · rw [(List.mem_replicate.mp h).2]
        simp [emptyRow]
      · exact hg.2 row (List.mem_of_mem_take h)
  · intro r hr
    show (List.replicate 4 (emptyRow g.width) ++ g.cells.take (g.height - 4))[r]? = _
    rw [List.getElem?_append_left (by simpa using hr), List.getElem?_replicate_of_lt hr, hw]
  · intro r hr4 hr19
    show (List.replicate 4 (emptyRow g.width) ++ g.cells.take (g.height - 4))[r]? = _
    rw [List.getElem?_append_right (by simpa using hr4), List.length_replicate,
      List.getElem?_take, if_pos (by omega)]

/-- C5 (witness): the board whose rows 16 to 19 are full and whose row 15 has a gap. -/
theorem clearFullLines_four_rows_witness :
    fourFullBoard.WF ∧ fourFullBoard.width = 10 ∧ fourFullBoard.height = 20 ∧
      (∀ r, r < 20 → 16 ≤ r → (fourFullBoard.cells[r]?).map rowFull = some true) ∧
      (∀ r, r < 16 → (fourFullBoard.cells[r]?).map rowFull = some false) ∧
      ∃ g1, fourFullBoard.clearFullLines = some (g1, 4) ∧ g1.width = 10 ∧ g1.height = 20 ∧
        g1.WF ∧
        (∀ r, r < 4 → g1.cells[r]? = some (emptyRow 10)) ∧
        (∀ r, 4 ≤ r → r ≤ 19 → g1.cells[r]? = fourFullBoard.cells[r - 4]?) :=
  ⟨by decide, by decide, by decide, by decide, by decide,
    clearFullLines_four_rows fourFullBoard (by decide) (by decide) (by decide) (by decide)
      (by decide)⟩

/-- C6: for every piece with a square shape matrix, four `rotateCW()` calls
give the piece back with its original shape matrix; a shape matrix has side at
least 1, and then `rotateCW()` followed by `rotateCCW()`, and `rotateCCW()`
followed by `rotateCW()`, do so too; all three hold for each of the 8 catalog
shapes. -/
theorem rotation_closure (p : Piece) (hp : p.WF) :
    (((p.rotateCW.bind Piece.rotateCW).bind Piece.rotateCW).bind Piece.rotateCW = some p) ∧
    (0 < p.size →
      (p.rotateCW.bind Piece.rotateCCW = some p) ∧ (p.rotateCCW.bind Piece.rotateCW = some p)) ∧
    (∀ (grid : Grid) (t : PieceType) (x y : Option Int),
      ((((Piece.new grid t x y).rotateCW.bind Piece.rotateCW).bind Piece.rotateCW).bind
          Piece.rotateCW = some (Piece.new grid t x y)) ∧
        ((Piece.new grid t x y).rotateCW.bind Piece.rotateCCW = some (Piece.new grid t x y)) ∧
        ((Piece.new grid t x y).rotateCCW.bind Piece.rotateCW = some (Piece.new grid t x y))) :=
  ⟨rotateCW_four p hp, rotateCW_rotateCCW p hp, fun grid t x y =>
    ⟨rotateCW_four _ (catalog_WF grid t x y).1,
      rotateCW_rotateCCW _ (catalog_WF grid t x y).1 (catalog_WF grid t x y).2⟩⟩

/-- C6 (witness): the J piece as spawned on the 10x20 board. -/
theorem rotation_closure_witness :
    jPieceSpawn.WF ∧ 0 < jPieceSpawn.size ∧
      (((jPieceSpawn.rotateCW.bind Piece.rotateCW).bind Piece.rotateCW).bind Piece.rotateCW
          = some jPieceSpawn) ∧
      ((jPieceSpawn.rotateCW.bind Piece.rotateCCW = some jPieceSpawn) ∧
        (jPieceSpawn.rotateCCW.bind Piece.rotateCW = some jPieceSpawn)) :=
  ⟨by decide, by decide, (rotation_closure jPieceSpawn (by decide)).1,
    (rotation_closure jPieceSpawn (by decide)).2.1 (by decide)⟩

/-- C7: for a square shape matrix of side `n`, `rotateCW()` yields the square
matrix of side `n` with `new[i][j] = old[n-1-j][i]`, which is the transpose of
the row-reversed matrix; a shape matrix has side `n` at least 1, and then
`rotateCCW()` yields the square matrix of side `n` with
`new[i][j] = old[j][n-1-i]`, which is the row-reversed transpose. Both keep
`size`, every other field of the piece and the number of filled cells. -/
theorem rotate_spec (p : Piece) (hp : p.WF) :
    (∃ q, p.rotateCW = some q ∧ q.size = p.size ∧ q.WF ∧
      (∀ i j, i < p.size → j < p.size → q.entry i j = p.entry (p.size - 1 - j) i) ∧
      q.representation = transposeMatrix (reverseRows p.representation) ∧
      filledCount q.representation = filledCount p.representation ∧
      q = p.withShape q.representation) ∧
    (0 < p.size →
      ∃ q, p.rotateCCW = some q ∧ q.size = p.size ∧ q.WF ∧
        (∀ i j, i < p.size → j < p.size → q.entry i j = p.entry j (p.size - 1 - i)) ∧
        q.representation = reverseRows (transposeMatrix p.representation) ∧
        filledCount q.representation = filledCount p.representation ∧
        q = p.withShape q.representation) := by
  have hrep := square_eq_tabulate p.size p.representation hp
  constructor
  · refine ⟨_, piece_rotateCW_eq p p.size _ hrep, rfl, square_tabulate _ _, ?_, ?_, ?_, rfl⟩
    · intro i j hi hj
      rw [entry_tabulate _ p.size _ rfl i j hi hj,
        entry_tabulate p p.size _ hrep (p.size - 1 - j) i (by omega) hi]
    · conv_rhs => rw [hrep]
      rw [reverseRows_tabulate, transposeMatrix_tabulate]
      rfl
    · conv_rhs => rw [hrep]
      exact filledCount_rotateCW p.size _
  · intro hn
    refine ⟨_, piece_rotateCCW_eq p p.size _ hn hrep, rfl, square_tabulate _ _, ?_, ?_, ?_, rfl⟩
    · intro i j hi hj
      rw [entry_tabulate _ p.size _ rfl i j hi hj,
        entry_tabulate p p.size _ hrep j (p.size - 1 - i) hj (by omega)]
    · conv_rhs => rw [hrep]
      rw [transposeMatrix_tabulate, reverseRows_tabulate]
      rfl
    · conv_rhs => rw [hrep]
      exact filledCount_rotateCCW p.size _

/-- C7 (witness): the T piece as spawned on the 10x20 board. -/
theorem rotate_spec_witness :
    tPieceSpawn.WF ∧ 0 < tPieceSpawn.size ∧
      (∃ q, tPieceSpawn.rotateCW = some q ∧ q.size = tPieceSpawn.size ∧ q.WF ∧
        (∀ i j, i < tPieceSpawn.size → j < tPieceSpawn.size →
          q.entry i j = tPieceSpawn.entry (tPieceSpawn.size - 1 - j) i) ∧
        q.representation = transposeMatrix (reverseRows tPieceSpawn.representation) ∧
        filledCount q.representation = filledCount tPieceSpawn.representation ∧
        q = tPieceSpawn.withShape q.representation) ∧
      (∃ q, tPieceSpawn.rotateCCW = some q ∧ q.size = tPieceSpawn.size ∧ q.WF ∧
        (∀ i j, i < tPieceSpawn.size → j < tPieceSpawn.size →
          q.entry i j = tPieceSpawn.entry j (tPieceSpawn.size - 1 - i)) ∧
        q.representation = reverseRows (transposeMatrix tPieceSpawn.representation) ∧
        filledCount q.representation = filledCount tPieceSpawn.representation ∧
        q = tPieceSpawn.withShape q.representation) :=
  ⟨by decide, by decide, (rotate_spec tPieceSpawn (by decide)).1,
    (rotate_spec tPieceSpawn (by decide)).2 (by decide)⟩

/-- C8 (counterexample): on the board that still carries the render stamp of
the active O piece, `hardDrop()` returns at once with the piece moved up one
row, where it overlaps its own stamp, so `isValid` is false at the result. -/
theorem hardDrop_stamped_counterexample :
    stampedBoard.WF ∧ stampedBoard.CellInv ∧ oPieceAtRow5.WF ∧
      (Grid.new 10 20).insertPiece oPieceAtRow5 = some stampedBoard ∧
      (Piece.hardDrop 21 stampedBoard oPieceAtRow5).map (fun q => (q.x, q.y)) = some (4, 4) ∧
      (Piece.hardDrop 21 stampedBoard oPieceAtRow5).bind (fun q => stampedBoard.isValid q)
        = some false := by
  decide

/-- C8 (amended): for a piece with at least one filled cell that is valid at
its current position, `hardDrop()` finishes (any fuel above `height - y`
suffices), keeps column, shape and size, ends at a row not above the start at
which `isValid` is true, every row passed on the way down being valid, and
`isValid` is false one row further down; the fall timer is `DROP_INTERVAL`. -/
theorem hardDrop_rests (g : Grid) (activePiece : Piece) (fuel : Nat) (hg : g.WF)
    (hp : activePiece.WF)
    (hfill : ∃ i j v, activePiece.entry i j = some v ∧ v ≠ 0)
    (hv : g.isValid activePiece = some true)
    (hfuel : ((g.height : Int) - activePiece.y).toNat < fuel) :
    ∃ q, Piece.hardDrop fuel g activePiece = some q ∧
      q.x = activePiece.x ∧ q.representation = activePiece.representation ∧
      q.size = activePiece.size ∧ q.dropBuffer = DROP_INTERVAL ∧
      activePiece.y ≤ q.y ∧
      (∀ y, activePiece.y ≤ y → y ≤ q.y → g.isValid (activePiece.atRow y) = some true) ∧
      g.isValid q = some true ∧ g.isValid q.moveDown = some false := by
  obtain ⟨k, h1, h2, h3⟩ := hardDropLoop_spec g hg fuel activePiece hp hfill hfuel
  have hk : 0 < k := by
    cases k with
    | zero =>
      have : activePiece.atRow (activePiece.y + ((0 : Nat) : Int)) = activePiece := by
        show ({ activePiece with y := activePiece.y + ((0 : Nat) : Int) } : Piece) = activePiece
        simp
      rw [this, hv] at h2
      cases h2
    | succ n => omega
  refine ⟨{ activePiece with y := activePiece.y + (k : Int) - 1, dropBuffer := DROP_INTERVAL },
    by unfold Piece.hardDrop; rw [h1]; rfl, rfl, rfl, rfl, rfl, ?_, ?_, ?_, ?_⟩
  · show activePiece.y ≤ activePiece.y + (k : Int) - 1
    omega
  · intro y hy1 hy2
    have hy3 : y ≤ activePiece.y + (k : Int) - 1 := hy2
    have := h3 (y - activePiece.y).toNat (by omega)
    rw [Int.toNat_of_nonneg (by omega)] at this
    have e : activePiece.y + (y - activePiece.y) = y := by ring
    rw [e] at this
    exact this
  · have := h3 (k - 1) (by omega)
    have e : activePiece.y + ((k - 1 : Nat) : Int) = activePiece.y + (k : Int) - 1 := by omega
    rw [e] at this
    rw [← this]
    exact isValid_congr g _ _ rfl rfl rfl rfl
  · have e : activePiece.y + (k : Int) - 1 + 1 = activePiece.y + (k : Int) := by ring
    rw [← h2]
    exact isValid_congr g _ _ rfl rfl rfl (by show activePiece.y + (k : Int) - 1 + 1 = _; rw [e]; rfl)

/-- C8 (witness): the T piece dropped from its spawn position on the empty 10x20 board. -/
theorem hardDrop_rests_witness :
    (Grid.new 10 20).WF ∧ tPieceSpawn.WF ∧
      (∃ i j v, tPieceSpawn.entry i j = some v ∧ v ≠ 0) ∧
      (Grid.new 10 20).isValid tPieceSpawn = some true ∧
      ((((Grid.new 10 20).height : Int) - tPieceSpawn.y).toNat < 21) ∧
      ∃ q, Piece.hardDrop 21 (Grid.new 10 20) tPieceSpawn = some q ∧
        q.x = tPieceSpawn.x ∧ q.representation = tPieceSpawn.representation ∧
        q.size = tPieceSpawn.size ∧ q.dropBuffer = DROP_INTERVAL ∧
        tPieceSpawn.y ≤ q.y ∧
        (∀ y, tPieceSpawn.y ≤ y → y ≤ q.y →
          (Grid.new 10 20).isValid (tPieceSpawn.atRow y) = some true) ∧
        (Grid.new 10 20).isValid q = some true ∧
        (Grid.new 10 20).isValid q.moveDown = some false :=
  ⟨by decide, by decide, ⟨0, 1, 1, by decide, by decide⟩, by decide, by decide,
    hardDrop_rests (Grid.new 10 20) tPieceSpawn 21 (by decide) (by decide)
      ⟨0, 1, 1, by decide, by decide⟩ (by decide) (by decide)⟩

/-- C9: when every filled shape cell maps inside the board, `insertPiece`
succeeds, keeps width and height, makes every covered cell occupied with the
piece colour, and leaves every other cell as it was. -/
theorem insertPiece_frame (g : Grid) (piece : Piece) (hg : g.WF) (hp : piece.WF)
    (hin : ∀ row col v, piece.entry row col = some v → v ≠ 0 →
      0 ≤ piece.y + (row : Int) ∧ piece.y + (row : Int) < g.height ∧
      0 ≤ piece.x + (col : Int) ∧ piece.x + (col : Int) < g.width) :
    ∃ g1, g.insertPiece piece = some g1 ∧ g1.width = g.width ∧ g1.height = g.height ∧ g1.WF ∧
      (∀ row col v, piece.entry row col = some v → v ≠ 0 →
        g1.cellAt (piece.y + (row : Int)) (piece.x + (col : Int))
          = some { color := piece.color, active := true }) ∧
      (∀ r c : Int,
        (¬ ∃ row col v, piece.entry row col = some v ∧ v ≠ 0 ∧
          r = piece.y + (row : Int) ∧ c = piece.x + (col : Int)) →
        g1.cellAt r c = g.cellAt r c) := by
  have hin2 := (inside_iff g piece hp).mpr hin
  refine ⟨_, insertPiece_eq g piece hg hp hin2, rfl, rfl, withCells_WF g _, ?_, ?_⟩
  · intro row col v h1 h2
    obtain ⟨a, b, c, d⟩ := hin row col v h1 h2
    obtain ⟨hi, hj⟩ := entry_lt piece hp row col v h1
    rw [cellAt_withCells_int g _ _ _ a b c d]
    have hcov : piece.covers (piece.y + (row : Int)).toNat (piece.x + (col : Int)).toNat = true := by
      rw [covers_iff]
      exact ⟨row, col, hi, hj, (filled_iff piece row col).mpr ⟨v, h1, h2⟩, by omega, by omega⟩
    rw [if_pos hcov]
  · intro r c hnot
    by_cases hrange : 0 ≤ r ∧ r < g.height ∧ 0 ≤ c ∧ c < g.width
    · obtain ⟨a, b, c1, d⟩ := hrange
      rw [cellAt_withCells_int g _ _ _ a b c1 d]
      have hcov : ¬ piece.covers r.toNat c.toNat = true := by
        rw [covers_iff]
        rintro ⟨i, j, _, _, hf, h1, h2⟩
        obtain ⟨v, hv1, hv2⟩ := (filled_iff piece i j).mp hf
        exact hnot ⟨i, j, v, hv1, hv2, by omega, by omega⟩
      rw [if_neg hcov]
      have := cellAt_fn g hg r.toNat c.toNat (by omega) (by omega)
      rw [Int.toNat_of_nonneg a, Int.toNat_of_nonneg c1] at this
      exact this.symm
    · rw [cellAt_withCells_none g _ r c hrange]
      have := cellAt_withCells_none g g.fn r c hrange
      rw [withCells_fn g hg] at this
      exact this.symm

/-- C9 (witness): the O piece stamped at row 5 of the empty 10x20 board. -/
theorem insertPiece_frame_witness :
    (Grid.new 10 20).WF ∧ oPieceAtRow5.WF ∧ oPieceAtRow5.inside (Grid.new 10 20) ∧
      ∃ g1, (Grid.new 10 20).insertPiece oPieceAtRow5 = some g1 ∧
        g1.width = (Grid.new 10 20).width ∧ g1.height = (Grid.new 10 20).height ∧ g1.WF ∧
        (∀ row col v, oPieceAtRow5.entry row col = some v → v ≠ 0 →
          g1.cellAt (oPieceAtRow5.y + (row : Int)) (oPieceAtRow5.x + (col : Int))
            = some { color := oPieceAtRow5.color, active := true }) ∧
        (∀ r c : Int,
          (¬ ∃ row col v, oPieceAtRow5.entry row col = some v ∧ v ≠ 0 ∧
            r = oPieceAtRow5.y + (row : Int) ∧ c = oPieceAtRow5.x + (col : Int)) →
          g1.cellAt r c = (Grid.new 10 20).cellAt r c) :=
  ⟨by decide, by decide, by decide,
    insertPiece_frame (Grid.new 10 20) oPieceAtRow5 (by decide) (by decide)
      ((inside_iff (Grid.new 10 20) oPieceAtRow5 (by decide)).mp (by decide))⟩

/-- C10 (counterexample): on a 6x6 board with the spawn cell of the pending T
piece occupied, `isValid` is false, `gameOver()` resets the board and then
throws while stamping the 8x8 glyph, so no state with a stamped glyph results. -/
theorem spawnPiece_small_board_counterexample :
    smallBlockedBoard.WF ∧ smallBlockedBoard.CellInv ∧
      smallBlockedBoard.isValid (Piece.new smallBlockedBoard PieceType.T none none) = some false ∧
      gameOver smallBlockedState = none ∧
      spawnPiece 0 0 smallBlockedState = none := by
  decide

/-- C10 (amended): on a board at least 9 wide and 8 high, `spawnPiece()`
builds a piece of the pending type at row 0, column `ceil((width - side) / 2)`,
with fall timer 0. It returns no piece exactly when `isValid` is false for that
piece, which is exactly when a cell under one of its filled shape cells is
occupied. In that case the draws are not used, the pending type stays, the loop
is stopped and the board is the reset board with the filled cells of the
Gameover glyph stamped in black at origin column 1, row 1. Otherwise the board
is unchanged, the piece is returned and the pending type becomes
`uniquePiece` of the spawned type. -/
theorem spawnPiece_spec (s : State) (d1 d2 : Fin 7) (hg : s.grid.WF)
    (hw : 9 ≤ s.grid.width) (hh : 8 ≤ s.grid.height) :
    (Piece.new s.grid s.nextType none none).type = s.nextType ∧
    (Piece.new s.grid s.nextType none none).y = 0 ∧
    (Piece.new s.grid s.nextType none none).x
      = ⌈((s.grid.width : ℚ) - ((Piece.new s.grid s.nextType none none).size : ℚ)) / 2⌉ ∧
    (Piece.new s.grid s.nextType none none).dropBuffer = 0 ∧
    ((∃ s1, spawnPiece d1 d2 s = some (none, s1)) ↔
      s.grid.isValid (Piece.new s.grid s.nextType none none) = some false) ∧
    (s.grid.isValid (Piece.new s.grid s.nextType none none) = some false ↔
      ∃ row col v, (Piece.new s.grid s.nextType none none).entry row col = some v ∧ v ≠ 0 ∧
        ∃ cell, s.grid.cellAt ((Piece.new s.grid s.nextType none none).y + (row : Int))
            ((Piece.new s.grid s.nextType none none).x + (col : Int)) = some cell ∧
          cell.active = true) ∧
    (s.grid.isValid (Piece.new s.grid s.nextType none none) = some false →
      ∃ g1, spawnPiece d1 d2 s = some (none, { s with looping := false, grid := g1 }) ∧
        g1.width = s.grid.width ∧ g1.height = s.grid.height ∧ g1.WF ∧
        (∀ r c : Nat, r < s.grid.height → c < s.grid.width →
          (∃ (i j : Nat) (v : Int), ((PIECES PieceType.Gameover)[i]?).bind (fun shapeRow => shapeRow[j]?) = some v ∧
            v ≠ 0 ∧ (r : Int) = 1 + (i : Int) ∧ (c : Int) = 1 + (j : Int)) →
          g1.cellAt r c = some { color := Color.black, active := true }) ∧
        (∀ r c : Nat, r < s.grid.height → c < s.grid.width →
          (¬ ∃ (i j : Nat) (v : Int), ((PIECES PieceType.Gameover)[i]?).bind (fun shapeRow => shapeRow[j]?) = some v ∧
            v ≠ 0 ∧ (r : Int) = 1 + (i : Int) ∧ (c : Int) = 1 + (j : Int)) →
          g1.cellAt r c = some { color := Color.white, active := false })) ∧
    (s.grid.isValid (Piece.new s.grid s.nextType none none) ≠ some false →
      spawnPiece d1 d2 s = some (some (Piece.new s.grid s.nextType none none),
        { s with nextType := uniquePiece d1 d2 (some s.nextType) })) := by
  have hpwf := (catalog_WF s.grid s.nextType none none).1
  have hgo := gameOver_eq s hg hw hh
  refine ⟨rfl, rfl, ?_, rfl, ?_, spawn_invalid_iff s.grid s.nextType hg hw hh, ?_, ?_⟩
  · show ceilHalf ((s.grid.width : Int) - ((PIECES s.nextType).length : Int)) = _
    rw [ceilHalf_eq_ceil]
    push_cast
    rfl
  · constructor
    · rintro ⟨s1, hs1⟩
      rcases isValid_some s.grid _ hg hpwf with hv | hv
      · unfold spawnPiece at hs1
        rw [hv] at hs1
        simp at hs1
      · exact hv
    · intro hv
      unfold spawnPiece
      rw [hv, hgo]
      exact ⟨_, rfl⟩
  · intro hv
    refine ⟨s.grid.withCells (fun r c =>
        if (Piece.new s.grid PieceType.Gameover (some 1) (some 1)).covers r c = true then
          { color := Color.black, active := true }
        else { color := Color.white, active := false }),
      by unfold spawnPiece; rw [hv, hgo]; rfl, rfl, rfl, withCells_WF _ _, ?_, ?_⟩
    · intro r c hr hc hcov
      rw [cellAt_withCells s.grid _ r c hr hc]
      have : (Piece.new s.grid PieceType.Gameover (some 1) (some 1)).covers r c = true := by
        rw [covers_iff]
        obtain ⟨i, j, v, h1, h2, h3, h4⟩ := hcov
        obtain ⟨hi, hj⟩ := entry_lt _ (catalog_WF s.grid PieceType.Gameover (some 1) (some 1)).1
          i j v h1
        exact ⟨i, j, hi, hj, (filled_iff _ i j).mpr ⟨v, h1, h2⟩, h3.symm, h4.symm⟩
      rw [if_pos this]
    · intro r c hr hc hcov
      rw [cellAt_withCells s.grid _ r c hr hc]
      have : ¬ (Piece.new s.grid PieceType.Gameover (some 1) (some 1)).covers r c = true := by
        rw [covers_iff]
        rintro ⟨i, j, _, _, hf, h3, h4⟩
        obtain ⟨v, h1, h2⟩ := (filled_iff _ i j).mp hf
        exact hcov ⟨i, j, v, h1, h2, h3.symm, h4.symm⟩
      rw [if_neg this]
  · intro hv
    rcases isValid_some s.grid _ hg hpwf with hv1 | hv1
    · unfold spawnPiece
      rw [hv1]
    · exact absurd hv1 hv

/-- C10 (witness): spawning the pending T piece on the empty 10x20 board. -/
theorem spawnPiece_spec_witness :
    initialState.grid.WF ∧ 9 ≤ initialState.grid.width ∧ 8 ≤ initialState.grid.height ∧
      spawnPiece 2 5 initialState
        = some (some (Piece.new initialState.grid initialState.nextType none none),
            { initialState with nextType := uniquePiece 2 5 (some initialState.nextType) }) :=
  ⟨by decide, by decide, by decide,
    (spawnPiece_spec initialState 2 5 (by decide) (by decide) (by decide)).2.2.2.2.2.2.2
      (by decide)⟩

/-- C11: take a frame in which the active piece is drop-ready, the grid being
a well-formed board `base` that keeps the cell invariant, on which the piece is
valid, with the piece stamped on it. The timer is reset to 0 and lifting the
stamp gives `base` back. If one row lower is valid on `base`, the frame ends
with the same piece one row lower (same column, shape and colour, timer 0), and
the grid is `base` with the piece inserted there; `GAME` and the next type are
kept. If one row lower is invalid, the piece is inserted into `base` at its
position, and the frame is that insert followed by `clearFullLines()` on the
resulting board, one `spawnPiece()` call and the render; on a board of at
least 9x8 cells all of this returns, and the state at the end of the frame is
given by the result of that one `spawnPiece()` call: the new piece stamped on
the cleared board, or the game-over board with the loop stopped. -/
theorem drop_tick (hooks : Hooks) (current : Nat) (d1 d2 : Fin 7) (s : State) (p0 : Piece)
    (base : Grid) (hact : s.activePiece = some p0) (hbase : base.WF) (hcell : base.CellInv)
    (hp : p0.WF) (hvalid : base.isValid p0 = some true)
    (hstamp : base.insertPiece p0 = some s.grid)
    (hready : (advanceTimer s (current - s.prev) p0).dropReady = true) :
    (advanceTimer s (current - s.prev) p0).resetBuffer.dropBuffer = 0 ∧
    s.grid.clearPiece (advanceTimer s (current - s.prev) p0).resetBuffer = some base ∧
    (base.isValid p0.resetBuffer.moveDown = some true ∨
      base.isValid p0.resetBuffer.moveDown = some false) ∧
    (base.isValid p0.resetBuffer.moveDown = some true →
      base.insertPiece p0.resetBuffer.moveDown = some (base.stamp p0.resetBuffer.moveDown) ∧
      drawLog hooks current d1 d2 s
        = some ({ s with
              prev := current
              grid := base.stamp p0.resetBuffer.moveDown
              activePiece := some p0.resetBuffer.moveDown },
            [{ grid := base, piece := p0.resetBuffer.moveDown }]) ∧
      p0.resetBuffer.moveDown.y = p0.y + 1 ∧ p0.resetBuffer.moveDown.x = p0.x ∧
      p0.resetBuffer.moveDown.representation = p0.representation ∧
      p0.resetBuffer.moveDown.color = p0.color ∧ p0.resetBuffer.moveDown.dropBuffer = 0) ∧
    (base.isValid p0.resetBuffer.moveDown = some false →
      base.insertPiece p0.resetBuffer.moveDown.moveUp = some (base.stamp p0) ∧
      p0.resetBuffer.moveDown.moveUp.x = p0.x ∧ p0.resetBuffer.moveDown.moveUp.y = p0.y ∧
      drawLog hooks current d1 d2 s
        = (afterLock hooks d1 d2 { s with
              prev := current
              grid := base.stamp p0
              activePiece := some p0.resetBuffer }
            [{ grid := base, piece := p0.resetBuffer }]).bind (fun r => renderPiece r.1 r.2) ∧
      (9 ≤ base.width → 8 ≤ base.height →
        ∃ g3 G3 hc lines,
          (base.stamp p0).clearFullLines = some (g3, lines) ∧
          (base.stamp p0).clearFullLinesHooks hooks s.GAME = some (g3, G3, hc) ∧
          ((spawnPiece d1 d2 { s with
                prev := current
                GAME := G3
                grid := g3
                activePiece := some p0.resetBuffer }
              = some (some (Piece.new g3 s.nextType none none),
                  { s with
                    prev := current
                    GAME := G3
                    grid := g3
                    activePiece := some p0.resetBuffer
                    nextType := uniquePiece d1 d2 (some s.nextType) }) ∧
            drawLog hooks current d1 d2 s
              = some ({ s with
                    prev := current
                    GAME := G3
                    grid := g3.stamp (Piece.new g3 s.nextType none none)
                    activePiece := some (Piece.new g3 s.nextType none none)
                    nextType := uniquePiece d1 d2 (some s.nextType) },
                  [{ grid := base, piece := p0.resetBuffer },
                   { grid := g3, piece := Piece.new g3 s.nextType none none }])) ∨
           (spawnPiece d1 d2 { s with
                prev := current
                GAME := G3
                grid := g3
                activePiece := some p0.resetBuffer }
              = some (none,
                  { s with
                    prev := current
                    GAME := G3
                    activePiece := some p0.resetBuffer
                    looping := false
                    grid := (Grid.new base.width base.height).stamp
                      (Piece.new (Grid.new base.width base.height) PieceType.Gameover
                        (some 1) (some 1)) }) ∧
            drawLog hooks current d1 d2 s
              = some ({ s with
                    prev := current
                    GAME := G3
                    grid := (Grid.new base.width base.height).stamp
                      (Piece.new (Grid.new base.width base.height) PieceType.Gameover
                        (some 1) (some 1))
                    activePiece := none
                    looping := false },
                  [{ grid := base, piece := p0.resetBuffer },
                   { grid := Grid.new base.width base.height
                     piece := Piece.new (Grid.new base.width base.height) PieceType.Gameover
                       (some 1) (some 1) }]))))) := by
  have hst : Stamped base p0 s.grid := ⟨hbase, hcell, hp, hvalid, Or.inr hstamp⟩
  obtain ⟨_, _, _, _, _, _, hlift, hins, _⟩ := stamped_facts base p0 s.grid hst
  refine ⟨rfl, ?_, isValid_some base _ hbase hp, ?_, ?_⟩
  · rw [advanceTimer_resetBuffer]
    exact hlift
  · intro hv
    exact ⟨(stamped_stamp base p0.resetBuffer.moveDown hbase hcell hp hv).2.1,
      tick_descend hooks current d1 d2 s p0 base hact hst hready hv, rfl, rfl, rfl, rfl, rfl⟩
  · intro hv
    refine ⟨by rw [moveDown_moveUp]; exact hins, by rw [moveDown_moveUp]; rfl,
      by rw [moveDown_moveUp]; rfl,
      drawLog_lock hooks current d1 d2 s p0 base (base.stamp p0) hact hready hlift hv hins, ?_⟩
    intro hw hh
    obtain ⟨g3, G3, hc, c1, c0, c2, _, c4, c5, hcase⟩ :=
      tick_lock hooks current d1 d2 s p0 base hact hst hready hv hw hh
    refine ⟨g3, G3, hc, _, c0, c1, ?_⟩
    rcases hcase with ⟨hv3, hd⟩ | ⟨hv3, hd⟩
    · left
      exact ⟨spawnPiece_valid d1 d2 _ hv3, hd⟩
    · right
      refine ⟨?_, hd⟩
      have h := spawnPiece_invalid d1 d2 { s with
        prev := current, GAME := G3, grid := g3, activePiece := some p0.resetBuffer } c2
        (by show 9 ≤ g3.width; omega) (by show 8 ≤ g3.height; omega) hv3
      rw [h]
      show some (none, ({ s with
        prev := current, GAME := G3, activePiece := some p0.resetBuffer, looping := false,
        grid := (Grid.new g3.width g3.height).stamp
          (Piece.new (Grid.new g3.width g3.height) PieceType.Gameover (some 1) (some 1)) } : State))
        = _
      rw [c4, c5]

/-- C11 (witness): the frame at 1000 ms from the state after the first frame;
the O piece goes from row 0 to row 1. -/
theorem drop_tick_witness :
    stampedStart.activePiece = some (oPieceSpawn.update 10) ∧ (Grid.new 10 20).WF ∧
      (Grid.new 10 20).CellInv ∧ (oPieceSpawn.update 10).WF ∧
      (Grid.new 10 20).isValid (oPieceSpawn.update 10) = some true ∧
      (Grid.new 10 20).insertPiece (oPieceSpawn.update 10) = some stampedStart.grid ∧
      (advanceTimer stampedStart (1000 - stampedStart.prev) (oPieceSpawn.update 10)).dropReady
        = true ∧
      drawLog countingHooks 1000 0 0 stampedStart
        = some ({ stampedStart with
              prev := 1000
              grid := (Grid.new 10 20).stamp oPieceSpawn.moveDown
              activePiece := some oPieceSpawn.moveDown },
            [{ grid := Grid.new 10 20, piece := oPieceSpawn.moveDown }]) := by
  have hstamp : (Grid.new 10 20).insertPiece (oPieceSpawn.update 10) = some stampedStart.grid :=
    (stamped_stamp (Grid.new 10 20) oPieceSpawn (by decide) (by decide) (by decide)
      (by decide)).2.1
  have h := drop_tick countingHooks 1000 0 0 stampedStart (oPieceSpawn.update 10)
    (Grid.new 10 20) rfl (by decide) (by decide) (by decide) (by decide) hstamp (by decide)
  exact ⟨rfl, by decide, by decide, by decide, by decide, hstamp, by decide,
    (h.2.2.2.1 (by decide)).2.1⟩

/-- C12: with the two random draws as inputs, `uniquePiece(prev)` gives the
first draw unless it equals `prev`, and then the second draw whatever it is;
the result is one of the 7 playable types, never the Gameover glyph; for each
playable `prev` exactly 1 of the 49 pairs of draws repeats `prev`, and the rate
1/49 lies strictly between 0 and 1/7. -/
theorem uniquePiece_repeat_rate :
    (∀ (d1 d2 : Fin 7) (prev : Option PieceType),
      (prev ≠ some (randomType d1) → uniquePiece d1 d2 prev = randomType d1) ∧
      (prev = some (randomType d1) → uniquePiece d1 d2 prev = randomType d2)) ∧
    (∀ d e : Fin 7, randomType d = randomType e → d = e) ∧
    (∀ (d1 d2 : Fin 7) (prev : Option PieceType),
      uniquePiece d1 d2 prev ≠ PieceType.Gameover ∧
      uniquePiece d1 d2 prev ∈
        [PieceType.O, PieceType.J, PieceType.L, PieceType.S, PieceType.Z, PieceType.T,
          PieceType.I]) ∧
    (∀ d : Fin 7,
      (Finset.univ.filter (fun pr : Fin 7 × Fin 7 =>
        uniquePiece pr.1 pr.2 (some (randomType d)) = randomType d)).card = 1) ∧
    (Finset.univ : Finset (Fin 7 × Fin 7)).card = 49 ∧
    (1 : ℚ) / 49 < 1 / 7 ∧ (1 : ℚ) / 49 ≠ 0 := by
  refine ⟨?_, by decide, ?_, by decide, by decide, by norm_num, by norm_num⟩
  · intro d1 d2 prev
    unfold uniquePiece
    constructor
    · intro h; rw [if_neg h]
    · intro h; rw [if_pos h]
  · intro d1 d2 prev
    have hr : ∀ d : Fin 7, randomType d ≠ PieceType.Gameover ∧
        randomType d ∈ [PieceType.O, PieceType.J, PieceType.L, PieceType.S, PieceType.Z,
          PieceType.T, PieceType.I] := by decide
    unfold uniquePiece
    split
    · exact hr d2
    · exact hr d1

/-- C13: a `clearFullLines()` call on a well-formed board of width at least 1
calls the level-up hook at most once, as its last hook call, and calls it if
and only if `GAME.linescleared >= (GAME.level + 1) * 10` holds after the line
and score hooks have run. If the line hook adds 1 to the total per cleared
line, the level hook adds 1 to the level and the score hook leaves both alone,
then a play from level 0 and a total below 10 that ends with the total at 10
makes exactly one level-up call (calls that clear no further line add none),
and a play that ends with the total at 9 or less makes none. -/
theorem updateLevel_once (hooks : Hooks) (g : Grid) (GAME : GameVars) (hg : g.WF)
    (hw : 1 ≤ g.width) :
    (∃ g1 lines G1 calls,
      g.clearFullLines = some (g1, lines) ∧
      g.clearFullLinesHooks hooks GAME = some (g1, G1, calls) ∧
      calls.count HookCall.updateLevel ≤ 1 ∧
      (HookCall.updateLevel ∈ calls ↔
        (hooks.updateScore lines (hooks.updateLines^[lines] GAME)).linescleared
          ≥ ((hooks.updateScore lines (hooks.updateLines^[lines] GAME)).level + 1) * 10) ∧
      (HookCall.updateLevel ∈ calls →
        calls.getLast? = some HookCall.updateLevel ∧
          G1 = hooks.updateLevel (hooks.updateScore lines (hooks.updateLines^[lines] GAME))) ∧
      (HookCall.updateLevel ∉ calls →
        G1 = hooks.updateScore lines (hooks.updateLines^[lines] GAME))) ∧
    ((∀ G, hooks.updateLines G = { G with linescleared := G.linescleared + 1 }) →
      (∀ G, hooks.updateLevel G = { G with level := G.level + 1 }) →
      (∀ n G, (hooks.updateScore n G).linescleared = G.linescleared ∧
        (hooks.updateScore n G).level = G.level) →
      ∀ (boards : List Grid) (G0 G1 : GameVars) (calls : List HookCall),
        G0.level = 0 → G0.linescleared < 10 →
        playClears hooks boards G0 = some (G1, calls) →
        (G1.linescleared = 10 → calls.count HookCall.updateLevel = 1) ∧
          (G1.linescleared ≤ 9 → calls.count HookCall.updateLevel = 0)) := by
  constructor
  · have hloop := clearFullLinesLoop_eq g hg hw (2 * g.height + 1) (le_refl _)
    have hfull : g.clearFullLines = some
        ({ g with cells :=
            List.replicate (g.cells.filter rowFull).length (emptyRow g.width)
              ++ g.cells.filter (fun r => !rowFull r) },
          (g.cells.filter rowFull).length) := hloop
    obtain ⟨hc, hG⟩ := gameAfterClear_count hooks (g.cells.filter rowFull).length GAME
    refine ⟨_, (g.cells.filter rowFull).length,
      (gameAfterClear hooks (g.cells.filter rowFull).length GAME).1,
      (gameAfterClear hooks (g.cells.filter rowFull).length GAME).2, hfull, ?_, ?_, ?_, ?_, ?_⟩
    · rw [clearFullLinesHooks_eq, hfull]
      rfl
    · rw [hc]
      split <;> omega
    · rw [← List.count_pos_iff, hc]
      split
      · rename_i h
        exact ⟨fun _ => h, fun _ => Nat.one_pos⟩
      · rename_i h
        exact ⟨fun h0 => absurd h0 (lt_irrefl 0), fun h1 => absurd h1 h⟩
    · intro hmem
      rw [← List.count_pos_iff, hc] at hmem
      by_cases hcond : (hooks.updateScore (g.cells.filter rowFull).length
          (hooks.updateLines^[(g.cells.filter rowFull).length] GAME)).linescleared
          ≥ ((hooks.updateScore (g.cells.filter rowFull).length
            (hooks.updateLines^[(g.cells.filter rowFull).length] GAME)).level + 1) * 10
      · rw [hG, if_pos hcond]
        refine ⟨?_, rfl⟩
        unfold gameAfterClear
        rw [if_pos hcond]
        simp [List.getLast?_append]
      · rw [if_neg hcond] at hmem
        omega
    · intro hmem
      rw [← List.count_pos_iff, hc] at hmem
      by_cases hcond : (hooks.updateScore (g.cells.filter rowFull).length
          (hooks.updateLines^[(g.cells.filter rowFull).length] GAME)).linescleared
          ≥ ((hooks.updateScore (g.cells.filter rowFull).length
            (hooks.updateLines^[(g.cells.filter rowFull).length] GAME)).level + 1) * 10
      · rw [if_pos hcond] at hmem
        omega
      · rw [hG, if_neg hcond]
  · intro hlines hlevel hscore boards G0 G1 calls h0 h9 hplay
    obtain ⟨_, m2, m3⟩ := playClears_levels hooks hlines hlevel hscore boards G0 G1 calls hplay
    exact ⟨fun h => m3 h0 h9 h, fun h => m2 (by rw [h0]; omega)⟩

/-- C13 (witness): ten calls that clear one line each, then a call that clears none,
with the counting hooks. -/
theorem updateLevel_once_witness :
    oneFullRowBoard.WF ∧ 1 ≤ oneFullRowBoard.width ∧
      playClears countingHooks (List.replicate 10 oneFullRowBoard ++ [Grid.new 2 2]) initialGame
        = some ({ initialGame with linescleared := 10, score := 10, level := 1 },
            (List.replicate 9 [HookCall.updateLines, HookCall.updateScore 1]).flatten ++
              [HookCall.updateLines, HookCall.updateScore 1, HookCall.updateLevel,
                HookCall.updateScore 0]) ∧
      List.count HookCall.updateLevel
        ((List.replicate 9 [HookCall.updateLines, HookCall.updateScore 1]).flatten ++
          [HookCall.updateLines, HookCall.updateScore 1, HookCall.updateLevel,
            HookCall.updateScore 0]) = 1 :=
  ⟨by decide, by decide, by decide,
    ((updateLevel_once countingHooks oneFullRowBoard initialGame (by decide) (by decide)).2
      (fun _ => rfl) (fun _ => rfl) (fun _ _ => ⟨rfl, rfl⟩)
      (List.replicate 10 oneFullRowBoard ++ [Grid.new 2 2]) initialGame
      { initialGame with linescleared := 10, score := 10, level := 1 } _ rfl (by decide)
      (by decide)).1 rfl⟩

/-- C14 (counterexample): after `setup()` with an O piece, `hardDrop()` puts the
piece at row 18 with the timer at `DROP_INTERVAL` = 799. In a frame with
`current = prev`, that is with 0 ms elapsed, the timer stays at 799, which does
not exceed 799: the piece is not drop-ready and is not locked; the frame only
renders it, and it is still the active piece with the same next type. -/
theorem hardDrop_zero_dt_counterexample :
    Piece.hardDrop 21 startState.grid oPieceSpawn = some droppedO ∧
      droppedState.GAME.paused = false ∧ droppedState.prev = 0 ∧
      (advanceTimer droppedState (0 - droppedState.prev) droppedO).dropReady = false ∧
      drawLog countingHooks 0 0 0 droppedState
        = some ({ droppedState with grid := (Grid.new 10 20).stamp droppedO },
            [{ grid := Grid.new 10 20, piece := droppedO }]) := by
  refine ⟨by decide, rfl, rfl, rfl, ?_⟩
  exact tick_wait countingHooks 0 0 0 droppedState droppedO (Grid.new 10 20) rfl
    ⟨by decide, by decide, by decide, by decide, Or.inl rfl⟩ rfl

/-- C14 (amended): on a well-formed board of at least 9x8 cells that keeps the
cell invariant, `hardDrop()` on a valid piece with a filled cell returns a piece
`q` with the timer at `DROP_INTERVAL`, valid where it is and invalid one row
lower. In the next frame, if the game is not paused and more than 0 ms have
passed, the piece is drop-ready, and the frame returns: its first `insertPiece`
call inserts `q` into the board at that resting position, `clearFullLines()`
runs on the resulting board, and at the end the active piece is a newly spawned
piece, or there is none and the loop is stopped. -/
theorem hardDrop_then_tick (hooks : Hooks) (g : Grid) (p : Piece) (fuel : Nat) (hg : g.WF)
    (hc : g.CellInv) (hw : 9 ≤ g.width) (hh : 8 ≤ g.height) (hp : p.WF)
    (hfill : ∃ i j v, p.entry i j = some v ∧ v ≠ 0) (hv : g.isValid p = some true)
    (hfuel : ((g.height : Int) - p.y).toNat < fuel) :
    ∃ q, Piece.hardDrop fuel g p = some q ∧ q.dropBuffer = DROP_INTERVAL ∧
      g.isValid q = some true ∧ g.isValid q.moveDown = some false ∧
      ∀ (s : State) (current : Nat) (d1 d2 : Fin 7), s.activePiece = some q →
        (s.grid = g ∨ g.insertPiece q = some s.grid) → s.GAME.paused = false →
        s.prev < current →
        (advanceTimer s (current - s.prev) q).dropReady = true ∧
        ∃ s1 rest g3 lines,
          drawLog hooks current d1 d2 s
            = some (s1, { grid := g, piece := q.resetBuffer } :: rest) ∧
          q.resetBuffer.x = q.x ∧ q.resetBuffer.y = q.y ∧
          q.resetBuffer.representation = q.representation ∧
          g.insertPiece q.resetBuffer = some (g.stamp q) ∧
          (g.stamp q).clearFullLines = some (g3, lines) ∧
          ((s1.activePiece = some (Piece.new g3 s.nextType none none) ∧
              s1.grid = g3.stamp (Piece.new g3 s.nextType none none)) ∨
            (s1.activePiece = none ∧ s1.looping = false)) := by
  obtain ⟨q, h1, h2, h3, _, _, _, _, h8, h9⟩ := hardDrop_resting g hg p hp hfill hv fuel hfuel
  refine ⟨q, h1, h3, h8, h9, ?_⟩
  intro s current d1 d2 hact hgrid hrun hdt
  have hst : Stamped g q s.grid := ⟨hg, hc, h2, h8, hgrid⟩
  have hready : (advanceTimer s (current - s.prev) q).dropReady = true := by
    rw [advanceTimer_running s _ q hrun]
    unfold Piece.dropReady Piece.update
    simp only [decide_eq_true_eq]
    rw [h3]
    omega
  refine ⟨hready, ?_⟩
  obtain ⟨g3, G3, hc3, _, c0, _, _, _, _, hcase⟩ :=
    tick_lock hooks current d1 d2 s q g hact hst hready h9 hw hh
  have hins := (stamped_facts g q s.grid hst).2.2.2.2.2.2.2.1
  rcases hcase with ⟨_, hd⟩ | ⟨_, hd⟩
  · exact ⟨_, _, g3, _, hd, rfl, rfl, rfl, hins, c0, Or.inl ⟨rfl, rfl⟩⟩
  · exact ⟨_, _, g3, _, hd, rfl, rfl, rfl, hins, c0, Or.inr ⟨rfl, rfl⟩⟩

/-- C14 (witness): the O piece dropped on the empty 10x20 board, and the frame 1 ms later. -/
theorem hardDrop_then_tick_witness :
    (Grid.new 10 20).WF ∧ (Grid.new 10 20).CellInv ∧ oPieceSpawn.WF ∧
      (∃ i j v, oPieceSpawn.entry i j = some v ∧ v ≠ 0) ∧
      (Grid.new 10 20).isValid oPieceSpawn = some true ∧
      Piece.hardDrop 21 (Grid.new 10 20) oPieceSpawn = some droppedO ∧
      (advanceTimer droppedState (1 - droppedState.prev) droppedO).dropReady = true ∧
      ∃ s1 rest g3 lines,
        drawLog countingHooks 1 0 0 droppedState
          = some (s1, { grid := Grid.new 10 20, piece := droppedO.resetBuffer } :: rest) ∧
        ((Grid.new 10 20).stamp droppedO).clearFullLines = some (g3, lines) ∧
        ((s1.activePiece = some (Piece.new g3 droppedState.nextType none none) ∧
            s1.grid = g3.stamp (Piece.new g3 droppedState.nextType none none)) ∨
          (s1.activePiece = none ∧ s1.looping = false)) := by
  obtain ⟨q, h1, _, _, _, h5⟩ := hardDrop_then_tick countingHooks (Grid.new 10 20) oPieceSpawn 21
    (by decide) (by decide) (by decide) (by decide) (by decide) ⟨0, 0, 1, rfl, by decide⟩
    (by decide) (by decide)
  have hq : Piece.hardDrop 21 (Grid.new 10 20) oPieceSpawn = some droppedO := by decide
  rw [hq] at h1
  cases h1
  obtain ⟨a1, s1, rest, g3, lines, a2, _, _, _, _, a7, a8⟩ :=
    h5 droppedState 1 0 0 rfl (Or.inl rfl) rfl (by decide)
  exact ⟨by decide, by decide, by decide, ⟨0, 0, 1, rfl, by decide⟩, by decide, hq, a1,
    s1, rest, g3, lines, a2, a7, a8⟩

/-- C15: in every state reached from `setup()` by frames, `hardDrop()` calls,
lifts of the stamp and changes of the pause flag, a frame taken while the game
runs and the pause flag is set does not advance the fall timer, finds the piece
not drop-ready, and does nothing but `insertPiece` of the unchanged active
piece: `GAME`, the piece (position, shape, timer) and the next type are kept,
so there is no descent, lock, line clear or spawn. When the piece lies inside
the well-formed grid the frame returns, the cells under the piece carry its
stamp and every other cell is as before. In states reached by frames and pause
changes alone the frame returns, and the grid is left as it was unless the
piece, valid on it, had not been stamped yet. -/
theorem paused_tick (hooks : Hooks) (s : State) (hreach : Reachable hooks s)
    (hloop : s.looping = true) (hpaused : s.GAME.paused = true) (current : Nat)
    (d1 d2 : Fin 7) :
    ∃ p, s.activePiece = some p ∧
      advanceTimer s (current - s.prev) p = p ∧ p.dropReady = false ∧
      drawLog hooks current d1 d2 s
        = (s.grid.insertPiece p).map (fun g1 =>
            ({ s with prev := current, grid := g1 }, [{ grid := s.grid, piece := p }])) ∧
      (s.grid.WF → p.WF → p.inside s.grid →
        s.grid.insertPiece p = some (s.grid.stamp p) ∧
        ∀ r c, r < s.grid.height → c < s.grid.width →
          (p.covers r c = true →
            (s.grid.stamp p).cellAt r c = some { color := p.color, active := true }) ∧
          (p.covers r c = false → (s.grid.stamp p).cellAt r c = s.grid.cellAt r c)) ∧
      (TickReachable hooks s →
        ∃ g1, s.grid.insertPiece p = some g1 ∧ (s.grid.isValid p = some true ∨ g1 = s.grid)) := by
  obtain ⟨p, hact, hbuf⟩ := reachable_timer hooks s hreach hloop
  have hadv := advanceTimer_paused s (current - s.prev) p hpaused
  have hnot : p.dropReady = false := by
    unfold Piece.dropReady
    simpa using hbuf
  refine ⟨p, hact, hadv, hnot, ?_, ?_, ?_⟩
  · rw [drawLog_wait hooks current d1 d2 s p hact (by rw [hadv]; exact hnot), hadv, ← hact]
  · intro hg hp hin
    refine ⟨insertPiece_eq s.grid p hg hp hin, ?_⟩
    intro r c hr hc
    constructor
    · intro hcov
      show (s.grid.withCells _).cellAt r c = _
      rw [cellAt_withCells s.grid _ r c hr hc, if_pos hcov]
    · intro hcov
      show (s.grid.withCells _).cellAt r c = _
      rw [cellAt_withCells s.grid _ r c hr hc, if_neg (by rw [hcov]; decide),
        cellAt_fn s.grid hg r c hr hc]
  · intro htick
    obtain ⟨_, _, _, _, hex⟩ := tickReachable_inv hooks s htick
    obtain ⟨p1, base, hact1, hst⟩ := hex hloop
    rw [hact] at hact1
    cases hact1
    obtain ⟨_, _, _, _, _, f6, _, _, f9⟩ := stamped_facts base p s.grid hst
    refine ⟨_, f6, ?_⟩
    rcases f9 with h1 | h1
    · exact Or.inl h1
    · right
      rw [f6] at h1
      exact Option.some.inj h1

/-- C15 (witness): a paused frame at 500 ms from the state after the first frame. -/
theorem paused_tick_witness :
    Reachable countingHooks pausedStart ∧ pausedStart.looping = true ∧
      pausedStart.GAME.paused = true ∧
      drawLog countingHooks 500 0 0 pausedStart
        = some ({ pausedStart with prev := 500 },
            [{ grid := pausedStart.grid, piece := oPieceSpawn.update 10 }]) := by
  have hreach : Reachable countingHooks pausedStart :=
    Reachable.setPaused stampedStart true
      (Reachable.tick startState stampedStart 10 0 0
        [{ grid := Grid.new 10 20, piece := oPieceSpawn.update 10 }]
        (Reachable.setup 0 0 5 0 startState (setup_eq 0 0 5 0)) rfl
        (tick_wait countingHooks 10 0 0 startState oPieceSpawn (Grid.new 10 20) rfl
          ⟨by decide, by decide, by decide, by decide, Or.inl rfl⟩ rfl))
  obtain ⟨p, h1, _, _, h4, _, _⟩ := paused_tick countingHooks pausedStart hreach rfl rfl 500 0 0
  cases h1
  refine ⟨hreach, rfl, rfl, ?_⟩
  rw [h4]
  have hst : Stamped (Grid.new 10 20) (oPieceSpawn.update 10) pausedStart.grid :=
    (stamped_stamp (Grid.new 10 20) oPieceSpawn (by decide) (by decide) (by decide)
      (by decide)).1
  rw [(stamped_facts _ _ _ hst).2.2.2.2.2.1]
  rfl

/-- C16 (counterexample): after `setup()` with an O piece and a first frame at
10 ms the grid carries the stamp of the piece; the frame at 20 ms is not
drop-ready, and its only `insertPiece` call, the render call, is made on that
stamped grid, where `isValid` of the piece is false. -/
theorem render_restamp_counterexample :
    setup 0 0 5 0 = some startState ∧
      drawLog countingHooks 10 0 0 startState
        = some (stampedStart, [{ grid := Grid.new 10 20, piece := oPieceSpawn.update 10 }]) ∧
      TickReachable countingHooks stampedStart ∧ stampedStart.looping = true ∧
      drawLog countingHooks 20 0 0 stampedStart
        = some ({ stampedStart with prev := 20, activePiece := some (oPieceSpawn.update 20) },
            [{ grid := stampedStart.grid, piece := oPieceSpawn.update 20 }]) ∧
      stampedStart.grid.isValid (oPieceSpawn.update 20) = some false := by
  have h0 : setup 0 0 5 0 = some startState := setup_eq 0 0 5 0
  have hst0 : Stamped (Grid.new 10 20) oPieceSpawn startState.grid :=
    ⟨by decide, by decide, by decide, by decide, Or.inl rfl⟩
  have h1 : drawLog countingHooks 10 0 0 startState
      = some (stampedStart, [{ grid := Grid.new 10 20, piece := oPieceSpawn.update 10 }]) :=
    tick_wait countingHooks 10 0 0 startState oPieceSpawn (Grid.new 10 20) rfl hst0 rfl
  have hst1 : Stamped (Grid.new 10 20) (oPieceSpawn.update 10) stampedStart.grid :=
    (stamped_stamp (Grid.new 10 20) oPieceSpawn hst0.1 hst0.2.1 hst0.2.2.1 hst0.2.2.2.1).1
  have h2 : drawLog countingHooks 20 0 0 stampedStart
      = some ({ stampedStart with prev := 20, activePiece := some (oPieceSpawn.update 20) },
          [{ grid := stampedStart.grid, piece := oPieceSpawn.update 20 }]) :=
    tick_wait countingHooks 20 0 0 stampedStart (oPieceSpawn.update 10) (Grid.new 10 20) rfl hst1
      rfl
  refine ⟨h0, h1, ?_, rfl, h2, ?_⟩
  · exact TickReachable.tick startState stampedStart 10 0 0 _
      (TickReachable.setup 0 0 5 0 startState h0) rfl h1
  · have hwf : stampedStart.grid.WF := (stamp_WF (Grid.new 10 20) oPieceSpawn).1
    rw [isValid_false_iff _ _ hwf (by decide)]
    refine ⟨0, 0, 1, rfl, by decide, Or.inr (Or.inr (Or.inr (Or.inr
      ⟨{ color := Color.yellow, active := true }, ?_, rfl⟩)))⟩
    exact cellAt_withCells (Grid.new 10 20) _ 0 4 (by decide) (by decide)

/-- C16 (amended): in every state reached from `setup()` on the 10x20 board by
frames and changes of the pause flag, a frame returns, and each `insertPiece`
call it makes (lock insert, render insert, game-over glyph) keeps inside the
well-formed 10x20 grid it is made on and is either made at a placement that
`isValid` accepts on that grid or puts the piece onto its own stamp and changes
no cell; in a frame in which the piece is drop-ready every call is of the first
kind. -/
theorem insertPiece_calls_ok (hooks : Hooks) (s : State) (hreach : TickReachable hooks s)
    (hloop : s.looping = true) (current : Nat) (d1 d2 : Fin 7) :
    ∃ s1 calls, drawLog hooks current d1 d2 s = some (s1, calls) ∧
      (∀ c ∈ calls, c.grid.WF ∧ c.grid.width = 10 ∧ c.grid.height = 20 ∧
        c.piece.inside c.grid ∧
        (c.grid.isValid c.piece = some true ∨ c.grid.insertPiece c.piece = some c.grid)) ∧
      (∀ p, s.activePiece = some p → (advanceTimer s (current - s.prev) p).dropReady = true →
        ∀ c ∈ calls, c.grid.isValid c.piece = some true) := by
  obtain ⟨s1, calls, h1, _, h3, _, h5⟩ := tick_step hooks 10 20 (by decide) (by decide) current
    d1 d2 s (tickReachable_inv hooks s hreach) hloop
  refine ⟨s1, calls, h1, ?_, h5⟩
  intro c hc
  obtain ⟨⟨a1, _, a3, a4⟩, a5, a6⟩ := h3 c hc
  exact ⟨a1, a5, a6, a3, a4⟩

/-- C16 (witness): the frame at 20 ms from the state after the first frame. -/
theorem insertPiece_calls_ok_witness :
    TickReachable countingHooks stampedStart ∧ stampedStart.looping = true ∧
      ∃ s1 calls, drawLog countingHooks 20 0 0 stampedStart = some (s1, calls) ∧
        (∀ c ∈ calls, c.grid.WF ∧ c.grid.width = 10 ∧ c.grid.height = 20 ∧
          c.piece.inside c.grid ∧
          (c.grid.isValid c.piece = some true ∨ c.grid.insertPiece c.piece = some c.grid)) ∧
        (∀ p, stampedStart.activePiece = some p →
          (advanceTimer stampedStart (20 - stampedStart.prev) p).dropReady = true →
          ∀ c ∈ calls, c.grid.isValid c.piece = some true) :=
  ⟨TickReachable.tick startState stampedStart 10 0 0
      [{ grid := Grid.new 10 20, piece := oPieceSpawn.update 10 }]
      (TickReachable.setup 0 0 5 0 startState (setup_eq 0 0 5 0)) rfl
      (tick_wait countingHooks 10 0 0 startState oPieceSpawn (Grid.new 10 20) rfl
        ⟨by decide, by decide, by decide, by decide, Or.inl rfl⟩ rfl),
    rfl,
    insertPiece_calls_ok countingHooks stampedStart
      (TickReachable.tick startState stampedStart 10 0 0
        [{ grid := Grid.new 10 20, piece := oPieceSpawn.update 10 }]
        (TickReachable.setup 0 0 5 0 startState (setup_eq 0 0 5 0)) rfl
        (tick_wait countingHooks 10 0 0 startState oPieceSpawn (Grid.new 10 20) rfl
          ⟨by decide, by decide, by decide, by decide, Or.inl rfl⟩ rfl))
      rfl 20 0 0⟩

/-- C17: on a freshly constructed board every cell is unoccupied and white;
each of `reset`, `insertPiece`, `clearPiece`, `clearLine` and `clearFullLines`
carries the predicate "every unoccupied cell is white" from the board it is
called on to the board it leaves; and `reset()` on a well-formed board returns,
keeps width and height, and leaves every cell unoccupied and white. -/
theorem cell_invariant :
    (∀ w h : Nat, ∀ row ∈ (Grid.new w h).cells, ∀ c ∈ row,
      c.active = false ∧ c.color = Color.white) ∧
    (∀ g g1 : Grid, g.CellInv → g.reset = some g1 → g1.CellInv) ∧
    (∀ (g g1 : Grid) (p : Piece), g.CellInv → g.insertPiece p = some g1 → g1.CellInv) ∧
    (∀ (g g1 : Grid) (p : Piece), g.CellInv → g.clearPiece p = some g1 → g1.CellInv) ∧
    (∀ (g g1 : Grid) (n : Nat), g.CellInv → g.clearLine n = some g1 → g1.CellInv) ∧
    (∀ (g g1 : Grid) (lines : Nat), g.CellInv → g.clearFullLines = some (g1, lines) →
      g1.CellInv) ∧
    (∀ g : Grid, g.WF → ∃ g1, g.reset = some g1 ∧ g1.WF ∧ g1.width = g.width ∧
      g1.height = g.height ∧
      ∀ row ∈ g1.cells, ∀ c ∈ row, c.active = false ∧ c.color = Color.white) := by
  refine ⟨?_, reset_CellInv, insertPiece_CellInv, clearPiece_CellInv, clearLine_CellInv, ?_, ?_⟩
  · intro w h row hrow c hc
    rw [(new_cells w h).2.2.2 row hrow c hc]
    exact ⟨rfl, rfl⟩
  · intro g g1 lines hinv h
    exact clearFullLinesLoop_CellInv _ g g1 _ 0 lines hinv h
  · intro g hg
    obtain ⟨n1, n2, n3, n4⟩ := new_cells g.width g.height
    refine ⟨Grid.new g.width g.height, reset_eq_new g hg, n1, n2, n3, ?_⟩
    intro row hrow c hc
    rw [n4 row hrow c hc]
    exact ⟨rfl, rfl⟩

/-- C17 (witness): `clearFullLines` on the 2x2 board whose bottom row is full. -/
theorem cell_invariant_witness :
    oneFullRowBoard.CellInv ∧ oneFullRowBoard.clearFullLines = some (Grid.new 2 2, 1) ∧
      (Grid.new 2 2).CellInv :=
  ⟨by decide, by decide,
    cell_invariant.2.2.2.2.2.1 oneFullRowBoard (Grid.new 2 2) 1 (by decide) (by decide)⟩

/-- C18: in every state reached from `setup()` on the 10x20 board by frames and
changes of the pause flag, a frame returns a state. In the model every cell
read or write outside the arrays yields `none`, so this says that each access
of the frame (the lift by `clearPiece`, the inserts, the row reads and writes
of `isLineFull` and `clearLine`, the reset and the glyph insert at (1, 1)) has
its row in `[0, height)` and its column in `[0, width)`. Besides, the grid is a
well-formed 10x20 array before and after, the active piece has a square shape
whose filled cells lie inside the grid, and so has the piece of every
`insertPiece` call on the grid it is made on. -/
theorem tick_index_safe (hooks : Hooks) (s : State) (hreach : TickReachable hooks s)
    (hloop : s.looping = true) (current : Nat) (d1 d2 : Fin 7) :
    ∃ s1 calls, drawLog hooks current d1 d2 s = some (s1, calls) ∧
      draw hooks current d1 d2 s = some s1 ∧
      s.grid.WF ∧ s.grid.width = 10 ∧ s.grid.height = 20 ∧
      s1.grid.WF ∧ s1.grid.width = 10 ∧ s1.grid.height = 20 ∧
      (∃ p, s.activePiece = some p ∧ p.WF ∧ p.inside s.grid) ∧
      (∀ c ∈ calls, c.grid.WF ∧ c.grid.width = 10 ∧ c.grid.height = 20 ∧ c.piece.WF ∧
        c.piece.inside c.grid) := by
  have hinv := tickReachable_inv hooks s hreach
  obtain ⟨s1, calls, h1, h2, h3, h4, _⟩ := tick_step hooks 10 20 (by decide) (by decide) current
    d1 d2 s hinv hloop
  refine ⟨s1, calls, h1, by unfold draw; rw [h1]; rfl, hinv.1, hinv.2.2.1, hinv.2.2.2.1, h2.1,
    h2.2.2.1, h2.2.2.2.1, h4, ?_⟩
  intro c hc
  obtain ⟨⟨a1, a2, a3, _⟩, a5, a6⟩ := h3 c hc
  exact ⟨a1, a5, a6, a2, a3⟩

/-- C18 (witness): the first frame after `setup()` with an O piece. -/
theorem tick_index_safe_witness :
    TickReachable countingHooks startState ∧ startState.looping = true ∧
      ∃ s1 calls, drawLog countingHooks 1000 0 0 startState = some (s1, calls) ∧
        draw countingHooks 1000 0 0 startState = some s1 ∧
        startState.grid.WF ∧ startState.grid.width = 10 ∧ startState.grid.height = 20 ∧
        s1.grid.WF ∧ s1.grid.width = 10 ∧ s1.grid.height = 20 ∧
        (∃ p, startState.activePiece = some p ∧ p.WF ∧ p.inside startState.grid) ∧
        (∀ c ∈ calls, c.grid.WF ∧ c.grid.width = 10 ∧ c.grid.height = 20 ∧ c.piece.WF ∧
          c.piece.inside c.grid) :=
  ⟨TickReachable.setup 0 0 5 0 startState (setup_eq 0 0 5 0), rfl,
    tick_index_safe countingHooks startState
      (TickReachable.setup 0 0 5 0 startState (setup_eq 0 0 5 0)) rfl 1000 0 0⟩

/-- C19: on a well-formed board of width at least 1, whatever its height, the
scanning loop of `clearFullLines()` ends: with any fuel from `2 * height + 1` on
it returns the same result, the number of clears is the number of full rows and
is at most `height`, and each `clearLine` of a full row leaves row 0 empty and
one full row fewer. On a well-formed board `hardDrop()` ends for every piece
with a square shape that has a filled cell: with enough fuel it returns the
piece one row above the first invalid row. -/
theorem clearFullLines_hardDrop_terminate (g : Grid) (hg : g.WF) (p : Piece) (hp : p.WF)
    (hfill : ∃ i j v, p.entry i j = some v ∧ v ≠ 0) :
    (1 ≤ g.width →
      (∃ g1 lines, g.clearFullLines = some (g1, lines) ∧
        (∀ fuel, 2 * g.height + 1 ≤ fuel →
          clearFullLinesLoop fuel g ((g.height : Int) - 1) 0 = some (g1, lines)) ∧
        lines = (g.cells.filter rowFull).length ∧ lines ≤ g.height) ∧
      (∀ (n : Nat) (R : List Cell), g.cells[n]? = some R → rowFull R = true →
        ∃ g2, g.clearLine n = some g2 ∧ g2.cells[0]? = some (emptyRow g.width) ∧
          (g2.cells.filter rowFull).length < (g.cells.filter rowFull).length)) ∧
    (∃ q, ∀ fuel, ((g.height : Int) - p.y).toNat < fuel → Piece.hardDrop fuel g p = some q) := by
  refine ⟨fun hw => ⟨?_, ?_⟩, ?_⟩
  · refine ⟨_, _, clearFullLinesLoop_eq g hg hw _ (le_refl _),
      fun fuel hfuel => clearFullLinesLoop_eq g hg hw fuel hfuel, rfl, ?_⟩
    rw [← hg.1]
    exact List.length_filter_le _ _
  · intro n R hn hfull
    obtain ⟨g2, h1, _, _, _, h5, h6⟩ := clearLine_fullCount g hg hw n R hn hfull
    exact ⟨g2, h1, h5, by omega⟩
  · obtain ⟨k, _, _, h⟩ := hardDrop_total g hg p hp hfill
    exact ⟨_, h⟩

/-- C19 (witness): the board with five full rows and the T piece at its spawn position. -/
theorem clearFullLines_hardDrop_terminate_witness :
    fiveFullBoard.WF ∧ tPieceSpawn.WF ∧ (∃ i j v, tPieceSpawn.entry i j = some v ∧ v ≠ 0) ∧
      (∃ g1 lines, fiveFullBoard.clearFullLines = some (g1, lines) ∧ lines ≤ 20) ∧
      (∃ q, ∀ fuel, 20 < fuel → Piece.hardDrop fuel fiveFullBoard tPieceSpawn = some q) := by
  have h := clearFullLines_hardDrop_terminate fiveFullBoard (by decide) tPieceSpawn (by decide)
    ⟨0, 1, 1, rfl, by decide⟩
  obtain ⟨⟨g1, lines, h1, _, _, h4⟩, _⟩ := h.1 (by decide)
  exact ⟨by decide, by decide, ⟨0, 1, 1, rfl, by decide⟩, ⟨g1, lines, h1, h4⟩, h.2⟩

/-- C20: on a well-formed board without a full row, take one of the 7 playable
pieces, placed anywhere, after any number of rotations, at a position that
`isValid` accepts. Then `insertPiece` followed by `clearFullLines()` returns and
clears at most 4 lines; the lines cleared are the full rows of the stamped
board, all of which have their index among the rows of the piece's bounding
box; the rows that are not full are kept in order under new empty rows; and the
resulting board has no full row, so that a second `clearFullLines()` clears 0
lines and returns the same board. -/
theorem stamp_then_clear (g : Grid) (t : PieceType) (x y : Int) (q : Piece) (hg : g.WF)
    (hno : ∀ R ∈ g.cells, rowFull R = false) (ht : t ≠ PieceType.Gameover)
    (hrot : RotationOf (Piece.new g t (some x) (some y)) q)
    (hv : g.isValid q = some true) :
    ∃ g1 g2 lines, g.insertPiece q = some g1 ∧ g1.clearFullLines = some (g2, lines) ∧
      lines ≤ 4 ∧ lines = (g1.cells.filter rowFull).length ∧
      (∀ (r : Nat) (R : List Cell), g1.cells[r]? = some R → rowFull R = true →
        q.y ≤ (r : Int) ∧ (r : Int) < q.y + (q.size : Int)) ∧
      g2.cells = List.replicate lines (emptyRow g.width)
        ++ g1.cells.filter (fun R => !rowFull R) ∧
      (∀ R ∈ g2.cells, rowFull R = false) ∧
      g2.clearFullLines = some (g2, 0) := by
  obtain ⟨hq, hsize, _, _, _⟩ :=
    rotationOf_shape _ q (catalog_WF g t (some x) (some y)).1 hrot
  have hle : q.size ≤ 4 := by
    rw [hsize]
    exact playable_size g t _ _ ht
  have hin : q.inside g := inside_of_not_collides g q ((isValid_true_iff g q hg hq).mp hv)
  have hrows := stamped_full_rows g q hg hno
  obtain ⟨g2, c1, _, _, _, c5, c6, c7⟩ := clearFullLines_result
    (g.withCells (fun r c =>
      if q.covers r c = true then { color := q.color, active := true } else g.fn r c))
    (withCells_WF g _) (width_pos_or_empty g hg hno)
  refine ⟨_, g2, _, insertPiece_eq g q hg hq hin, c1, ?_, rfl, hrows, c5, c6, c7⟩
  refine le_trans (filter_length_le_of_interval _ rowFull q.y.toNat q.size ?_) hle
  intro r R hr hfull
  have := hrows r R hr hfull
  omega

/-- C20 (witness): the I piece completing the bottom row of the board with a gap of four cells. -/
theorem stamp_then_clear_witness :
    gapBoard.WF ∧ (∀ R ∈ gapBoard.cells, rowFull R = false) ∧
      gapBoard.isValid (Piece.new gapBoard PieceType.I (some 3) (some 18)) = some true ∧
      ∃ g1 g2 lines,
        gapBoard.insertPiece (Piece.new gapBoard PieceType.I (some 3) (some 18)) = some g1 ∧
        g1.clearFullLines = some (g2, lines) ∧
        lines ≤ 4 ∧ lines = (g1.cells.filter rowFull).length ∧
        (∀ (r : Nat) (R : List Cell), g1.cells[r]? = some R → rowFull R = true →
          (Piece.new gapBoard PieceType.I (some 3) (some 18)).y ≤ (r : Int) ∧
            (r : Int) < (Piece.new gapBoard PieceType.I (some 3) (some 18)).y
              + ((Piece.new gapBoard PieceType.I (some 3) (some 18)).size : Int)) ∧
        g2.cells = List.replicate lines (emptyRow gapBoard.width)
          ++ g1.cells.filter (fun R => !rowFull R) ∧
        (∀ R ∈ g2.cells, rowFull R = false) ∧
        g2.clearFullLines = some (g2, 0) :=
  ⟨by decide, by decide, by decide,
    stamp_then_clear gapBoard PieceType.I 3 18 _ (by decide) (by decide) (by decide)
      RotationOf.start (by decide)⟩

end Tetris
